import Mathlib

/-!
# Strike-chain engine of the OpenAlgo options scalping extension

Shallow embedding of the strike-chain part of `src/contentScript.js`:
`getActiveSymbol`, `fetchExpiry`, `fetchStrikeChain`, `switchOptionType`,
`_fetchStrikeLTPs`, `extendStrikes` and the handlers that drive them (symbol
change and CE/PE toggle in `setupScalpingEvents`, expiry click in
`updateExpirySlider`).

Modelling conventions

* JavaScript strings are lists of characters (`Str`).
* JavaScript numbers that hold strikes, levels and lot sizes are integers
  (`Int` / `Nat`); the embedding is exact as long as they stay inside the
  safe-integer range of a double.  Prices (`ltp`, `prev_close`) are only
  copied and tested for falsiness, they are rationals.
* An `async` function is run to completion in one step; every response it
  awaits is an argument of the Lean function.  The two in-flight flags
  (`isFetchingStrikeChain`, `isExtendingStrikes`) are part of the state.
* `status === 'success'` of a response is the Boolean field `success`.
* The JavaScript `state` object and the module-level variables are split in
  two records.  `State` holds the variables the chain code reads and writes to
  build, relabel, extend and quote the chain.  `Panel` holds the selection,
  the order ticket, the net position and the stop-loss orders.  No function
  of the chain part reads a `Panel` field, and the calls of the chain
  functions that only touch `Panel` fields or the DOM
  (`updateSelectedOptionLTP`, `initializeQuantityInput`,
  `updateStrikeDropdown`, ...) are left out of their bodies; they are modelled
  on their own, on `Panel`.
* The DOM is reduced to the values the code reads back from it: the
  `dataset` and value of the net-position input and the values of the form
  inputs, already parsed.  Notifications and rendering are not modelled.
* `setTimeout` / `clearTimeout` are modelled on a logical clock counted in
  milliseconds; a timer fires exactly when it is due.
* The live-tick part (`wsConnect` ... `updateWsSubscriptions`) works on a
  third record, `Live`: the socket with the messages sent on it, the two
  subscription slots, the two pending slots, the animation-frame flag and the
  reconnect timer.  The socket events (`onopen`, `onclose`), the animation
  frame and the reconnect timer are separate steps.  The `ltp` of a tick is a
  number.
* The quantity part (`initializeQuantityInput`, the handlers of the lots
  controls, `getApiQuantity`) works on a fourth record, `Quantity`:
  `state.lots` and the lots input as the handlers read it.
-/

namespace OpenAlgo

/-! ## Strings -/

/-- JavaScript string, as a list of characters. -/
abbrev Str := List Char

/-- Decimal rendering of a natural number, as in a template literal. -/
def natToStr (n : Nat) : Str := Nat.toDigits 10 n

/-- Decimal rendering of an integer number, as in a template literal. -/
def intToStr : Int → Str
  | Int.ofNat n => natToStr n
  | Int.negSucc n => '-' :: natToStr (n + 1)

/-- Value of a run of decimal digits (the digits part of `parseInt`). -/
def parseDigits (ds : Str) : Nat :=
  ds.foldl (fun acc c => 10 * acc + (c.toNat - 48)) 0

/-- `parseInt(s)` on a string with an optional sign followed by decimal digits
and arbitrary trailing text; `none` stands for `NaN`.  Leading white space and
the `0x` radix marker do not occur in the strings the chain code parses. -/
def parseInt (s : Str) : Option Int :=
  match s with
  | '-' :: rest =>
    let ds := rest.takeWhile Char.isDigit
    if ds.isEmpty then none else some (-(parseDigits ds : Int))
  | '+' :: rest =>
    let ds := rest.takeWhile Char.isDigit
    if ds.isEmpty then none else some (parseDigits ds : Int)
  | _ =>
    let ds := s.takeWhile Char.isDigit
    if ds.isEmpty then none else some (parseDigits ds : Int)

/-- `s.replace(pat, rep)` with a string pattern: the first occurrence only. -/
def replaceFirst (pat rep : Str) : Str → Str
  | [] => if pat.isEmpty then rep else []
  | c :: cs =>
    if pat.isPrefixOf (c :: cs) then rep ++ (c :: cs).drop pat.length
    else c :: replaceFirst pat rep cs

/-- `s.replace(/[A-Z]/g, '')`. -/
def removeUpper (s : Str) : Str := s.filter (fun c => !c.isUpper)

/-- `s.match(/^[A-Z]+(?:\d{2}[A-Z]{3}\d{2})(\d+)(?=CE$|PE$)/)`: the first
capture group when the pattern matches.  Both greedy runs are forced (a
shorter run of letters is followed by a letter, a shorter run of digits by a
digit), so the match is deterministic. -/
def strikeMatch (s : Str) : Option Str :=
  let letters := s.takeWhile Char.isUpper
  let r1 := s.dropWhile Char.isUpper
  if letters.isEmpty then none
  else
    match r1 with
    | d1 :: d2 :: m1 :: m2 :: m3 :: y1 :: y2 :: r2 =>
      if d1.isDigit && d2.isDigit && m1.isUpper && m2.isUpper && m3.isUpper
          && y1.isDigit && y2.isDigit then
        let digits := r2.takeWhile Char.isDigit
        let r3 := r2.dropWhile Char.isDigit
        if digits.isEmpty then none
        else if r3 = ['C', 'E'] || r3 = ['P', 'E'] then some digits
        else none
      else none
    | _ => none

/-- `m ? parseInt(m[1]) : 0` for the strike pattern applied to a symbol. -/
def parseStrike (symbol : Str) : Int :=
  match strikeMatch symbol with
  | some ds => (parseDigits ds : Int)
  | none => 0

/-! ## Data model -/

/-- Values of `state.optionType`. -/
inductive OptionType where
  | CE
  | PE
  deriving DecidableEq, Repr

/-- The string held in `state.optionType`. -/
def OptionType.toStr : OptionType → Str
  | .CE => ['C', 'E']
  | .PE => ['P', 'E']

/-- The toggle `state.optionType === 'CE' ? 'PE' : 'CE'`. -/
def OptionType.toggle : OptionType → OptionType
  | .CE => .PE
  | .PE => .CE

/-- One entry of `settings.symbols`; a missing `quantityMode` is the empty
string (the field is only compared with `'lots'` and `'quantity'`). -/
structure SymbolConfig where
  id : Str
  symbol : Str
  exchange : Str
  optionExchange : Str
  productType : Str := ['M', 'I', 'S']
  quantityMode : Str := []
  deriving DecidableEq, Repr

/-- The part of `settings` the chain code reads. -/
structure Settings where
  symbols : List SymbolConfig
  activeSymbolId : Str
  apiKey : Str
  hostUrl : Str
  deriving DecidableEq, Repr

/-- One element of `strikeChain`. -/
structure StrikeRung where
  offset : Str
  symbol : Str
  exchange : Str
  strike : Int
  lotsize : Int
  ltp : ℚ
  prevClose : ℚ
  deriving DecidableEq

/-- Response of `/api/v1/optionsymbol`. -/
structure SymbolResponse where
  success : Bool
  symbol : Str
  exchange : Option Str
  lotsize : Option Int
  deriving DecidableEq

/-- The `data` object of one multiquotes row. -/
structure QuoteData where
  ltp : Option ℚ
  prev_close : Option ℚ
  deriving DecidableEq

/-- One row of `result.results` of `/api/v1/multiquotes`. -/
structure QuoteRow where
  symbol : Str
  data : Option QuoteData
  deriving DecidableEq

/-- Response of `/api/v1/multiquotes`. -/
structure QuoteResponse where
  success : Bool
  results : Option (List QuoteRow)
  deriving DecidableEq

/-- Response of `/api/v1/expiry`. -/
structure ExpiryResponse where
  success : Bool
  data : Option (List Str)
  deriving DecidableEq

/-- The module-level variables the chain code reads and writes. -/
structure State where
  settings : Settings
  optionType : OptionType
  selectedExpiry : Str
  extendLevel : Nat
  lotSize : Int
  loadingStrikes : Bool
  expiryList : List Str
  strikeChain : List StrikeRung
  isFetchingStrikeChain : Bool
  isExtendingStrikes : Bool
  strikeInterval : Int
  cachedATMStrike : Int
  deriving DecidableEq

/-- The values of the module-level variables when the script is loaded. -/
def State.initial (settings : Settings) : State where
  settings := settings
  optionType := .CE
  selectedExpiry := []
  extendLevel := 5
  lotSize := 0
  loadingStrikes := false
  expiryList := []
  strikeChain := []
  isFetchingStrikeChain := false
  isExtendingStrikes := false
  strikeInterval := 0
  cachedATMStrike := 0

/-! ## Operations -/

/-- `getActiveSymbol()`. -/
def getActiveSymbol (settings : Settings) : Option SymbolConfig :=
  if settings.symbols.length = 0 then none
  else
    match settings.symbols.find? (fun s => s.id = settings.activeSymbolId) with
    | some s => some s
    | none => settings.symbols.head?

/-- `a || b` for an optional string: `undefined` and the empty string are falsy. -/
def strOr (a : Option Str) (b : Str) : Str :=
  match a with
  | some x => if x.isEmpty then b else x
  | none => b

/-- `a || b` for an optional integer: `undefined` and `0` are falsy. -/
def intOr (a : Option Int) (b : Int) : Int :=
  match a with
  | some x => if x = 0 then b else x
  | none => b

/-- `a || 0` for an optional price. -/
def priceOrZero (a : Option ℚ) : ℚ :=
  match a with
  | some x => x
  | none => 0

/-- `isPE ? 1 : -1`. -/
def itmDirection (t : OptionType) : Int := if t = .PE then 1 else -1

/-- `isPE ? -1 : 1`. -/
def otmDirection (t : OptionType) : Int := if t = .PE then -1 else 1

/-- The offset tag of the ITM rung of level `i`. -/
def itmOffset (i : Nat) : Str := ['I', 'T', 'M'] ++ natToStr i

/-- The offset tag of the OTM rung of level `i`. -/
def otmOffset (i : Nat) : Str := ['O', 'T', 'M'] ++ natToStr i

/-- The offset tag of the ATM rung. -/
def atmOffset : Str := ['A', 'T', 'M']

/-- The template literal `symbol.symbol + selectedExpiry + strike + optionType`. -/
def buildSymbol (underlying expiry : Str) (strike : Int) (t : OptionType) : Str :=
  underlying ++ expiry ++ intToStr strike ++ t.toStr

/-- The object pushed for the ITM rung of level `i` in `fetchStrikeChain`. -/
def itmRung (underlying expiry exchange : Str) (t : OptionType) (atmStrike interval lotSize : Int)
    (i : Nat) : StrikeRung :=
  let strike := atmStrike + (i : Int) * interval * itmDirection t
  { offset := itmOffset i
    symbol := buildSymbol underlying expiry strike t
    exchange := exchange
    strike := strike
    lotsize := lotSize
    ltp := 0
    prevClose := 0 }

/-- The object pushed for the OTM rung of level `i` in `fetchStrikeChain`. -/
def otmRung (underlying expiry exchange : Str) (t : OptionType) (atmStrike interval lotSize : Int)
    (i : Nat) : StrikeRung :=
  let strike := atmStrike + (i : Int) * interval * otmDirection t
  { offset := otmOffset i
    symbol := buildSymbol underlying expiry strike t
    exchange := exchange
    strike := strike
    lotsize := lotSize
    ltp := 0
    prevClose := 0 }

/-- The loop `for (let i = extendLevel; i >= 1; i--)` of `fetchStrikeChain`. -/
def itmLoop (mk : Nat → StrikeRung) : Nat → List StrikeRung
  | 0 => []
  | i + 1 => mk (i + 1) :: itmLoop mk i

/-- The loop `for (let i = 1; i <= extendLevel; i++)` of `fetchStrikeChain`. -/
def otmLoop (mk : Nat → StrikeRung) : Nat → List StrikeRung
  | 0 => []
  | i + 1 => otmLoop mk i ++ [mk (i + 1)]

/-- Update of the first element satisfying `p`: `find` followed by a write
through the found reference. -/
def updateFirst (p : StrikeRung → Bool) (f : StrikeRung → StrikeRung) :
    List StrikeRung → List StrikeRung
  | [] => []
  | x :: xs => if p x then f x :: xs else x :: updateFirst p f xs

/-- The body of the `forEach` over the multiquotes rows. -/
def applyQuoteRow (chain : List StrikeRung) (r : QuoteRow) : List StrikeRung :=
  match r.data with
  | some d =>
    updateFirst (fun s => s.symbol = r.symbol)
      (fun s => { s with ltp := priceOrZero d.ltp, prevClose := priceOrZero d.prev_close }) chain
  | none => chain

/-- The block `if (result.status === 'success' && result.results) forEach`. -/
def applyQuotes (chain : List StrikeRung) (result : QuoteResponse) : List StrikeRung :=
  if result.success then
    match result.results with
    | some rows => rows.foldl applyQuoteRow chain
    | none => chain
  else chain

/-- `_fetchStrikeLTPs()`, with the multiquotes response as argument. -/
def _fetchStrikeLTPs (s : State) (result : QuoteResponse) : State :=
  if s.strikeChain.length = 0 then s
  else { s with strikeChain := applyQuotes s.strikeChain result, loadingStrikes := false }

/-- The chain built by `fetchStrikeChain` once both responses are in. -/
def buildChain (underlying expiry exchange : Str) (atmSymbol : Str) (t : OptionType)
    (atmStrike interval lotSize : Int) (level : Nat) : List StrikeRung :=
  itmLoop (itmRung underlying expiry exchange t atmStrike interval lotSize) level
    ++ [{ offset := atmOffset
          symbol := atmSymbol
          exchange := exchange
          strike := atmStrike
          lotsize := lotSize
          ltp := 0
          prevClose := 0 }]
    ++ otmLoop (otmRung underlying expiry exchange t atmStrike interval lotSize) level

/-- `fetchStrikeChain()`, with the two optionsymbol responses and the
multiquotes response as arguments. -/
def fetchStrikeChain (s : State) (atmResult itm1Result : SymbolResponse)
    (quotes : QuoteResponse) : State :=
  if s.isFetchingStrikeChain then s
  else
    match getActiveSymbol s.settings with
    | none => { s with isFetchingStrikeChain := false }
    | some symbol =>
      if s.selectedExpiry.isEmpty then { s with isFetchingStrikeChain := false }
      else if !atmResult.success || !itm1Result.success then
        { s with isFetchingStrikeChain := false, loadingStrikes := false }
      else
        let atmStrike := parseStrike atmResult.symbol
        let itm1Strike := parseStrike itm1Result.symbol
        let interval : Int := |atmStrike - itm1Strike|
        let lotSize := intOr atmResult.lotsize 25
        let exchange := strOr atmResult.exchange symbol.optionExchange
        let s1 : State :=
          { s with
            isFetchingStrikeChain := true
            loadingStrikes := true
            strikeInterval := interval
            cachedATMStrike := atmStrike
            lotSize := lotSize
            strikeChain := buildChain symbol.symbol s.selectedExpiry exchange atmResult.symbol
              s.optionType atmStrike interval lotSize s.extendLevel }
        { _fetchStrikeLTPs s1 quotes with isFetchingStrikeChain := false }

/-- The relabelling `ITM<k>` to `OTM<k>` and back of `switchOptionType`:
`startsWith` tests followed by `replace` of the tag. -/
def flipOffset (offset : Str) : Str :=
  if ['I', 'T', 'M'].isPrefixOf offset then
    ['O', 'T', 'M'] ++ replaceFirst ['I', 'T', 'M'] [] offset
  else if ['O', 'T', 'M'].isPrefixOf offset then
    ['I', 'T', 'M'] ++ replaceFirst ['O', 'T', 'M'] [] offset
  else offset

/-- The object pushed onto `newChain` for one rung in `switchOptionType`. -/
def relabelRung (underlying expiry : Str) (t : OptionType) (item : StrikeRung) : StrikeRung :=
  { offset := flipOffset item.offset
    symbol := buildSymbol underlying expiry item.strike t
    exchange := item.exchange
    strike := item.strike
    lotsize := item.lotsize
    ltp := 0
    prevClose := 0 }

/-- The helper `getOrder` of the sort comparator; `none` stands for `NaN`. -/
def getOrder (offset : Str) : Option Int :=
  if offset = atmOffset then some 0
  else
    match parseInt (removeUpper offset) with
    | none => none
    | some level => if ['I', 'T', 'M'].isPrefixOf offset then some (-level) else some level

/-- The comparator `getOrder(a.offset) - getOrder(b.offset)` does not ask for
`b` before `a`: the difference is not positive, a `NaN` difference counting as
`0` as in `Array.prototype.sort`. -/
def orderLe (a b : StrikeRung) : Bool :=
  match getOrder a.offset, getOrder b.offset with
  | some x, some y => decide (x - y ≤ 0)
  | _, _ => true

/-- `newChain.sort(comparator)`: the sort is stable, and for a consistent
comparator every stable sort returns the same array; insertion sort is the
representative used here. -/
def sortChain (chain : List StrikeRung) : List StrikeRung :=
  chain.insertionSort (fun a b => orderLe a b = true)

/-- `switchOptionType()`, with the responses awaited on either path as
arguments. -/
def switchOptionType (s : State) (atmResult itm1Result : SymbolResponse)
    (quotes : QuoteResponse) : State :=
  if s.strikeInterval = 0 || s.cachedATMStrike = 0 then
    fetchStrikeChain s atmResult itm1Result quotes
  else
    match getActiveSymbol s.settings with
    | none => s
    | some symbol =>
      let newChain := s.strikeChain.map (relabelRung symbol.symbol s.selectedExpiry s.optionType)
      _fetchStrikeLTPs { s with strikeChain := sortChain newChain } quotes

/-- The object pushed onto `newStrikes` for the new ITM rung in `extendStrikes`. -/
def extendItmRung (symbol : SymbolConfig) (s : State) (level : Nat) : StrikeRung :=
  let strike := s.cachedATMStrike + (level : Int) * s.strikeInterval * itmDirection s.optionType
  { offset := itmOffset level
    symbol := buildSymbol symbol.symbol s.selectedExpiry strike s.optionType
    exchange := symbol.optionExchange
    strike := strike
    lotsize := s.lotSize
    ltp := 0
    prevClose := 0 }

/-- The object pushed onto `newStrikes` for the new OTM rung in `extendStrikes`. -/
def extendOtmRung (symbol : SymbolConfig) (s : State) (level : Nat) : StrikeRung :=
  let strike := s.cachedATMStrike + (level : Int) * s.strikeInterval * otmDirection s.optionType
  { offset := otmOffset level
    symbol := buildSymbol symbol.symbol s.selectedExpiry strike s.optionType
    exchange := symbol.optionExchange
    strike := strike
    lotsize := s.lotSize
    ltp := 0
    prevClose := 0 }

/-- `if (x) chain.unshift(x)`. -/
def unshiftIf (x : Option StrikeRung) (chain : List StrikeRung) : List StrikeRung :=
  match x with
  | some r => r :: chain
  | none => chain

/-- `if (x) chain.push(x)`. -/
def pushIf (x : Option StrikeRung) (chain : List StrikeRung) : List StrikeRung :=
  match x with
  | some r => chain ++ [r]
  | none => chain

/-- `extendStrikes()`, with the multiquotes response as argument. -/
def extendStrikes (s : State) (quotes : QuoteResponse) : State :=
  if s.isExtendingStrikes then s
  else
    match getActiveSymbol s.settings with
    | none => { s with isExtendingStrikes := false }
    | some symbol =>
      if s.selectedExpiry.isEmpty || s.strikeInterval = 0 || s.cachedATMStrike = 0 then
        { s with isExtendingStrikes := false }
      else
        let level := s.extendLevel + 1
        let newStrikes := [extendItmRung symbol s level, extendOtmRung symbol s level]
        let itmStrike := newStrikes.find? (fun r => r.offset = itmOffset level)
        let otmStrike := newStrikes.find? (fun r => r.offset = otmOffset level)
        let chain := pushIf otmStrike (unshiftIf itmStrike s.strikeChain)
        { s with
          extendLevel := level
          strikeChain := applyQuotes chain quotes
          isExtendingStrikes := false }

/-- The expiry tag of a list entry: every dash removed, then `toUpperCase()`. -/
def formatExpiry (exp : Str) : Str := (exp.filter (fun c => c ≠ '-')).map Char.toUpper

/-- `fetchExpiry()`, with the expiry response and the responses awaited by the
chain build as arguments. -/
def fetchExpiry (s : State) (expiry : ExpiryResponse) (atmResult itm1Result : SymbolResponse)
    (quotes : QuoteResponse) : State :=
  if s.settings.apiKey.isEmpty || s.settings.hostUrl.isEmpty then s
  else
    match getActiveSymbol s.settings with
    | none => s
    | some _ =>
      match expiry.success, expiry.data with
      | true, some data =>
        let s1 : State := { s with expiryList := data }
        let s2 : State :=
          match data with
          | first :: _ =>
            if s1.selectedExpiry.isEmpty then { s1 with selectedExpiry := formatExpiry first }
            else s1
          | [] => s1
        if s2.selectedExpiry.isEmpty then s2
        else fetchStrikeChain s2 atmResult itm1Result quotes
      | _, _ => s

/-- The `change` handler of the symbol select in `setupScalpingEvents`. -/
def onSymbolChange (s : State) (newId : Str) (expiry : ExpiryResponse)
    (atmResult itm1Result : SymbolResponse) (quotes : QuoteResponse) : State :=
  let s1 : State :=
    { s with
      settings := { s.settings with activeSymbolId := newId }
      strikeChain := []
      selectedExpiry := []
      extendLevel := 5 }
  if s1.settings.apiKey.isEmpty || s1.settings.hostUrl.isEmpty then s1
  else fetchExpiry s1 expiry atmResult itm1Result quotes

/-- The `click` handler of the CE/PE button in `setupScalpingEvents`. -/
def onOptionTypeToggle (s : State) (atmResult itm1Result : SymbolResponse)
    (quotes : QuoteResponse) : State :=
  switchOptionType { s with optionType := s.optionType.toggle } atmResult itm1Result quotes

/-- The `click` handler of an expiry button in `updateExpirySlider`. -/
def onExpiryClick (s : State) (expiry : Str) (atmResult itm1Result : SymbolResponse)
    (quotes : QuoteResponse) : State :=
  fetchStrikeChain { s with selectedExpiry := expiry } atmResult itm1Result quotes

/-! ## Quantities, orders and stop-loss cover -/

/-- `toLots(quantity)`; `state.lotSize` is read from the state. -/
def toLots (s : State) (quantity : Int) : Int :=
  if s.lotSize = 0 then 0
  else if quantity = 0 then 0
  else
    let sign : Int := if quantity ≥ 0 then 1 else -1
    let lots := Int.fdiv |quantity| s.lotSize
    sign * lots

/-- Values of `state.action`. -/
inductive Side where
  | BUY
  | SELL
  deriving DecidableEq, Repr

/-- The string held in `state.action`. -/
def Side.toStr : Side → Str
  | .BUY => ['B', 'U', 'Y']
  | .SELL => ['S', 'E', 'L', 'L']

/-- Values of `state.orderType`. -/
inductive OrderType where
  | MARKET
  | LIMIT
  | SL
  | SLM
  deriving DecidableEq, Repr

/-- One row of the order book.  A missing `order_status` is the empty string
(`o.order_status || ''`); `quantity` is the text handed to `parseInt`. -/
structure Order where
  orderid : Str
  symbol : Str
  exchange : Str
  action : Str
  product : Str
  pricetype : Str
  quantity : Str
  order_status : Str
  deriving DecidableEq

/-- Response of `/api/v1/orderbook`; `orders` is `result.data.orders` when
`result.data` and the list are present. -/
structure OrderbookResponse where
  success : Bool
  orders : Option (List Order)
  deriving DecidableEq

/-- Response of `/api/v1/symbol`; `lotsize` is `result.data.lotsize` when
`result.data` and the field are present. -/
structure SymbolInfoResponse where
  success : Bool
  hasData : Bool
  lotsize : Option Int
  deriving DecidableEq

/-- The net-position input `oa-netpos` as the code reads it back:
`dataset.qty` and `value` already parsed (0 when missing), `dataset.editing`. -/
structure NetposEl where
  qty : Int
  value : Int
  editing : Bool
  deriving DecidableEq

/-- The object `lotSizeCache`: an association list from cache key to lot size,
the first entry of a key being the current one. -/
abbrev LotSizeCache := List (Str × Int)

/-- `lotSizeCache[key]`. -/
def cacheGet (cache : LotSizeCache) (key : Str) : Option Int :=
  (cache.find? (fun e => e.1 = key)).map (fun e => e.2)

/-- `lotSizeCache[key] = value`. -/
def cacheSet (cache : LotSizeCache) (key : Str) (value : Int) : LotSizeCache :=
  (key, value) :: cache.filter (fun e => e.1 ≠ key)

/-- The selection, the order ticket, the net position and the stop-loss
orders: the fields of `state` and the module variables outside the chain. -/
structure Panel where
  action : Side
  orderType : OrderType
  price : ℚ
  selectedOffset : Str
  selectedStrike : Int
  selectedSymbol : Str
  optionLtp : ℚ
  optionPrevClose : ℚ
  currentNetQty : Int
  slOrders : List Order
  lotSizeCache : LotSizeCache
  netpos : Option NetposEl
  deriving DecidableEq

/-- The values of the panel fields when the script is loaded, with the
net-position input present and empty. -/
def Panel.initial : Panel where
  action := .BUY
  orderType := .MARKET
  price := 0
  selectedOffset := atmOffset
  selectedStrike := 0
  selectedSymbol := []
  optionLtp := 0
  optionPrevClose := 0
  currentNetQty := 0
  slOrders := []
  lotSizeCache := []
  netpos := some { qty := 0, value := 0, editing := false }

/-- The expression `netposEl ? parseInt(netposEl.dataset.qty || '0') : 0`. -/
def readNetQty (p : Panel) : Int :=
  match p.netpos with
  | some el => el.qty
  | none => 0

/-- The object returned by `parseOptionSymbol`; the two last groups are empty
for a symbol that is not an option. -/
structure ParsedSymbol where
  underlying : Str
  expiry : Str
  strike : Str
  optionType : Str
  isOption : Bool
  deriving DecidableEq

/-- `symbol.match(/^([A-Z]+)(\d{2}[A-Z]{3}\d{2})(\d+)(CE|PE)$/)`: the four
groups when the pattern matches.  As for the strike pattern, both greedy runs
are forced. -/
def optionSymbolMatch (s : Str) : Option (Str × Str × Str × Str) :=
  let letters := s.takeWhile Char.isUpper
  let r1 := s.dropWhile Char.isUpper
  if letters.isEmpty then none
  else
    match r1 with
    | d1 :: d2 :: m1 :: m2 :: m3 :: y1 :: y2 :: r2 =>
      if d1.isDigit && d2.isDigit && m1.isUpper && m2.isUpper && m3.isUpper
          && y1.isDigit && y2.isDigit then
        let digits := r2.takeWhile Char.isDigit
        let r3 := r2.dropWhile Char.isDigit
        if digits.isEmpty then none
        else if r3 = ['C', 'E'] || r3 = ['P', 'E'] then
          some (letters, [d1, d2, m1, m2, m3, y1, y2], digits, r3)
        else none
      else none
    | _ => none

/-- `parseOptionSymbol(symbol)`; `none` stands for `null`. -/
def parseOptionSymbol (symbol : Str) : Option ParsedSymbol :=
  if symbol.isEmpty then none
  else
    match optionSymbolMatch symbol with
    | some (u, e, k, t) =>
      some { underlying := u, expiry := e, strike := k, optionType := t, isOption := true }
    | none =>
      some { underlying := symbol, expiry := [], strike := [], optionType := [],
             isOption := false }

/-- `getLotSizeCacheKey(underlying, expiry)`. -/
def getLotSizeCacheKey (underlying expiry : Str) : Str := underlying ++ [':'] ++ expiry

/-- The cache key computed for an order in `fetchLotSizesForOrders` and
`getCachedLotSizeForOrder`. -/
def orderCacheKey (parsed : ParsedSymbol) (order : Order) : Str :=
  if parsed.isOption then getLotSizeCacheKey parsed.underlying parsed.expiry
  else order.symbol ++ [':'] ++ order.exchange

/-- `getCachedLotSizeForOrder(order)`. -/
def getCachedLotSizeForOrder (s : State) (p : Panel) (order : Order) : Int :=
  match parseOptionSymbol order.symbol with
  | none => intOr (some s.lotSize) 1
  | some parsed =>
    intOr (cacheGet p.lotSizeCache (orderCacheKey parsed order)) (intOr (some s.lotSize) 1)

/-- `parseInt(o.quantity) || 0`. -/
def orderQuantity (o : Order) : Int :=
  match parseInt o.quantity with
  | some v => v
  | none => 0

/-- The contribution of one order to `coveredLots` in `renderSLPanel`. -/
def orderLots (s : State) (p : Panel) (o : Order) : Int :=
  let orderLotSize := getCachedLotSizeForOrder s p o
  let qty := orderQuantity o
  if orderLotSize > 0 then Int.fdiv qty orderLotSize else qty

/-- Values of `positionType` in `renderSLPanel`. -/
inductive PositionType where
  | LONG
  | SHORT
  | FLAT
  deriving DecidableEq, Repr

/-- What `renderSLPanel` computes before it renders the order rows:
`currentLots` and `positionType` go to the position line, and
`signedRemainingLots` is the value written into the remaining-lots input. -/
structure SLPanelView where
  currentLots : Int
  positionType : PositionType
  coveredLots : Int
  absRemainingLots : Int
  signedRemainingLots : Int
  deriving DecidableEq

/-- `renderSLPanel()`, for a panel whose list element exists. -/
def renderSLPanel (s : State) (p : Panel) : SLPanelView :=
  let currentQty := readNetQty p
  let currentLots := toLots s |currentQty|
  let positionType :=
    if currentQty > 0 then PositionType.LONG
    else if currentQty < 0 then PositionType.SHORT else PositionType.FLAT
  let coveredLots := p.slOrders.foldl (fun acc o => acc + orderLots s p o) 0
  let absRemainingLots := max 0 (currentLots - coveredLots)
  let signedRemainingLots := if currentQty < 0 then -absRemainingLots else absRemainingLots
  { currentLots := currentLots
    positionType := positionType
    coveredLots := coveredLots
    absRemainingLots := absRemainingLots
    signedRemainingLots := signedRemainingLots }

/-- `fetchLotSizeFromAPI(symbol, exchange)`, applied to the response. -/
def fetchLotSizeFromAPI (r : SymbolInfoResponse) : Int :=
  if r.success && r.hasData then intOr r.lotsize 1 else 1

/-- The first loop of `fetchLotSizesForOrders`: the entries of `uniqueKeys`
(cache key, symbol, exchange) in insertion order. -/
def collectUniqueKeys (cache : LotSizeCache) :
    List Order → List (Str × Str × Str) → List (Str × Str × Str)
  | [], acc => acc
  | order :: rest, acc =>
    match parseOptionSymbol order.symbol with
    | none => collectUniqueKeys cache rest acc
    | some parsed =>
      let cacheKey := orderCacheKey parsed order
      if intOr (cacheGet cache cacheKey) 0 ≠ 0 then collectUniqueKeys cache rest acc
      else if acc.any (fun e => e.1 = cacheKey) then collectUniqueKeys cache rest acc
      else collectUniqueKeys cache rest (acc ++ [(cacheKey, order.symbol, order.exchange)])

/-- `fetchLotSizesForOrders(orders)`; the server is the function that gives the
response to a symbol lookup.  The keys are distinct, so the order in which the
parallel lookups complete does not matter. -/
def fetchLotSizesForOrders (cache : LotSizeCache) (orders : List Order)
    (symbolApi : Str → Str → SymbolInfoResponse) : LotSizeCache :=
  (collectUniqueKeys cache orders []).foldl
    (fun c e => cacheSet c e.1 (fetchLotSizeFromAPI (symbolApi e.2.1 e.2.2))) cache

/-- The strings of the pending test in `fetchSLOrdersForPosition`. -/
def slPendingStatuses : List Str :=
  [['o', 'p', 'e', 'n'],
    ['t', 'r', 'i', 'g', 'g', 'e', 'r', ' ', 'p', 'e', 'n', 'd', 'i', 'n', 'g'],
    ['v', 'a', 'l', 'i', 'd', 'a', 't', 'i', 'o', 'n', ' ', 'p', 'e', 'n', 'd', 'i', 'n', 'g'],
    ['p', 'u', 't', ' ', 'o', 'r', 'd', 'e', 'r', ' ', 'r', 'e', 'q', ' ', 'r', 'e', 'c', 'e',
      'i', 'v', 'e', 'd']]

/-- `s.toLowerCase()` on the ASCII letters. -/
def toLowerCase (s : Str) : Str := s.map Char.toLower

/-- The filter predicate of `fetchSLOrdersForPosition`. -/
def slOrderFilter (selectedSymbol : Str) (slAction : Side) (o : Order) : Bool :=
  let status := toLowerCase o.order_status
  let isPending := slPendingStatuses.contains status
  let isSL := [['S', 'L'], ['S', 'L', '-', 'M']].contains o.pricetype
  let matchesSymbol := decide (o.symbol = selectedSymbol)
  let matchesAction := decide (o.action = slAction.toStr)
  isPending && isSL && matchesSymbol && matchesAction

/-- `fetchSLOrdersForPosition()`, with the order-book response and the symbol
lookup server as arguments. -/
def fetchSLOrdersForPosition (s : State) (p : Panel) (orderbook : OrderbookResponse)
    (symbolApi : Str → Str → SymbolInfoResponse) : Panel :=
  if s.settings.apiKey.isEmpty || p.selectedSymbol.isEmpty then { p with slOrders := [] }
  else
    let currentQty := readNetQty p
    if currentQty = 0 then { p with slOrders := [] }
    else
      let slAction := if currentQty > 0 then Side.SELL else Side.BUY
      match orderbook.success, orderbook.orders with
      | true, some orders =>
        let slOrders := orders.filter (slOrderFilter p.selectedSymbol slAction)
        if slOrders.length > 0 then
          { p with
            slOrders := slOrders
            lotSizeCache := fetchLotSizesForOrders p.lotSizeCache slOrders symbolApi }
        else { p with slOrders := slOrders }
      | _, _ => { p with slOrders := [] }

/-- The body of a `/api/v1/placesmartorder` request; `quantity` and
`position_size` are sent as their decimal text, `price` and `trigger_price`
are the text `0`. -/
structure SmartOrderRequest where
  strategy : Str
  symbol : Str
  exchange : Str
  action : Str
  product : Str
  pricetype : Str
  quantity : Int
  position_size : Int
  deriving DecidableEq

/-- `getTargetNetQty()`. -/
def getTargetNetQty (s : State) (p : Panel) : Int :=
  match p.netpos with
  | none => 0
  | some el =>
    if el.qty ≠ 0 then el.qty
    else el.value * intOr (some s.lotSize) 1

/-- `placeResize()`: the smart order it sends, `none` when it returns before
the request. -/
def placeResize (s : State) (p : Panel) : Option SmartOrderRequest :=
  match getActiveSymbol s.settings with
  | none => none
  | some symbol =>
    if p.selectedSymbol.isEmpty then none
    else
      let isEditing :=
        match p.netpos with
        | some el => el.editing
        | none => false
      let targetQty := if isEditing then getTargetNetQty s p else 0
      some
        { strategy := ['C', 'h', 'r', 'o', 'm', 'e']
          symbol := p.selectedSymbol
          exchange := symbol.optionExchange
          action := p.action.toStr
          product := symbol.productType
          pricetype := ['M', 'A', 'R', 'K', 'E', 'T']
          quantity := |targetQty|
          position_size := targetQty }

/-- `resizePosition(symbol, exchange, product, currentQty, lotSize, editId)`:
the smart order it sends; `lotsInput` is the parsed value of the lots input of
the edited row (`parseInt(value) || 0`), `none` when the input is missing. -/
def resizePosition (symbol exchange product : Str) (currentQty lotSize : Int)
    (lotsInput : Option Int) : Option SmartOrderRequest :=
  match lotsInput with
  | none => none
  | some targetSignedLots =>
    let targetQty := targetSignedLots * lotSize
    let isLong := decide (currentQty > 0)
    let isShort := decide (currentQty < 0)
    some
      { strategy := ['C', 'h', 'r', 'o', 'm', 'e']
        symbol := symbol
        exchange := exchange
        action := if isLong then Side.BUY.toStr else if isShort then Side.SELL.toStr
          else Side.BUY.toStr
        product := product
        pricetype := ['M', 'A', 'R', 'K', 'E', 'T']
        quantity := |targetQty|
        position_size := targetQty }

/-- What `addSLOrder` puts into the new-order form and binds to its Place
button. -/
structure NewSLForm where
  slAction : Side
  lots : Int
  triggerPrice : ℚ
  limitPrice : ℚ
  deriving DecidableEq

/-- The expression `input ? Math.abs(parseInt(input.value) || 0) : 0`. -/
def readLots (input : Option Str) : Int :=
  match input with
  | some value =>
    match parseInt value with
    | some v => |v|
    | none => 0
  | none => 0

/-- `addSLOrder()`: the form it creates, `none` when it returns before.
`lotsInput` is the text of the remaining-lots input when it exists,
`listPresent` tells whether the list element exists. -/
def addSLOrder (s : State) (p : Panel) (lotsInput : Option Str) (listPresent : Bool) :
    Option NewSLForm :=
  match getActiveSymbol s.settings with
  | none => none
  | some _ =>
    if p.selectedSymbol.isEmpty then none
    else
      let currentQty := readNetQty p
      if currentQty = 0 then none
      else
        let lots := readLots lotsInput
        if lots ≤ 0 then none
        else
          let slAction := if currentQty > 0 then Side.SELL else Side.BUY
          if !listPresent then none
          else
            some { slAction := slAction, lots := lots, triggerPrice := p.optionLtp,
                   limitPrice := p.optionLtp }

/-- The body of a `/api/v1/placeorder` request of `placeNewSLOrder`;
the numbers are sent as their decimal text. -/
structure PlaceOrderRequest where
  strategy : Str
  symbol : Str
  exchange : Str
  action : Str
  product : Str
  pricetype : Str
  quantity : Int
  price : ℚ
  trigger_price : ℚ
  deriving DecidableEq

/-- `placeNewSLOrder(newOrderId, slAction)`: the request it sends, `none` when
it returns before.  `lotsInput` is the text of the lots input when it exists;
`trgInput` and `priceInput` are the numbers `parseFloat` reads from the two
price inputs, `none` when the input is missing or its text is not a number. -/
def placeNewSLOrder (s : State) (p : Panel) (slAction : Side) (lotsInput : Option Str)
    (trgInput priceInput : Option ℚ) : Option PlaceOrderRequest :=
  match getActiveSymbol s.settings with
  | none => none
  | some symbol =>
    if p.selectedSymbol.isEmpty then none
    else
      let lots := readLots lotsInput
      let triggerPrice := priceOrZero trgInput
      let limitPrice := priceOrZero priceInput
      if lots ≤ 0 then none
      else if triggerPrice ≤ 0 then none
      else
        let quantity := lots * intOr (some s.lotSize) 1
        some
          { strategy := ['C', 'h', 'r', 'o', 'm', 'e']
            symbol := p.selectedSymbol
            exchange := symbol.optionExchange
            action := slAction.toStr
            product := symbol.productType
            pricetype := ['S', 'L']
            quantity := quantity
            price := limitPrice
            trigger_price := triggerPrice }

/-! ## Selection -/

/-- `updatePriceDisplay(forceUpdate)`; `priceEl` tells whether the price input
exists. -/
def updatePriceDisplay (p : Panel) (priceEl : Bool) (forceUpdate : Bool) : Panel :=
  if !priceEl then p
  else if p.orderType = .MARKET || forceUpdate then { p with price := p.optionLtp }
  else p

/-- `updateSelectedOptionLTP()`. -/
def updateSelectedOptionLTP (s : State) (p : Panel) (priceEl : Bool) : Panel :=
  match s.strikeChain.find? (fun r => r.offset = p.selectedOffset) with
  | some selected =>
    let p1 : Panel :=
      { p with
        optionLtp := selected.ltp
        optionPrevClose := selected.prevClose
        selectedStrike := selected.strike
        selectedSymbol := selected.symbol }
    let p2 : Panel := { p1 with price := p1.optionLtp }
    updatePriceDisplay p2 priceEl true
  | none => p

/-! ## Debounce -/

/-- The timer slot `debounceTimers[key]` of one bucket together with the log
of the runs of the debounced function: `pending` is the timer that has been
set and has neither fired nor been cleared, with its due time and the
arguments of the call that set it. -/
structure Bucket (α : Type) where
  pending : Option (Nat × α)
  runs : List (Nat × α)

/-- The object `debounceTimers`, one bucket per key. -/
abbrev DebounceTimers (α : Type) := Str → Bucket α

/-- No timer set and nothing run yet. -/
def DebounceTimers.empty (α : Type) : DebounceTimers α :=
  fun _ => { pending := none, runs := [] }

/-- The timers that are due at time `now` fire: the callback
`() => fn.apply(this, args)` of each runs. -/
def fireDue {α : Type} (now : Nat) (timers : DebounceTimers α) : DebounceTimers α :=
  fun key =>
    match (timers key).pending with
    | some (due, args) =>
      if due ≤ now then { pending := none, runs := (timers key).runs ++ [(due, args)] }
      else timers key
    | none => timers key

/-- A call, at time `now`, of the function returned by
`debounce(fn, delay, key)`: `clearTimeout(debounceTimers[key])` followed by
`debounceTimers[key] = setTimeout(() => fn.apply(this, args), delay)`. -/
def debounce {α : Type} (delay : Nat) (key : Str) (now : Nat) (args : α)
    (timers : DebounceTimers α) : DebounceTimers α :=
  let cleared : DebounceTimers α :=
    Function.update timers key { timers key with pending := none }
  Function.update cleared key { cleared key with pending := some (now + delay, args) }

/-- A sequence of calls of one debounced function, each with its time and
arguments: before each call the timers due by then fire. -/
def debounceCalls {α : Type} (delay : Nat) (key : Str) :
    List (Nat × α) → DebounceTimers α → DebounceTimers α
  | [], timers => timers
  | (now, args) :: rest, timers =>
    debounceCalls delay key rest (debounce delay key now args (fireDue now timers))

/-! ## Live ticks -/

/-- Values of `ws.readyState`. -/
inductive ReadyState where
  | CONNECTING
  | OPEN
  | CLOSING
  | CLOSED
  deriving DecidableEq, Repr

/-- The messages the script sends on the socket; `mode` is always 1. -/
inductive WsMessage where
  | authenticate (api_key : Str)
  | subscribe (symbol exchange : Str)
  | unsubscribe (symbol exchange : Str)
  deriving DecidableEq, Repr

/-- A `WebSocket` object: its ready state and the messages sent on it, oldest
first. -/
structure Socket where
  readyState : ReadyState
  sent : List WsMessage
  deriving DecidableEq

/-- One entry of `wsSubscriptions`. -/
structure Subscription where
  symbol : Str
  exchange : Str
  deriving DecidableEq, Repr

/-- The object `wsSubscriptions`; `none` stands for `null`. -/
structure WsSubscriptions where
  underlying : Option Subscription
  strike : Option Subscription
  deriving DecidableEq

/-- The object `pendingWsUpdate`; `none` stands for `null`. -/
structure PendingWsUpdate where
  underlying : Option ℚ
  strike : Option ℚ
  deriving DecidableEq

/-- The `data` object of a market-data message. -/
structure TickData where
  symbol : Str
  ltp : ℚ
  deriving DecidableEq

/-- A parsed inbound message: `data.type` and `data.data`. -/
structure WsData where
  type : Str
  data : Option TickData
  deriving DecidableEq

/-- The variables of the live-tick part: `state.liveDataEnabled`,
`state.wsUrl`, `state.underlyingLtp`, `ws`, `wsSubscriptions`,
`wsReconnectTimer` (whether a reconnect timer is set), `pendingWsUpdate` and
`wsRafScheduled`. -/
structure Live where
  liveDataEnabled : Bool
  wsUrl : Str
  underlyingLtp : ℚ
  ws : Option Socket
  wsSubscriptions : WsSubscriptions
  wsReconnectTimer : Bool
  pendingWsUpdate : PendingWsUpdate
  wsRafScheduled : Bool
  deriving DecidableEq

/-- The values of the live-tick variables when the script is loaded. -/
def Live.initial : Live where
  liveDataEnabled := false
  wsUrl := ['w', 's', ':', '/', '/', '1', '2', '7', '.', '0', '.', '0', '.', '1', ':', '8', '7',
    '6', '5']
  underlyingLtp := 0
  ws := none
  wsSubscriptions := { underlying := none, strike := none }
  wsReconnectTimer := false
  pendingWsUpdate := { underlying := none, strike := none }
  wsRafScheduled := false

/-- The test `ws && ws.readyState === WebSocket.OPEN`. -/
def Live.isOpen (l : Live) : Bool :=
  match l.ws with
  | some sock => decide (sock.readyState = .OPEN)
  | none => false

/-- `ws.send(JSON.stringify(m))` on the current socket. -/
def wsSend (l : Live) (m : WsMessage) : Live :=
  match l.ws with
  | some sock => { l with ws := some { sock with sent := sock.sent ++ [m] } }
  | none => l

/-- `wsConnect()`: the new socket starts connecting; its handlers are the
steps `wsOnOpen` and `wsOnClose`. -/
def wsConnect (s : State) (l : Live) : Live :=
  if l.isOpen then l
  else if l.wsUrl.isEmpty || s.settings.apiKey.isEmpty then l
  else { l with ws := some { readyState := .CONNECTING, sent := [] } }

/-- The handler `ws.onopen` of the current socket: the connection is
established and the script authenticates. -/
def wsOnOpen (s : State) (l : Live) : Live :=
  match l.ws with
  | some sock =>
    if sock.readyState = .CONNECTING then
      wsSend { l with ws := some { sock with readyState := .OPEN } }
        (.authenticate s.settings.apiKey)
    else l
  | none => l

/-- The handler `ws.onclose` of the current socket. -/
def wsOnClose (l : Live) : Live :=
  { l with ws := none, wsReconnectTimer := if l.liveDataEnabled then true else l.wsReconnectTimer }

/-- The reconnect timer set by `ws.onclose` fires: `wsConnect()`. -/
def wsReconnectTimerFires (s : State) (l : Live) : Live :=
  if l.wsReconnectTimer then wsConnect s { l with wsReconnectTimer := false } else l

/-- `wsDisconnect()`. -/
def wsDisconnect (l : Live) : Live :=
  { l with
    wsReconnectTimer := false
    ws := none
    wsSubscriptions := { underlying := none, strike := none } }

/-- The two keys of `wsSubscriptions`. -/
inductive Target where
  | underlying
  | strike
  deriving DecidableEq, Repr

/-- The expression `type === 'underlying' ? 'underlying' : 'strike'`. -/
def targetKey (type : Str) : Target :=
  if type = ['u', 'n', 'd', 'e', 'r', 'l', 'y', 'i', 'n', 'g'] then .underlying else .strike

/-- The read `wsSubscriptions[key]`. -/
def WsSubscriptions.get (w : WsSubscriptions) : Target → Option Subscription
  | .underlying => w.underlying
  | .strike => w.strike

/-- The write `wsSubscriptions[key] = v`. -/
def WsSubscriptions.set (w : WsSubscriptions) (key : Target) (v : Option Subscription) :
    WsSubscriptions :=
  match key with
  | .underlying => { w with underlying := v }
  | .strike => { w with strike := v }

/-- `wsUnsubscribe(symbol, exchange, type)`. -/
def wsUnsubscribe (l : Live) (symbol exchange type : Str) : Live :=
  if !l.isOpen then l
  else
    let l1 := wsSend l (.unsubscribe symbol exchange)
    { l1 with wsSubscriptions := l1.wsSubscriptions.set (targetKey type) none }

/-- `wsSubscribe(symbol, exchange, type)`. -/
def wsSubscribe (l : Live) (symbol exchange type : Str) : Live :=
  if !l.isOpen then l
  else
    let key := targetKey type
    match l.wsSubscriptions.get key with
    | some previous =>
      if previous.symbol = symbol then l
      else
        let l1 := wsUnsubscribe l previous.symbol previous.exchange type
        let l2 := wsSend l1 (.subscribe symbol exchange)
        { l2 with
          wsSubscriptions := l2.wsSubscriptions.set key (some { symbol := symbol,
                                                                exchange := exchange }) }
    | none =>
      let l2 := wsSend l (.subscribe symbol exchange)
      { l2 with
        wsSubscriptions := l2.wsSubscriptions.set key (some { symbol := symbol,
                                                              exchange := exchange }) }

/-- The text `market_data`. -/
def marketData : Str := ['m', 'a', 'r', 'k', 'e', 't', '_', 'd', 'a', 't', 'a']

/-- `handleWsMessage(data)`; the animation frame it requests is the step
`animationFrame`. -/
def handleWsMessage (s : State) (p : Panel) (l : Live) (data : WsData) : Live :=
  if data.type = marketData then
    match data.data with
    | some tick =>
      match getActiveSymbol s.settings with
      | none => l
      | some _ =>
        let underlying :=
          match l.wsSubscriptions.underlying with
          | some sub => if tick.symbol = sub.symbol then some tick.ltp else l.pendingWsUpdate.underlying
          | none => l.pendingWsUpdate.underlying
        let strike :=
          if p.orderType = .MARKET then
            match l.wsSubscriptions.strike with
            | some sub => if tick.symbol = sub.symbol then some tick.ltp else l.pendingWsUpdate.strike
            | none => l.pendingWsUpdate.strike
          else l.pendingWsUpdate.strike
        { l with
          pendingWsUpdate := { underlying := underlying, strike := strike }
          wsRafScheduled := true }
    | none => l
  else l

/-- `applyPendingWsUpdates()`. -/
def applyPendingWsUpdates (p : Panel) (l : Live) : Panel × Live :=
  let l1 : Live :=
    match l.pendingWsUpdate.underlying with
    | some ltp =>
      { l with
        underlyingLtp := ltp
        pendingWsUpdate := { l.pendingWsUpdate with underlying := none } }
    | none => l
  match l1.pendingWsUpdate.strike with
  | some ltp =>
    if p.orderType = .MARKET then
      ({ p with optionLtp := ltp },
        { l1 with pendingWsUpdate := { l1.pendingWsUpdate with strike := none } })
    else (p, l1)
  | none => (p, l1)

/-- The animation-frame callback requested by `handleWsMessage`:
`applyPendingWsUpdates(); wsRafScheduled = false`. -/
def animationFrame (p : Panel) (l : Live) : Panel × Live :=
  if l.wsRafScheduled then
    let r := applyPendingWsUpdates p l
    (r.1, { r.2 with wsRafScheduled := false })
  else (p, l)

/-- `updateWsSubscriptions()`. -/
def updateWsSubscriptions (s : State) (p : Panel) (l : Live) : Live :=
  if !l.liveDataEnabled || !l.isOpen then l
  else
    match getActiveSymbol s.settings with
    | none => l
    | some symbol =>
      let l1 := wsSubscribe l symbol.symbol symbol.exchange
        ['u', 'n', 'd', 'e', 'r', 'l', 'y', 'i', 'n', 'g']
      if p.orderType = .MARKET && !p.selectedSymbol.isEmpty then
        match s.strikeChain.find? (fun r => r.offset = p.selectedOffset) with
        | some selected =>
          wsSubscribe l1 selected.symbol selected.exchange ['s', 't', 'r', 'i', 'k', 'e']
        | none => l1
      else
        match l1.wsSubscriptions.strike with
        | some sub => wsUnsubscribe l1 sub.symbol sub.exchange ['s', 't', 'r', 'i', 'k', 'e']
        | none => l1

/-- `toggleLiveData(enable)`; the `updateWsSubscriptions()` it schedules after
a second is a later step. -/
def toggleLiveData (s : State) (l : Live) (enable : Bool) : Live :=
  let l1 := { l with liveDataEnabled := enable }
  if enable then wsConnect s l1 else wsDisconnect l1

/-- The successor `orderTypes[(idx + 1) % orderTypes.length]` in
`['MARKET', 'LIMIT', 'SL', 'SL-M']`. -/
def OrderType.next : OrderType → OrderType
  | .MARKET => .LIMIT
  | .LIMIT => .SL
  | .SL => .SLM
  | .SLM => .MARKET

/-- The click handler of the order-type button; `priceEl` tells whether the
price input exists. -/
def onOrderTypeClick (s : State) (p : Panel) (l : Live) (priceEl : Bool) : Panel × Live :=
  let p1 : Panel := { p with orderType := p.orderType.next }
  let p2 := updatePriceDisplay p1 priceEl true
  (p2, updateWsSubscriptions s p2 l)

/-! ## Orders list -/

/-- `s.replace(/_/g, ' ')`. -/
def underscoresToSpaces (s : Str) : Str := s.map (fun c => if c = '_' then ' ' else c)

/-- The filter predicate of `renderOrders` for a value of `state.ordersFilter`. -/
def renderOrdersFilter (ordersFilter : Str) (o : Order) : Bool :=
  let s := if o.order_status.isEmpty then [] else underscoresToSpaces (toLowerCase o.order_status)
  if ordersFilter = ['o', 'p', 'e', 'n'] then
    [['o', 'p', 'e', 'n'],
      ['t', 'r', 'i', 'g', 'g', 'e', 'r', ' ', 'p', 'e', 'n', 'd', 'i', 'n', 'g'],
      ['v', 'a', 'l', 'i', 'd', 'a', 't', 'i', 'o', 'n', ' ', 'p', 'e', 'n', 'd', 'i', 'n', 'g'],
      ['p', 'u', 't', ' ', 'o', 'r', 'd', 'e', 'r', ' ', 'r', 'e', 'q', ' ', 'r', 'e', 'c', 'e',
        'i', 'v', 'e', 'd']].contains s
  else if ordersFilter = ['c', 'o', 'm', 'p', 'l', 'e', 't', 'e', 'd'] then
    [['c', 'o', 'm', 'p', 'l', 'e', 't', 'e'], ['e', 'x', 'e', 'c', 'u', 't', 'e', 'd']].contains s
  else if ordersFilter = ['r', 'e', 'j', 'e', 'c', 't', 'e', 'd'] then
    [['r', 'e', 'j', 'e', 'c', 't', 'e', 'd']].contains s
  else if ordersFilter = ['c', 'a', 'n', 'c', 'e', 'l', 'l', 'e', 'd'] then
    [['c', 'a', 'n', 'c', 'e', 'l', 'l', 'e', 'd'], ['c', 'a', 'n', 'c', 'e', 'l', 'e', 'd']].contains s
  else true

/-! ## Lot-size lookup for one order -/

/-- The cache key computed for an order in `getLotSizeForOrder`. -/
def lotSizeKeyForOrder (order : Order) : Str :=
  match parseOptionSymbol order.symbol with
  | some parsed =>
    if parsed.isOption then getLotSizeCacheKey parsed.underlying parsed.expiry
    else order.symbol ++ [':'] ++ order.exchange
  | none => order.symbol ++ [':'] ++ order.exchange

/-- `getLotSizeForOrder(order)`: the lot size returned, the cache afterwards
and the lookups issued (symbol and exchange of each). -/
def getLotSizeForOrder (cache : LotSizeCache) (order : Order)
    (symbolApi : Str → Str → SymbolInfoResponse) : Int × LotSizeCache × List (Str × Str) :=
  let cacheKey := lotSizeKeyForOrder order
  let cached := intOr (cacheGet cache cacheKey) 0
  if cached ≠ 0 then (cached, cache, [])
  else
    let lotSize := fetchLotSizeFromAPI (symbolApi order.symbol order.exchange)
    (lotSize, cacheSet cache cacheKey lotSize, [(order.symbol, order.exchange)])

/-! ## Order quantity -/

/-- The lots input `oa-lots` as the handlers read it: whether it carries the
class `oa-loading` and its `readOnly` property. -/
structure LotsInput where
  oaLoading : Bool
  readOnly : Bool
  deriving DecidableEq

/-- `state.lots` and the lots input. -/
structure Quantity where
  lots : Int
  lotsInput : Option LotsInput
  deriving DecidableEq

/-- `toQuantity(displayValue)` for a number `displayValue`: `parseInt` reads
its decimal text. -/
def toQuantity (s : State) (displayValue : Int) : Int :=
  let normalized := max 1 (intOr (parseInt (intToStr displayValue)) 1)
  if s.lotSize ≠ 0 then normalized * s.lotSize else normalized

/-- `getApiQuantity()`. -/
def getApiQuantity (q : Quantity) : Int := max 1 (intOr (some q.lots) 1)

/-- `setQuantityFromDisplay(displayValue)`. -/
def setQuantityFromDisplay (s : State) (q : Quantity) (displayValue : Int) : Quantity :=
  { q with lots := toQuantity s displayValue }

/-- `initializeQuantityInput()`. -/
def initializeQuantityInput (s : State) (q : Quantity) : Quantity :=
  match q.lotsInput with
  | some el =>
    if s.lotSize > 0 then { lots := s.lotSize, lotsInput := some { el with readOnly := true } }
    else q
  | none => q

/-- The click handler of `oa-lots-dec`. -/
def onLotsDec (s : State) (q : Quantity) : Quantity :=
  match getActiveSymbol s.settings, q.lotsInput with
  | some _, some el =>
    if el.oaLoading then q
    else
      let step := intOr (some s.lotSize) 1
      let minQuantity := intOr (some s.lotSize) 1
      if q.lots > minQuantity then { q with lots := max minQuantity (q.lots - step) } else q
  | _, _ => q

/-- The click handler of `oa-lots-inc`. -/
def onLotsInc (s : State) (q : Quantity) : Quantity :=
  match getActiveSymbol s.settings, q.lotsInput with
  | some _, some el =>
    if el.oaLoading then q
    else
      let step := intOr (some s.lotSize) 1
      { q with lots := q.lots + step }
  | _, _ => q

/-- The expression `symbol ? (symbol.quantityMode === 'lots' ? 1 :
(state.lotSize || 1)) : 1` of the two entry handlers. -/
def minDisplay (s : State) : Int :=
  match getActiveSymbol s.settings with
  | some symbol =>
    if symbol.quantityMode = ['l', 'o', 't', 's'] then 1 else intOr (some s.lotSize) 1
  | none => 1

/-- The click handler of `oa-lots`: the input becomes editable. -/
def onLotsClick (q : Quantity) : Quantity :=
  match q.lotsInput with
  | some el =>
    if el.readOnly && !el.oaLoading then { q with lotsInput := some { el with readOnly := false } }
    else q
  | none => q

/-- The `blur` handler of `oa-lots`. -/
def onLotsBlur (q : Quantity) : Quantity :=
  match q.lotsInput with
  | some el => if !el.readOnly then { q with lotsInput := some { el with readOnly := true } } else q
  | none => q

/-- The `input` handler of `oa-lots`; `value` is `parseInt(e.target.value)`,
`none` standing for `NaN`. -/
def onLotsInput (s : State) (q : Quantity) (value : Option Int) : Quantity :=
  match q.lotsInput with
  | some el =>
    if el.readOnly then q
    else setQuantityFromDisplay s q (intOr value (minDisplay s))
  | none => q

/-- The `change` handler of `oa-lots`; `value` is `parseInt(e.target.value)`,
`none` standing for `NaN`. -/
def onLotsChange (s : State) (q : Quantity) (value : Option Int) : Quantity :=
  match q.lotsInput with
  | some el =>
    if el.oaLoading then q
    else
      let q1 := setQuantityFromDisplay s q (intOr value (minDisplay s))
      if q1.lots < minDisplay s then { q1 with lots := minDisplay s } else q1
  | none => q

/-! ## Reference descriptions used by the statements -/

/-- The canonical order of the offsets of a chain of level `n`:
`ITM_n, ..., ITM1, ATM, OTM1, ..., OTM_n`. -/
def canonicalOffsets : Nat → List Str
  | 0 => [atmOffset]
  | n + 1 => itmOffset (n + 1) :: canonicalOffsets n ++ [otmOffset (n + 1)]

/-- The signed levels `-n, ..., -1, 0, 1, ..., n` of the rungs of a chain of
level `n`, the ITM side counted negative. -/
def signedLevels : Nat → List Int
  | 0 => [0]
  | n + 1 => -((n : Int) + 1) :: signedLevels n ++ [(n : Int) + 1]

/-- The offset tag of the rung of signed level `z`. -/
def offsetAt (z : Int) : Str :=
  if z < 0 then itmOffset z.natAbs else if z = 0 then atmOffset else otmOffset z.natAbs

/-- A rung with its two prices set to zero: what remains of a rung when the
quotes are disregarded. -/
def StrikeRung.zeroPrices (r : StrikeRung) : StrikeRung :=
  { r with ltp := 0, prevClose := 0 }

/-- The ATM rung pushed by `fetchStrikeChain`. -/
def atmRung (exchange atmSymbol : Str) (atmStrike lotSize : Int) : StrikeRung :=
  { offset := atmOffset
    symbol := atmSymbol
    exchange := exchange
    strike := atmStrike
    lotsize := lotSize
    ltp := 0
    prevClose := 0 }

/-- The rung of signed level `z` of the chain built by `fetchStrikeChain`. -/
def rungAt (underlying expiry exchange atmSymbol : Str) (t : OptionType)
    (atmStrike interval lotSize : Int) (z : Int) : StrikeRung :=
  if z < 0 then itmRung underlying expiry exchange t atmStrike interval lotSize z.natAbs
  else if z = 0 then atmRung exchange atmSymbol atmStrike lotSize
  else otmRung underlying expiry exchange t atmStrike interval lotSize z.natAbs

/-- The offsets and strikes, in chain order, of the ladder of level `n` around
the ATM strike `a` with interval `d` for option type `t`: the rung of signed
level `z` carries the strike `a + z * d` for CE and `a - z * d` for PE. -/
def ladder (t : OptionType) (a d : Int) (n : Nat) : List (Str × Int) :=
  (signedLevels n).map (fun z => (offsetAt z, a + z * d * otmDirection t))

/-- The offset and strike of a rung. -/
def StrikeRung.offsetStrike (r : StrikeRung) : Str × Int := (r.offset, r.strike)

/-! ## Concrete inputs used by the witnesses -/

/-- A configured underlying: NIFTY on NSE_INDEX with options on NFO. -/
def exSymbol : SymbolConfig :=
  { id := ['n'], symbol := ['N', 'I', 'F', 'T', 'Y'],
    exchange := ['N', 'S', 'E', '_', 'I', 'N', 'D', 'E', 'X'],
    optionExchange := ['N', 'F', 'O'] }

/-- Settings with one configured underlying and API credentials. -/
def exSettings : Settings :=
  { symbols := [exSymbol], activeSymbolId := ['n'], apiKey := ['k'], hostUrl := ['h'] }

/-- The expiry tag `28NOV24`. -/
def exExpiry : Str := ['2', '8', 'N', 'O', 'V', '2', '4']

/-- A state with an expiry selected, level 2 and no chain yet. -/
def exState (t : OptionType) : State :=
  { State.initial exSettings with selectedExpiry := exExpiry, extendLevel := 2, optionType := t }

/-- The symbol `NIFTY28NOV24` followed by the given text. -/
def exSymbolText (tail : Str) : Str := ['N', 'I', 'F', 'T', 'Y'] ++ exExpiry ++ tail

/-- A successful ATM resolution at strike 24500. -/
def exAtm : SymbolResponse :=
  { success := true, symbol := exSymbolText ['2', '4', '5', '0', '0', 'C', 'E'],
    exchange := some ['N', 'F', 'O'], lotsize := some 25 }

/-- A successful ITM1 resolution at strike 24450. -/
def exItm1 : SymbolResponse :=
  { success := true, symbol := exSymbolText ['2', '4', '4', '5', '0', 'C', 'E'],
    exchange := some ['N', 'F', 'O'], lotsize := some 25 }

/-- A multiquotes response that does not report success. -/
def exNoQuotes : QuoteResponse := { success := false, results := none }

/-- A successful ATM resolution at strike 24500 whose symbol text writes the
strike with a leading zero: it matches the strike pattern but is not the text
`underlying + expiry + strike + optionType`. -/
def exAtmPadded : SymbolResponse :=
  { success := true, symbol := exSymbolText ['0', '2', '4', '5', '0', '0', 'C', 'E'],
    exchange := some ['N', 'F', 'O'], lotsize := some 25 }

/-- The symbols of a chain, in chain order. -/
def chainSymbols (s : State) : List Str := s.strikeChain.map (fun r => r.symbol)

/-! ## Sequences of operations -/

/-- The operations on the chain, each with the responses it awaits. -/
inductive Event where
  | build (atm itm1 : SymbolResponse) (quotes : QuoteResponse)
  | toggle (atm itm1 : SymbolResponse) (quotes : QuoteResponse)
  | extend (quotes : QuoteResponse)
  | refresh (quotes : QuoteResponse)
  | symbolChange (newId : Str) (expiry : ExpiryResponse) (atm itm1 : SymbolResponse)
      (quotes : QuoteResponse)
  | expiryClick (expiry : Str) (atm itm1 : SymbolResponse) (quotes : QuoteResponse)

/-- One operation applied to a state. -/
def step (s : State) : Event → State
  | .build atm itm1 quotes => fetchStrikeChain s atm itm1 quotes
  | .toggle atm itm1 quotes => onOptionTypeToggle s atm itm1 quotes
  | .extend quotes => extendStrikes s quotes
  | .refresh quotes => _fetchStrikeLTPs s quotes
  | .symbolChange newId expiry atm itm1 quotes => onSymbolChange s newId expiry atm itm1 quotes
  | .expiryClick expiry atm itm1 quotes => onExpiryClick s expiry atm itm1 quotes

/-- A sequence of operations applied from left to right. -/
def run (s : State) (events : List Event) : State := events.foldl step s

/-- The event is an `extendStrikes` call. -/
def Event.isExtend : Event → Bool
  | .extend _ => true
  | _ => false

/-- The event is an `extendStrikes` call or a quote refresh. -/
def Event.isExtendOrRefresh : Event → Bool
  | .extend _ => true
  | .refresh _ => true
  | _ => false

/-- The number of `extendStrikes` calls in a sequence of operations. -/
def countExtends (events : List Event) : Nat := events.countP Event.isExtend

/-- What `extendStrikes` and quote refreshes keep of a chain of level `m` built
around the ATM strike `a` with interval `d` for option type `t`. -/
structure LadderState (symbol : SymbolConfig) (t : OptionType) (a d : Int) (m : Nat)
    (s : State) : Prop where
  chain : s.strikeChain.map StrikeRung.offsetStrike = ladder t a d m
  level : s.extendLevel = m
  interval : s.strikeInterval = d
  atm : s.cachedATMStrike = a
  optionType : s.optionType = t
  active : getActiveSymbol s.settings = some symbol
  expiry : s.selectedExpiry ≠ []
  idle : s.isExtendingStrikes = false

/-- A configured underlying whose name is not made of letters only. -/
def exSymbolMM : SymbolConfig :=
  { id := ['m'], symbol := ['M', '&', 'M'], exchange := ['N', 'S', 'E'],
    optionExchange := ['N', 'F', 'O'] }

/-- Settings with `M&M` as the only configured underlying. -/
def exSettingsMM : Settings :=
  { symbols := [exSymbolMM], activeSymbolId := ['m'], apiKey := ['k'], hostUrl := ['h'] }

/-- A state for the underlying `M&M` with an expiry selected, at the given level. -/
def exStateMM (level : Nat) : State :=
  { State.initial exSettingsMM with selectedExpiry := exExpiry, extendLevel := level }

/-- A successful ATM resolution for `M&M`: the symbol `M&M28NOV243000CE`. -/
def exAtmMM : SymbolResponse :=
  { success := true, symbol := ['M', '&', 'M'] ++ exExpiry ++ ['3', '0', '0', '0', 'C', 'E'],
    exchange := some ['N', 'F', 'O'], lotsize := some 350 }

/-- A successful ITM1 resolution for `M&M`: the symbol `M&M28NOV242950CE`. -/
def exItm1MM : SymbolResponse :=
  { success := true, symbol := ['M', '&', 'M'] ++ exExpiry ++ ['2', '9', '5', '0', 'C', 'E'],
    exchange := some ['N', 'F', 'O'], lotsize := some 350 }

/-- The shape the chain is said to keep: empty, or `2 * extendLevel + 1` rungs
whose offsets are `ITM_n, ..., ITM1, ATM, OTM1, ..., OTM_n` for
`n = extendLevel`. -/
def ChainShape (s : State) : Prop :=
  s.strikeChain = [] ∨
    (s.strikeChain.length = 2 * s.extendLevel + 1 ∧
      s.strikeChain.map (fun r => r.offset) = canonicalOffsets s.extendLevel)

instance (s : State) : Decidable (ChainShape s) := by
  unfold ChainShape
  infer_instance

/-- A second configured underlying: BANKNIFTY. -/
def exSymbolBank : SymbolConfig :=
  { id := ['b'], symbol := ['B', 'A', 'N', 'K', 'N', 'I', 'F', 'T', 'Y'],
    exchange := ['N', 'S', 'E', '_', 'I', 'N', 'D', 'E', 'X'],
    optionExchange := ['N', 'F', 'O'] }

/-- Settings with two configured underlyings, NIFTY active. -/
def exSettingsTwo : Settings :=
  { symbols := [exSymbol, exSymbolBank], activeSymbolId := ['n'], apiKey := ['k'],
    hostUrl := ['h'] }

/-- An optionsymbol response that does not report success. -/
def exSymbolError : SymbolResponse :=
  { success := false, symbol := [], exchange := none, lotsize := none }

/-- A successful expiry response listing `28-NOV-24`. -/
def exExpiryList : ExpiryResponse :=
  { success := true, data := some [['2', '8', '-', 'N', 'O', 'V', '-', '2', '4']] }

/-- A run that ends with a stale cache: the NIFTY chain is built, the
underlying is changed to BANKNIFTY, the expiry list loads but the chain build
for the new underlying fails, and the user extends the strikes. -/
def exStaleExtendRun : List Event :=
  [Event.expiryClick exExpiry exAtm exItm1 exNoQuotes,
    Event.symbolChange ['b'] exExpiryList exSymbolError exSymbolError exNoQuotes,
    Event.extend exNoQuotes]

/-- The multiquotes response is applied and carries a row for the symbol. -/
def QuoteResponse.mentions (q : QuoteResponse) (sym : Str) : Bool :=
  q.success &&
    match q.results with
    | some rows => rows.any (fun row => decide (row.symbol = sym))
    | none => false

/-- The NIFTY call chain of level 2, built and not yet quoted. -/
def exBuilt : State := fetchStrikeChain (exState .CE) exAtm exItm1 exNoQuotes

/-- The built state after every configured underlying has been removed in the
settings panel. -/
def exBuiltNoSymbols : State :=
  { exBuilt with settings := { exSettings with symbols := [] } }

/-- The built state while an earlier `extendStrikes` call is still in flight. -/
def exBuiltExtending : State := { exBuilt with isExtendingStrikes := true }

/-- A successful multiquotes response with one row, for the ATM symbol. -/
def exAtmQuote : QuoteResponse :=
  { success := true,
    results := some [{ symbol := exAtm.symbol,
                       data := some { ltp := some 101, prev_close := some 99 } }] }

/-- A successful ATM resolution whose symbol the strike pattern does not
match: `NIFTY28NOV2424500.5CE`. -/
def exAtmUnparsable : SymbolResponse :=
  { success := true, symbol := exSymbolText ['2', '4', '5', '0', '0', '.', '5', 'C', 'E'],
    exchange := some ['N', 'F', 'O'], lotsize := some 25 }

/-- A state whose lot size is 75. -/
def exLotState : State := { exState .CE with lotSize := 75 }

/-- A pending stop-loss sell order for 75 units of the ATM call. -/
def exSLOrder : Order :=
  { orderid := ['1'], symbol := exAtm.symbol, exchange := ['N', 'F', 'O'],
    action := ['S', 'E', 'L', 'L'], product := ['M', 'I', 'S'], pricetype := ['S', 'L'],
    quantity := ['7', '5'],
    order_status := ['t', 'r', 'i', 'g', 'g', 'e', 'r', ' ', 'p', 'e', 'n', 'd', 'i', 'n', 'g'] }

/-- A panel whose net-position input holds the quantity `q`, with the given
stop-loss orders. -/
def exPanel (q : Int) (orders : List Order) : Panel :=
  { Panel.initial with
    netpos := some { qty := q, value := 0, editing := false }
    currentNetQty := q
    selectedSymbol := exAtm.symbol
    slOrders := orders }

/-- The pending set as the specification words it. -/
def claimedPendingStatuses : List Str :=
  [['o', 'p', 'e', 'n'],
    ['t', 'r', 'i', 'g', 'g', 'e', 'r', ' ', 'p', 'e', 'n', 'd', 'i', 'n', 'g'],
    ['v', 'a', 'l', 'i', 'd', 'a', 't', 'i', 'o', 'n', ' ', 'p', 'e', 'n', 'd', 'i', 'n', 'g'],
    ['p', 'u', 't', '-', 'o', 'r', 'd', 'e', 'r', '-', 'r', 'e', 'q', 'u', 'e', 's', 't', '-',
      'r', 'e', 'c', 'e', 'i', 'v', 'e', 'd']]

/-- The stop-loss test with the pending set as the specification words it:
the status itself is one of the four strings. -/
def claimedSLFilter (selectedSymbol : Str) (slAction : Side) (o : Order) : Bool :=
  claimedPendingStatuses.contains o.order_status &&
    [['S', 'L'], ['S', 'L', '-', 'M']].contains o.pricetype &&
    decide (o.symbol = selectedSymbol) && decide (o.action = slAction.toStr)

/-- The stop-loss order with another order id and status. -/
def exSLOrderWith (id status : Str) : Order :=
  { exSLOrder with orderid := id, order_status := status }

/-- An order book of three stop-loss sell orders for the ATM call whose
statuses are `put order req received`, `OPEN` and
`put-order-request-received`. -/
def exOrderbook : OrderbookResponse :=
  { success := true,
    orders := some
      [exSLOrderWith ['1'] ['p', 'u', 't', ' ', 'o', 'r', 'd', 'e', 'r', ' ', 'r', 'e', 'q', ' ',
          'r', 'e', 'c', 'e', 'i', 'v', 'e', 'd'],
        exSLOrderWith ['2'] ['O', 'P', 'E', 'N'],
        exSLOrderWith ['3'] ['p', 'u', 't', '-', 'o', 'r', 'd', 'e', 'r', '-', 'r', 'e', 'q', 'u',
          'e', 's', 't', '-', 'r', 'e', 'c', 'e', 'i', 'v', 'e', 'd']] }

/-- A symbol lookup server that always answers lot size 75. -/
def exSymbolApi : Str → Str → SymbolInfoResponse :=
  fun _ _ => { success := true, hasData := true, lotsize := some 75 }

/-- A quoted NIFTY chain: the built chain after the ATM quote arrived. -/
def exQuoted : State := _fetchStrikeLTPs exBuilt exAtmQuote

/-- The bucket key of the debounced margin fetch. -/
def exMarginKey : Str := ['m', 'a', 'r', 'g', 'i', 'n']

/-- Five calls within 100 ms, at 0, 25, 50, 75 and 100 ms, numbered 1 to 5. -/
def exFiveCalls : List (Nat × Nat) := [(0, 1), (25, 2), (50, 3), (75, 4), (100, 5)]

/-! ## Live ticks: sequences and concrete inputs -/

/-- A market-data message carrying the tick. -/
def tickMessage (tick : TickData) : WsData := { type := marketData, data := some tick }

/-- A run of inbound market-data messages handled one after the other, with
no flush in between. -/
def handleTicks (s : State) (p : Panel) (l : Live) (ticks : List TickData) : Live :=
  ticks.foldl (fun acc tick => handleWsMessage s p acc (tickMessage tick)) l

/-- The order ticket after the ATM rung of the quoted NIFTY chain has been
selected: order type MARKET, option price 101. -/
def exSelected : Panel := updateSelectedOptionLTP exQuoted Panel.initial true

/-- Live data switched on for the quoted NIFTY chain: the socket has opened
and `updateWsSubscriptions` has subscribed the underlying and the ATM call. -/
def exLive : Live :=
  updateWsSubscriptions exQuoted exSelected
    (wsOnOpen exQuoted (toggleLiveData exQuoted Live.initial true))

/-- A tick of the subscribed ATM call at 105. -/
def exStrikeTick : TickData := { symbol := exAtm.symbol, ltp := 105 }

/-- A tick of the subscribed underlying at 24510. -/
def exUnderlyingTick : TickData := { symbol := exSymbol.symbol, ltp := 24510 }

/-- The strike tick is buffered in MARKET mode, then the order-type button is
clicked (MARKET becomes LIMIT) before the animation frame. -/
def exBufferedThenLimit : Panel × Live :=
  onOrderTypeClick exQuoted exSelected
    (handleWsMessage exQuoted exSelected exLive (tickMessage exStrikeTick)) true

/-- The connection of `exLive` is lost, the reconnect timer fires and the new
socket opens. -/
def exReconnected : Live :=
  wsOnOpen exQuoted (wsReconnectTimerFires exQuoted (wsOnClose exLive))

/-- Live data of `exLive` is switched off and on again by the user, and the new
socket opens. -/
def exToggledOffOn : Live :=
  wsOnOpen exQuoted (toggleLiveData exQuoted (toggleLiveData exQuoted exLive false) true)

/-- The three messages sent on a socket after authentication and the
subscription of the NIFTY underlying and the ATM call. -/
def exSubscribedLog : List WsMessage :=
  [.authenticate ['k'], .subscribe exSymbol.symbol exSymbol.exchange,
    .subscribe exAtm.symbol ['N', 'F', 'O']]

/-! ## Option symbols -/

/-- An expiry tag: two digits, three upper-case letters and two digits. -/
def isExpiryTag : Str → Bool
  | [d1, d2, m1, m2, m3, y1, y2] =>
    d1.isDigit && d2.isDigit && m1.isUpper && m2.isUpper && m3.isUpper && y1.isDigit && y2.isDigit
  | _ => false

/-- The symbol `NIFTY26DEC2424500CE`. -/
def exNiftyDec : Str :=
  ['N', 'I', 'F', 'T', 'Y'] ++ ['2', '6', 'D', 'E', 'C', '2', '4'] ++ ['2', '4', '5', '0', '0']
    ++ ['C', 'E']

/-! ## Calls that write the lot-size cache -/

/-- A call of one of the two functions that write `lotSizeCache`, together
with the symbol lookup server that answers during the call. -/
inductive CacheCall where
  | getLotSizeForOrder (order : Order) (symbolApi : Str → Str → SymbolInfoResponse)
  | fetchLotSizesForOrders (orders : List Order) (symbolApi : Str → Str → SymbolInfoResponse)

/-- The cache after one call. -/
def applyCacheCall (cache : LotSizeCache) : CacheCall → LotSizeCache
  | .getLotSizeForOrder order symbolApi => (getLotSizeForOrder cache order symbolApi).2.1
  | .fetchLotSizesForOrders orders symbolApi => fetchLotSizesForOrders cache orders symbolApi

/-- The cache after a sequence of calls. -/
def cacheAfter (calls : List CacheCall) (cache : LotSizeCache) : LotSizeCache :=
  calls.foldl applyCacheCall cache

/-- No stored lot size is zero. -/
def CacheOk (cache : LotSizeCache) : Prop := ∀ e ∈ cache, e.2 ≠ 0

/-- An order for the given symbol on NFO. -/
def exOrderFor (symbol : Str) : Order := { exSLOrder with symbol := symbol }

/-- A symbol lookup server that always answers lot size 50. -/
def exSymbolApi50 : Str → Str → SymbolInfoResponse :=
  fun _ _ => { success := true, hasData := true, lotsize := some 50 }

/-! ## Comparing a relabelled chain with a direct build -/

/-- What is compared of a rung: its offset, its strike and, unless it is the
ATM rung, its symbol. -/
def StrikeRung.ladderView (r : StrikeRung) : Str × Int × Option Str :=
  (r.offset, r.strike, if r.offset = atmOffset then none else some r.symbol)

/-- A successful ATM resolution of the put at strike 24500. -/
def exAtmPut : SymbolResponse :=
  { success := true, symbol := exSymbolText ['2', '4', '5', '0', '0', 'P', 'E'],
    exchange := some ['N', 'F', 'O'], lotsize := some 25 }

/-- A successful ITM1 resolution of the put at strike 24550. -/
def exItm1Put : SymbolResponse :=
  { success := true, symbol := exSymbolText ['2', '4', '5', '5', '0', 'P', 'E'],
    exchange := some ['N', 'F', 'O'], lotsize := some 25 }

/-! ## Orders list against the stop-loss filter -/

/-- The text `open`, the default value of `state.ordersFilter`. -/
def openFilter : Str := ['o', 'p', 'e', 'n']

/-- A stop-loss sell order for the ATM call whose status is written with an
underscore: `trigger_pending`. -/
def exUnderscoreOrder : Order :=
  exSLOrderWith ['9']
    ['t', 'r', 'i', 'g', 'g', 'e', 'r', '_', 'p', 'e', 'n', 'd', 'i', 'n', 'g']

/-! ## Quotes with a zero or missing price -/

/-- The ATM rung of the quoted NIFTY chain: ltp 101, previous close 99. -/
def exAtmRungQuoted : StrikeRung :=
  { atmRung ['N', 'F', 'O'] exAtm.symbol 24500 25 with ltp := 101, prevClose := 99 }

/-- A successful multiquotes response whose row for the ATM symbol has a data
object without `ltp` and with `prev_close` 0. -/
def exZeroQuote : QuoteResponse :=
  { success := true,
    results := some [{ symbol := exAtm.symbol,
                       data := some { ltp := none, prev_close := some 0 } }] }

/-! ## Sequences of quantity events -/

/-- The events of the lots controls: the two buttons and, on the input,
`click`, `blur`, `input` and `change` with the parsed text of the input. -/
inductive QtyEvent where
  | dec
  | inc
  | click
  | blur
  | input (value : Option Int)
  | change (value : Option Int)
  deriving DecidableEq

/-- The handler of one event. -/
def qtyStep (s : State) (q : Quantity) : QtyEvent → Quantity
  | .dec => onLotsDec s q
  | .inc => onLotsInc s q
  | .click => onLotsClick q
  | .blur => onLotsBlur q
  | .input value => onLotsInput s q value
  | .change value => onLotsChange s q value

/-- The quantity after a sequence of events. -/
def qtyRun (s : State) (q : Quantity) (events : List QtyEvent) : Quantity :=
  events.foldl (qtyStep s) q

/-- The quantity is a positive whole multiple of the lot size. -/
def LotsOk (s : State) (q : Quantity) : Prop := ∃ k : Int, 1 ≤ k ∧ q.lots = k * s.lotSize

/-- The quantity state when the script is loaded: `state.lots` is 0 and the
lots input is read-only. -/
def exQuantity : Quantity := { lots := 0, lotsInput := some { oaLoading := false, readOnly := true } }


/-! ## Decimal rendering -/

theorem digitChar_toNat (k : Nat) (h : k < 10) : (Nat.digitChar k).toNat - 48 = k := by
  interval_cases k <;> decide

theorem digitChar_isDigit (k : Nat) (h : k < 10) : (Nat.digitChar k).isDigit = true := by
  interval_cases k <;> decide

theorem digitChar_not_isUpper (k : Nat) (h : k < 10) : (Nat.digitChar k).isUpper = false := by
  interval_cases k <;> decide

theorem foldl_toDigitsCore (fuel : Nat) : ∀ (n : Nat) (ds : Str), n < fuel →
    (Nat.toDigitsCore 10 fuel n ds).foldl (fun acc c => 10 * acc + (c.toNat - 48)) 0
      = ds.foldl (fun acc c => 10 * acc + (c.toNat - 48)) n := by
  induction fuel with
  | zero => intro n ds h; omega
  | succ fuel ih =>
    intro n ds h
    unfold Nat.toDigitsCore
    by_cases h0 : n / 10 = 0
    · have hn : n % 10 = n := by omega
      have hd := digitChar_toNat n (by omega)
      simp [h0, List.foldl_cons, hn, hd]
    · have hlt : n / 10 < fuel := by omega
      simp only [h0, if_false]
      rw [ih (n / 10) _ hlt, List.foldl_cons,
        digitChar_toNat (n % 10) (Nat.mod_lt _ (by decide))]
      congr 1
      omega

theorem parseDigits_natToStr (n : Nat) : parseDigits (natToStr n) = n := by
  unfold parseDigits natToStr Nat.toDigits
  rw [foldl_toDigitsCore (n + 1) n [] (Nat.lt_succ_self n)]
  rfl

theorem natToStr_injective {i j : Nat} (h : natToStr i = natToStr j) : i = j := by
  have := congrArg parseDigits h
  simpa [parseDigits_natToStr] using this

theorem toDigitsCore_all (p : Char → Bool) (hp : ∀ k, k < 10 → p (Nat.digitChar k) = true)
    (fuel : Nat) : ∀ (n : Nat) (ds : Str), (∀ c ∈ ds, p c = true) →
    ∀ c ∈ Nat.toDigitsCore 10 fuel n ds, p c = true := by
  induction fuel with
  | zero => intro n ds h; simpa [Nat.toDigitsCore] using h
  | succ fuel ih =>
    intro n ds h
    unfold Nat.toDigitsCore
    have hd : p (Nat.digitChar (n % 10)) = true := hp _ (Nat.mod_lt _ (by decide))
    by_cases h0 : n / 10 = 0
    · simp only [h0, if_true]
      intro c hc
      rcases List.mem_cons.1 hc with rfl | hc
      · exact hd
      · exact h c hc
    · simp only [h0, if_false]
      apply ih
      intro c hc
      rcases List.mem_cons.1 hc with rfl | hc
      · exact hd
      · exact h c hc

theorem toDigitsCore_ne_nil (fuel : Nat) : ∀ (n : Nat) (ds : Str), ds ≠ [] →
    Nat.toDigitsCore 10 fuel n ds ≠ [] := by
  induction fuel with
  | zero => intro n ds h; simpa [Nat.toDigitsCore] using h
  | succ fuel ih =>
    intro n ds _
    unfold Nat.toDigitsCore
    by_cases h0 : n / 10 = 0
    · simp [h0]
    · simp only [h0, if_false]
      exact ih _ _ (List.cons_ne_nil _ _)

theorem natToStr_isDigit (n : Nat) : ∀ c ∈ natToStr n, c.isDigit = true :=
  toDigitsCore_all Char.isDigit digitChar_isDigit (n + 1) n [] (by simp)

theorem natToStr_not_isUpper (n : Nat) : ∀ c ∈ natToStr n, (!c.isUpper) = true :=
  toDigitsCore_all (fun c => !c.isUpper) (fun k hk => by simp [digitChar_not_isUpper k hk])
    (n + 1) n [] (by simp)

theorem natToStr_ne_nil (n : Nat) : natToStr n ≠ [] := by
  unfold natToStr Nat.toDigits Nat.toDigitsCore
  by_cases h0 : n / 10 = 0
  · simp [h0]
  · simp only [h0, if_false]
    exact toDigitsCore_ne_nil _ _ _ (List.cons_ne_nil _ _)

theorem parseInt_natToStr (n : Nat) : parseInt (natToStr n) = some (n : Int) := by
  have hall := natToStr_isDigit n
  have hne := natToStr_ne_nil n
  have htw : (natToStr n).takeWhile Char.isDigit = natToStr n :=
    List.takeWhile_eq_self_iff.2 hall
  cases hs : natToStr n with
  | nil => exact absurd hs hne
  | cons c cs =>
    have hc : c.isDigit = true := by
      apply hall; rw [hs]; exact List.mem_cons_self _ _
    have h1 : c ≠ '-' := by rintro rfl; exact absurd hc (by decide)
    have h2 : c ≠ '+' := by rintro rfl; exact absurd hc (by decide)
    have hp : parseDigits (c :: cs) = n := by rw [← hs]; exact parseDigits_natToStr n
    rw [hs] at htw
    unfold parseInt
    split
    · rename_i rest heq; cases heq; exact absurd rfl h1
    · rename_i rest heq; cases heq; exact absurd rfl h2
    · simp only [htw, hp]
      simp


/-! ## Offsets -/

theorem replaceFirst_append (pat rest : Str) (h : pat ≠ []) :
    replaceFirst pat [] (pat ++ rest) = rest := by
  cases hp : pat ++ rest with
  | nil => simp at hp; exact absurd hp.1 h
  | cons c cs =>
    unfold replaceFirst
    have : pat.isPrefixOf (c :: cs) = true := by
      rw [← hp]; simp
    rw [if_pos this, ← hp]
    simp

theorem itm_isPrefixOf_itmOffset (i : Nat) : ['I', 'T', 'M'].isPrefixOf (itmOffset i) = true := by
  simp [itmOffset, List.isPrefixOf]

theorem itm_isPrefixOf_otmOffset (i : Nat) : ['I', 'T', 'M'].isPrefixOf (otmOffset i) = false := by
  simp [otmOffset, List.isPrefixOf]

theorem otm_isPrefixOf_otmOffset (i : Nat) : ['O', 'T', 'M'].isPrefixOf (otmOffset i) = true := by
  simp [otmOffset, List.isPrefixOf]

theorem flipOffset_itm (i : Nat) : flipOffset (itmOffset i) = otmOffset i := by
  unfold flipOffset
  rw [if_pos (itm_isPrefixOf_itmOffset i)]
  unfold itmOffset otmOffset
  rw [replaceFirst_append _ _ (by simp)]

theorem flipOffset_otm (i : Nat) : flipOffset (otmOffset i) = itmOffset i := by
  unfold flipOffset
  rw [if_neg (by simp [itm_isPrefixOf_otmOffset i]), if_pos (otm_isPrefixOf_otmOffset i)]
  unfold itmOffset otmOffset
  rw [replaceFirst_append _ _ (by simp)]

theorem flipOffset_atm : flipOffset atmOffset = atmOffset := by decide

theorem itmOffset_ne_atm (i : Nat) : itmOffset i ≠ atmOffset := by
  simp [itmOffset, atmOffset]

theorem otmOffset_ne_atm (i : Nat) : otmOffset i ≠ atmOffset := by
  simp [otmOffset, atmOffset]

theorem itmOffset_ne_otm (i j : Nat) : itmOffset i ≠ otmOffset j := by
  simp [itmOffset, otmOffset]

theorem itmOffset_injective {i j : Nat} (h : itmOffset i = itmOffset j) : i = j := by
  unfold itmOffset at h
  exact natToStr_injective (List.append_cancel_left h)

theorem otmOffset_injective {i j : Nat} (h : otmOffset i = otmOffset j) : i = j := by
  unfold otmOffset at h
  exact natToStr_injective (List.append_cancel_left h)

theorem removeUpper_natToStr (n : Nat) : (natToStr n).filter (fun c => !c.isUpper) = natToStr n :=
  List.filter_eq_self.2 (natToStr_not_isUpper n)

theorem getOrder_itm (i : Nat) : getOrder (itmOffset i) = some (-(i : Int)) := by
  unfold getOrder
  rw [if_neg (itmOffset_ne_atm i)]
  have : removeUpper (itmOffset i) = natToStr i := by
    unfold removeUpper itmOffset
    rw [List.filter_append, removeUpper_natToStr]
    rfl
  rw [this, parseInt_natToStr]
  simp [itm_isPrefixOf_itmOffset]

theorem getOrder_otm (i : Nat) : getOrder (otmOffset i) = some (i : Int) := by
  unfold getOrder
  rw [if_neg (otmOffset_ne_atm i)]
  have : removeUpper (otmOffset i) = natToStr i := by
    unfold removeUpper otmOffset
    rw [List.filter_append, removeUpper_natToStr]
    rfl
  rw [this, parseInt_natToStr]
  simp [itm_isPrefixOf_otmOffset]

theorem getOrder_atm : getOrder atmOffset = some 0 := by decide

theorem getOrder_offsetAt (z : Int) : getOrder (offsetAt z) = some z := by
  unfold offsetAt
  split
  · rw [getOrder_itm]; congr 1; omega
  · split
    · subst_vars; exact getOrder_atm
    · rw [getOrder_otm]; congr 1; omega

theorem flipOffset_offsetAt (z : Int) : flipOffset (offsetAt z) = offsetAt (-z) := by
  unfold offsetAt
  by_cases h1 : z < 0
  · have h2 : ¬ (-z < 0) := by omega
    have h3 : ¬ (-z = 0) := by omega
    simp only [h1, h2, h3, if_true, if_false, flipOffset_itm, Int.natAbs_neg]
  · by_cases h4 : z = 0
    · subst h4; simp [flipOffset_atm]
    · have h2 : -z < 0 := by omega
      simp only [h1, h2, h4, if_true, if_false, flipOffset_otm, Int.natAbs_neg]

theorem offsetAt_injective {x y : Int} (h : offsetAt x = offsetAt y) : x = y := by
  have := congrArg getOrder h
  simpa [getOrder_offsetAt] using this

/-! ## Signed levels -/

theorem signedLevels_length (n : Nat) : (signedLevels n).length = 2 * n + 1 := by
  induction n with
  | zero => rfl
  | succ n ih => simp [signedLevels, ih]; omega

theorem mem_signedLevels {n : Nat} {z : Int} : z ∈ signedLevels n ↔ -(n : Int) ≤ z ∧ z ≤ n := by
  induction n with
  | zero => simp [signedLevels]; omega
  | succ n ih =>
    simp only [signedLevels, List.mem_cons, List.mem_append, ih, List.not_mem_nil, or_false]
    push_cast
    omega

theorem signedLevels_pairwise (n : Nat) : (signedLevels n).Pairwise (· < ·) := by
  induction n with
  | zero => simp [signedLevels]
  | succ n ih =>
    simp only [signedLevels, List.pairwise_cons, List.pairwise_append, List.mem_append,
      List.mem_singleton, List.pairwise_singleton]
    refine ⟨⟨?_, ih⟩, ⟨by simp, by simp⟩, ?_⟩
    · intro a ha
      have := (mem_signedLevels.1 ha).1
      omega
    · intro a ha b hb
      subst hb
      rcases List.mem_cons.1 ha with rfl | ha
      · omega
      · have := (mem_signedLevels.1 ha).2
        omega

theorem canonicalOffsets_eq (n : Nat) : canonicalOffsets n = (signedLevels n).map offsetAt := by
  induction n with
  | zero => rfl
  | succ n ih =>
    have h1 : offsetAt (-((n : Int) + 1)) = itmOffset (n + 1) := by
      unfold offsetAt
      rw [if_pos (by omega)]
      congr 1
    have h2 : offsetAt ((n : Int) + 1) = otmOffset (n + 1) := by
      unfold offsetAt
      rw [if_neg (by omega), if_neg (by omega)]
      congr 1
    simp only [canonicalOffsets, signedLevels, List.map_cons, List.map_append, List.map_nil, ih,
      h1, h2]

theorem canonicalOffsets_length (n : Nat) : (canonicalOffsets n).length = 2 * n + 1 := by
  rw [canonicalOffsets_eq, List.length_map, signedLevels_length]

theorem canonicalOffsets_nodup (n : Nat) : (canonicalOffsets n).Nodup := by
  rw [canonicalOffsets_eq]
  refine List.Nodup.map (fun x y h => offsetAt_injective h) ?_
  exact (signedLevels_pairwise n).imp (fun h => ne_of_lt h)

/-! ## The chain built by `fetchStrikeChain` -/

theorem buildChain_succ (u e x a : Str) (t : OptionType) (k d L : Int) (n : Nat) :
    buildChain u e x a t k d L (n + 1)
      = itmRung u e x t k d L (n + 1) :: buildChain u e x a t k d L n
          ++ [otmRung u e x t k d L (n + 1)] := by
  simp [buildChain, itmLoop, otmLoop]

theorem buildChain_eq (u e x a : Str) (t : OptionType) (k d L : Int) (n : Nat) :
    buildChain u e x a t k d L n = (signedLevels n).map (rungAt u e x a t k d L) := by
  induction n with
  | zero => rfl
  | succ n ih =>
    have h1 : rungAt u e x a t k d L (-((n : Int) + 1)) = itmRung u e x t k d L (n + 1) := by
      unfold rungAt
      rw [if_pos (by omega)]
      congr 1
    have h2 : rungAt u e x a t k d L ((n : Int) + 1) = otmRung u e x t k d L (n + 1) := by
      unfold rungAt
      rw [if_neg (by omega), if_neg (by omega)]
      congr 1
    rw [buildChain_succ, ih]
    simp only [signedLevels, List.map_cons, List.map_append, List.map_nil, h1, h2]

theorem rungAt_offset (u e x a : Str) (t : OptionType) (k d L : Int) (z : Int) :
    (rungAt u e x a t k d L z).offset = offsetAt z := by
  unfold rungAt offsetAt
  split
  · rfl
  · split <;> rfl

theorem rungAt_strike (u e x a : Str) (t : OptionType) (k d L : Int) (z : Int) :
    (rungAt u e x a t k d L z).strike = k + z * d * otmDirection t := by
  unfold rungAt
  split
  · rename_i h
    have hz : ((z.natAbs : Nat) : Int) = -z := by omega
    simp only [itmRung, hz]
    cases t <;> simp [itmDirection, otmDirection]
  · split
    · rename_i h; subst h; simp [atmRung]
    · rename_i h1 h2
      have hz : ((z.natAbs : Nat) : Int) = z := by omega
      simp only [otmRung, hz]

theorem rungAt_symbol (u e x a : Str) (t : OptionType) (k d L : Int) (z : Int) (hz : z ≠ 0) :
    (rungAt u e x a t k d L z).symbol
      = buildSymbol u e (rungAt u e x a t k d L z).strike t := by
  unfold rungAt
  split
  · rfl
  · rfl


/-! ## Quote refresh -/

theorem updateFirst_length (p : StrikeRung → Bool) (f : StrikeRung → StrikeRung)
    (l : List StrikeRung) : (updateFirst p f l).length = l.length := by
  induction l with
  | nil => rfl
  | cons x xs ih =>
    unfold updateFirst
    split <;> simp [ih]

theorem updateFirst_map {β : Type} (g : StrikeRung → β) (p : StrikeRung → Bool)
    (f : StrikeRung → StrikeRung) (hg : ∀ r, g (f r) = g r) (l : List StrikeRung) :
    (updateFirst p f l).map g = l.map g := by
  induction l with
  | nil => rfl
  | cons x xs ih =>
    unfold updateFirst
    split
    · simp [hg]
    · simp [ih]

theorem updateFirst_getElem? (p : StrikeRung → Bool) (f : StrikeRung → StrikeRung)
    (l : List StrikeRung) (i : Nat) (r : StrikeRung) (hr : l[i]? = some r) (hp : p r = false) :
    (updateFirst p f l)[i]? = some r := by
  induction l generalizing i with
  | nil => simp at hr
  | cons x xs ih =>
    unfold updateFirst
    cases i with
    | zero =>
      simp at hr
      subst hr
      simp [hp]
    | succ i =>
      simp at hr
      split
      · simpa using hr
      · simpa using ih i hr

theorem applyQuoteRow_map {β : Type} (g : StrikeRung → β)
    (hg : ∀ (r : StrikeRung) (l p : ℚ), g { r with ltp := l, prevClose := p } = g r)
    (chain : List StrikeRung) (row : QuoteRow) :
    (applyQuoteRow chain row).map g = chain.map g := by
  unfold applyQuoteRow
  split
  · exact updateFirst_map g _ _ (fun r => hg r _ _) chain
  · rfl

theorem foldl_applyQuoteRow_map {β : Type} (g : StrikeRung → β)
    (hg : ∀ (r : StrikeRung) (l p : ℚ), g { r with ltp := l, prevClose := p } = g r)
    (rows : List QuoteRow) : ∀ chain : List StrikeRung,
    (rows.foldl applyQuoteRow chain).map g = chain.map g := by
  induction rows with
  | nil => intro chain; rfl
  | cons row rows ih =>
    intro chain
    rw [List.foldl_cons, ih, applyQuoteRow_map g hg]

theorem applyQuotes_map {β : Type} (g : StrikeRung → β)
    (hg : ∀ (r : StrikeRung) (l p : ℚ), g { r with ltp := l, prevClose := p } = g r)
    (chain : List StrikeRung) (q : QuoteResponse) :
    (applyQuotes chain q).map g = chain.map g := by
  unfold applyQuotes
  split
  · split
    · exact foldl_applyQuoteRow_map g hg _ chain
    · rfl
  · rfl

theorem applyQuotes_length (chain : List StrikeRung) (q : QuoteResponse) :
    (applyQuotes chain q).length = chain.length := by
  have := congrArg List.length (applyQuotes_map (fun _ => ()) (fun _ _ _ => rfl) chain q)
  simpa using this

theorem applyQuotes_zeroPrices (chain : List StrikeRung) (q : QuoteResponse) :
    (applyQuotes chain q).map StrikeRung.zeroPrices = chain.map StrikeRung.zeroPrices :=
  applyQuotes_map StrikeRung.zeroPrices (fun _ _ _ => rfl) chain q

theorem applyQuotes_offsets (chain : List StrikeRung) (q : QuoteResponse) :
    (applyQuotes chain q).map (fun r => r.offset) = chain.map (fun r => r.offset) :=
  applyQuotes_map (fun r => r.offset) (fun _ _ _ => rfl) chain q

theorem applyQuotes_strikes (chain : List StrikeRung) (q : QuoteResponse) :
    (applyQuotes chain q).map (fun r => r.strike) = chain.map (fun r => r.strike) :=
  applyQuotes_map (fun r => r.strike) (fun _ _ _ => rfl) chain q

theorem applyQuotes_relabel (u e : Str) (t : OptionType) (chain : List StrikeRung)
    (q : QuoteResponse) :
    (applyQuotes chain q).map (relabelRung u e t) = chain.map (relabelRung u e t) :=
  applyQuotes_map (relabelRung u e t) (fun _ _ _ => rfl) chain q

theorem applyQuoteRow_getElem? (chain : List StrikeRung) (row : QuoteRow) (i : Nat)
    (r : StrikeRung) (hr : chain[i]? = some r) (hne : r.symbol ≠ row.symbol) :
    (applyQuoteRow chain row)[i]? = some r := by
  unfold applyQuoteRow
  split
  · exact updateFirst_getElem? _ _ chain i r hr (by simpa using hne)
  · exact hr

theorem foldl_applyQuoteRow_getElem? (rows : List QuoteRow) :
    ∀ (chain : List StrikeRung) (i : Nat) (r : StrikeRung), chain[i]? = some r →
      (∀ row ∈ rows, r.symbol ≠ row.symbol) →
      (rows.foldl applyQuoteRow chain)[i]? = some r := by
  induction rows with
  | nil => intro chain i r hr _; exact hr
  | cons row rows ih =>
    intro chain i r hr hne
    rw [List.foldl_cons]
    apply ih
    · exact applyQuoteRow_getElem? chain row i r hr (hne row (List.mem_cons_self _ _))
    · intro row' h'
      exact hne row' (List.mem_cons_of_mem _ h')

/-! ## The sort of `switchOptionType` -/

theorem orderedInsert_append (r : StrikeRung → StrikeRung → Prop) [DecidableRel r]
    (a : StrikeRung) (l : List StrikeRung) (h : ∀ b ∈ l, ¬ r a b) :
    l.orderedInsert r a = l ++ [a] := by
  induction l with
  | nil => rfl
  | cons b l ih =>
    rw [List.orderedInsert, if_neg (h b (List.mem_cons_self _ _)),
      ih (fun c hc => h c (List.mem_cons_of_mem _ hc))]
    rfl

theorem sortChain_reverse (l : List StrikeRung)
    (h : l.Pairwise (fun a b => orderLe a b = false)) : sortChain l = l.reverse := by
  induction l with
  | nil => rfl
  | cons a l ih =>
    rw [List.pairwise_cons] at h
    unfold sortChain at ih ⊢
    rw [List.insertionSort, ih h.2, orderedInsert_append]
    · simp
    · intro b hb
      rw [h.1 b (List.mem_reverse.1 hb)]
      simp

theorem orderLe_false {a b : StrikeRung} {x y : Int} (ha : getOrder a.offset = some x)
    (hb : getOrder b.offset = some y) (h : y < x) : orderLe a b = false := by
  unfold orderLe
  rw [ha, hb]
  simp
  omega

theorem sortChain_map_reverse (f : Int → StrikeRung) (key : Int → Int) (zs : List Int)
    (hkey : ∀ z, getOrder (f z).offset = some (key z))
    (hz : zs.Pairwise (fun x y => key y < key x)) :
    sortChain (zs.map f) = (zs.map f).reverse := by
  apply sortChain_reverse
  rw [List.pairwise_map]
  exact hz.imp (fun h => orderLe_false (hkey _) (hkey _) h)

theorem sortChain_perm (l : List StrikeRung) : (sortChain l).Perm l :=
  List.perm_insertionSort _ l


/-! ## Unfolding `fetchStrikeChain` -/

theorem buildChain_length (u e x a : Str) (t : OptionType) (k d L : Int) (n : Nat) :
    (buildChain u e x a t k d L n).length = 2 * n + 1 := by
  rw [buildChain_eq, List.length_map, signedLevels_length]

theorem fetchStrikeChain_built (s : State) (atm itm1 : SymbolResponse) (q : QuoteResponse)
    (symbol : SymbolConfig) (hf : s.isFetchingStrikeChain = false)
    (hs : getActiveSymbol s.settings = some symbol) (he : s.selectedExpiry ≠ [])
    (ha : atm.success = true) (hi : itm1.success = true) :
    fetchStrikeChain s atm itm1 q =
      { s with
        isFetchingStrikeChain := false
        loadingStrikes := false
        strikeInterval := |parseStrike atm.symbol - parseStrike itm1.symbol|
        cachedATMStrike := parseStrike atm.symbol
        lotSize := intOr atm.lotsize 25
        strikeChain := applyQuotes
          (buildChain symbol.symbol s.selectedExpiry (strOr atm.exchange symbol.optionExchange)
            atm.symbol s.optionType (parseStrike atm.symbol)
            |parseStrike atm.symbol - parseStrike itm1.symbol| (intOr atm.lotsize 25)
            s.extendLevel) q } := by
  have he' : s.selectedExpiry.isEmpty = false := by
    cases h : s.selectedExpiry with
    | nil => exact absurd h he
    | cons c cs => rfl
  unfold fetchStrikeChain
  simp only [hf, hs, he', ha, hi, Bool.not_true, Bool.or_self, Bool.false_eq_true, if_false]
  unfold _fetchStrikeLTPs
  simp only [buildChain_length]
  rw [if_neg (by omega)]

theorem buildChain_offsetStrike (u e x a : Str) (t : OptionType) (k d L : Int) (n : Nat) :
    (buildChain u e x a t k d L n).map StrikeRung.offsetStrike = ladder t k d n := by
  rw [buildChain_eq, ladder, List.map_map]
  apply List.map_congr_left
  intro z _
  simp [StrikeRung.offsetStrike, rungAt_offset, rungAt_strike]

theorem applyQuotes_offsetStrike (chain : List StrikeRung) (q : QuoteResponse) :
    (applyQuotes chain q).map StrikeRung.offsetStrike = chain.map StrikeRung.offsetStrike :=
  applyQuotes_map StrikeRung.offsetStrike (fun _ _ _ => rfl) chain q

theorem fetchStrikeChain_ladder (s : State) (atm itm1 : SymbolResponse) (q : QuoteResponse)
    (symbol : SymbolConfig) (hf : s.isFetchingStrikeChain = false)
    (hs : getActiveSymbol s.settings = some symbol) (he : s.selectedExpiry ≠ [])
    (ha : atm.success = true) (hi : itm1.success = true) :
    (fetchStrikeChain s atm itm1 q).strikeChain.map StrikeRung.offsetStrike
      = ladder s.optionType (parseStrike atm.symbol)
          |parseStrike atm.symbol - parseStrike itm1.symbol| s.extendLevel := by
  rw [fetchStrikeChain_built s atm itm1 q symbol hf hs he ha hi]
  simp only [applyQuotes_offsetStrike, buildChain_offsetStrike]

theorem ladder_offsets (t : OptionType) (a d : Int) (n : Nat) :
    (ladder t a d n).map Prod.fst = canonicalOffsets n := by
  rw [ladder, List.map_map, canonicalOffsets_eq]
  rfl

theorem ladder_length (t : OptionType) (a d : Int) (n : Nat) :
    (ladder t a d n).length = 2 * n + 1 := by
  rw [ladder, List.length_map, signedLevels_length]

theorem map_offset_eq (chain : List StrikeRung) :
    chain.map (fun r => r.offset) = (chain.map StrikeRung.offsetStrike).map Prod.fst := by
  rw [List.map_map]; rfl

theorem map_strike_eq (chain : List StrikeRung) :
    chain.map (fun r => r.strike) = (chain.map StrikeRung.offsetStrike).map Prod.snd := by
  rw [List.map_map]; rfl



/-! ## Strikes of the ladder -/

theorem signedLevels_head? (n : Nat) : (signedLevels n).head? = some (-(n : Int)) := by
  cases n with
  | zero => rfl
  | succ n => simp [signedLevels]

theorem signedLevels_getLast? (n : Nat) : (signedLevels n).getLast? = some (n : Int) := by
  cases n with
  | zero => rfl
  | succ n =>
    have : signedLevels (n + 1) = (-((n : Int) + 1) :: signedLevels n) ++ [(n : Int) + 1] := rfl
    rw [this, List.getLast?_append]
    simp

theorem signedLevels_chain' (n : Nat) : (signedLevels n).Chain' (fun x y => y = x + 1) := by
  induction n with
  | zero => simp [signedLevels]
  | succ n ih =>
    have : signedLevels (n + 1) = -((n : Int) + 1) :: (signedLevels n ++ [(n : Int) + 1]) := rfl
    rw [this, List.chain'_cons', List.chain'_append]
    refine ⟨?_, ih, by simp, ?_⟩
    · intro y hy
      rw [List.head?_append, signedLevels_head?] at hy
      simp at hy
      omega
    · intro x hx y hy
      rw [signedLevels_getLast?] at hx
      simp at hx hy
      omega

theorem ladder_strikes_chain' (t : OptionType) (a d : Int) (n : Nat) :
    ((ladder t a d n).map Prod.snd).Chain' (fun x y => y = x + d * otmDirection t) := by
  rw [ladder, List.map_map, List.chain'_map]
  refine (signedLevels_chain' n).imp ?_
  intro x y h
  subst h
  simp only [Function.comp]
  ring

theorem ladder_strikes_pairwise (t : OptionType) (a d : Int) (n : Nat) (hd : 0 < d) :
    ((ladder t a d n).map Prod.snd).Pairwise
      (fun x y => if t = .PE then y < x else x < y) := by
  rw [ladder, List.map_map, List.pairwise_map]
  refine (signedLevels_pairwise n).imp ?_
  intro x y h
  cases t
  · simp only [Function.comp, otmDirection]
    simp
    nlinarith
  · simp only [Function.comp, otmDirection]
    simp
    nlinarith

theorem mem_ladder {t : OptionType} {a d : Int} {n : Nat} {p : Str × Int} :
    p ∈ ladder t a d n ↔
      ∃ z : Int, (-(n : Int) ≤ z ∧ z ≤ n) ∧ p = (offsetAt z, a + z * d * otmDirection t) := by
  simp only [ladder, List.mem_map, mem_signedLevels]
  constructor
  · rintro ⟨z, hz, rfl⟩; exact ⟨z, hz, rfl⟩
  · rintro ⟨z, hz, rfl⟩; exact ⟨z, hz, rfl⟩

theorem offsetAt_neg_cast (i : Nat) (hi : 1 ≤ i) : offsetAt (-(i : Int)) = itmOffset i := by
  unfold offsetAt
  rw [if_pos (by omega)]
  congr 1
  omega

theorem offsetAt_cast (i : Nat) (hi : 1 ≤ i) : offsetAt (i : Int) = otmOffset i := by
  unfold offsetAt
  rw [if_neg (by omega), if_neg (by omega)]
  congr 1

theorem offsetAt_zero : offsetAt 0 = atmOffset := rfl

theorem itm_mem_ladder (t : OptionType) (a d : Int) (n i : Nat) (h1 : 1 ≤ i) (h2 : i ≤ n) :
    (itmOffset i, a + (i : Int) * d * itmDirection t) ∈ ladder t a d n := by
  rw [mem_ladder]
  refine ⟨-(i : Int), ⟨by omega, by omega⟩, ?_⟩
  rw [offsetAt_neg_cast i h1]
  cases t <;> simp [itmDirection, otmDirection]

theorem otm_mem_ladder (t : OptionType) (a d : Int) (n i : Nat) (h1 : 1 ≤ i) (h2 : i ≤ n) :
    (otmOffset i, a + (i : Int) * d * otmDirection t) ∈ ladder t a d n := by
  rw [mem_ladder]
  refine ⟨(i : Int), ⟨by omega, by omega⟩, ?_⟩
  rw [offsetAt_cast i h1]

theorem atm_mem_ladder (t : OptionType) (a d : Int) (n : Nat) :
    (atmOffset, a) ∈ ladder t a d n := by
  rw [mem_ladder]
  exact ⟨0, ⟨by omega, by omega⟩, by simp [offsetAt_zero]⟩

theorem ladder_atm_strike {t : OptionType} {a d k : Int} {n : Nat}
    (h : (atmOffset, k) ∈ ladder t a d n) : k = a := by
  rw [mem_ladder] at h
  obtain ⟨z, _, hz⟩ := h
  have h1 : offsetAt 0 = offsetAt z := by rw [offsetAt_zero]; exact (Prod.mk.inj hz).1
  have h0 : z = 0 := (offsetAt_injective h1).symm
  subst h0
  simpa using (Prod.mk.inj hz).2

theorem mem_offsetStrike {chain : List StrikeRung} {r : StrikeRung} (h : r ∈ chain) :
    (r.offset, r.strike) ∈ chain.map StrikeRung.offsetStrike :=
  List.mem_map.2 ⟨r, h, rfl⟩



/-! ## Unfolding `_fetchStrikeLTPs` and `switchOptionType` -/

theorem applyQuotes_nil (q : QuoteResponse) : applyQuotes [] q = [] :=
  List.eq_nil_of_length_eq_zero (by rw [applyQuotes_length]; rfl)

theorem fetchStrikeLTPs_chain (s : State) (q : QuoteResponse) :
    (_fetchStrikeLTPs s q).strikeChain = applyQuotes s.strikeChain q := by
  unfold _fetchStrikeLTPs
  split
  · rename_i h
    have : s.strikeChain = [] := List.eq_nil_of_length_eq_zero h
    rw [this, applyQuotes_nil]
  · rfl

theorem fetchStrikeLTPs_eq (s : State) (q : QuoteResponse) :
    _fetchStrikeLTPs s q =
      { s with
        strikeChain := applyQuotes s.strikeChain q
        loadingStrikes := if s.strikeChain.length = 0 then s.loadingStrikes else false } := by
  unfold _fetchStrikeLTPs
  split
  · rename_i h
    have : s.strikeChain = [] := List.eq_nil_of_length_eq_zero h
    rw [this, applyQuotes_nil]
    cases s
    simp_all
  · rfl

theorem switchOptionType_eq (s : State) (a b : SymbolResponse) (q : QuoteResponse)
    (symbol : SymbolConfig) (hi : s.strikeInterval ≠ 0) (hk : s.cachedATMStrike ≠ 0)
    (hs : getActiveSymbol s.settings = some symbol) :
    switchOptionType s a b q =
      { s with
        strikeChain := applyQuotes
          (sortChain (s.strikeChain.map
            (relabelRung symbol.symbol s.selectedExpiry s.optionType))) q
        loadingStrikes := if s.strikeChain.length = 0 then s.loadingStrikes else false } := by
  unfold switchOptionType
  simp only [hi, hk, hs, decide_False, Bool.or_self, Bool.false_eq_true, if_false]
  rw [fetchStrikeLTPs_eq]
  have hlen : (sortChain (s.strikeChain.map
      (relabelRung symbol.symbol s.selectedExpiry s.optionType))).length
        = s.strikeChain.length := by
    rw [(sortChain_perm _).length_eq, List.length_map]
  simp only [hlen]

theorem signedLevels_reverse (n : Nat) :
    (signedLevels n).reverse = (signedLevels n).map (fun z => -z) := by
  induction n with
  | zero => rfl
  | succ n ih =>
    simp only [signedLevels, List.reverse_cons, List.reverse_append, List.map_cons,
      List.map_append, List.map_nil, ih, List.reverse_nil, List.nil_append, neg_neg]
    simp

theorem flipped_offsets_sort (chain : List StrikeRung) (u e : Str) (t : OptionType) (m : Nat)
    (h : chain.map (fun r => r.offset) = canonicalOffsets m) :
    sortChain (chain.map (relabelRung u e t)) = (chain.map (relabelRung u e t)).reverse := by
  apply sortChain_reverse
  have hoff : (chain.map (relabelRung u e t)).map (fun r => r.offset)
      = (signedLevels m).map (fun z => offsetAt (-z)) := by
    rw [List.map_map]
    have : ((fun r => r.offset) ∘ relabelRung u e t) = flipOffset ∘ (fun r => r.offset) := rfl
    rw [this, ← List.map_map, h, canonicalOffsets_eq, List.map_map]
    apply List.map_congr_left
    intro z _
    exact flipOffset_offsetAt z
  have hp : ((chain.map (relabelRung u e t)).map (fun r => r.offset)).Pairwise
      (fun x y => ∃ kx ky : Int, getOrder x = some kx ∧ getOrder y = some ky ∧ ky < kx) := by
    rw [hoff, List.pairwise_map]
    refine (signedLevels_pairwise m).imp ?_
    intro x y hxy
    exact ⟨-x, -y, getOrder_offsetAt _, getOrder_offsetAt _, by omega⟩
  rw [List.pairwise_map] at hp
  refine hp.imp ?_
  rintro a b ⟨kx, ky, hx, hy, hlt⟩
  exact orderLe_false hx hy hlt

theorem flipped_offsets_canonical (chain : List StrikeRung) (u e : Str) (t : OptionType)
    (m : Nat) (h : chain.map (fun r => r.offset) = canonicalOffsets m) :
    ((chain.map (relabelRung u e t)).reverse).map (fun r => r.offset) = canonicalOffsets m := by
  rw [List.map_reverse, List.map_map]
  have : ((fun r => r.offset) ∘ relabelRung u e t) = flipOffset ∘ (fun r => r.offset) := rfl
  rw [this, ← List.map_map, h, canonicalOffsets_eq, List.map_map, ← List.map_reverse,
    signedLevels_reverse, List.map_map]
  apply List.map_congr_left
  intro z _
  simp only [Function.comp, flipOffset_offsetAt, neg_neg]

theorem switchOptionType_canonical (s : State) (a b : SymbolResponse) (q : QuoteResponse)
    (symbol : SymbolConfig) (hi : s.strikeInterval ≠ 0) (hk : s.cachedATMStrike ≠ 0)
    (hs : getActiveSymbol s.settings = some symbol) (m : Nat)
    (h : s.strikeChain.map (fun r => r.offset) = canonicalOffsets m) :
    switchOptionType s a b q =
      { s with
        strikeChain := applyQuotes
          ((s.strikeChain.map
            (relabelRung symbol.symbol s.selectedExpiry s.optionType)).reverse) q
        loadingStrikes := false } := by
  rw [switchOptionType_eq s a b q symbol hi hk hs, flipped_offsets_sort _ _ _ _ m h]
  have hlen : s.strikeChain.length ≠ 0 := by
    have := congrArg List.length h
    rw [List.length_map, canonicalOffsets_length] at this
    omega
  simp only [hlen, if_false]


theorem toggle_toggle (t : OptionType) : t.toggle.toggle = t := by cases t <;> rfl

theorem fetchStrikeChain_offsets (s : State) (atm itm1 : SymbolResponse) (q : QuoteResponse)
    (symbol : SymbolConfig) (hf : s.isFetchingStrikeChain = false)
    (hs : getActiveSymbol s.settings = some symbol) (he : s.selectedExpiry ≠ [])
    (ha : atm.success = true) (hi : itm1.success = true) :
    (fetchStrikeChain s atm itm1 q).strikeChain.map (fun r => r.offset)
      = canonicalOffsets s.extendLevel := by
  rw [map_offset_eq, fetchStrikeChain_ladder s atm itm1 q symbol hf hs he ha hi, ladder_offsets]

/-- The chain after a build followed by two CE/PE toggles, seen through any
projection that disregards the prices. -/
theorem toggle_twice_map {β : Type} (g : StrikeRung → β)
    (hg : ∀ (r : StrikeRung) (l p : ℚ), g { r with ltp := l, prevClose := p } = g r)
    (s : State) (atm itm1 a1 b1 a2 b2 : SymbolResponse) (q0 q1 q2 : QuoteResponse)
    (symbol : SymbolConfig) (hf : s.isFetchingStrikeChain = false)
    (hs : getActiveSymbol s.settings = some symbol) (he : s.selectedExpiry ≠ [])
    (ha : atm.success = true) (hi : itm1.success = true)
    (hint : (fetchStrikeChain s atm itm1 q0).strikeInterval ≠ 0)
    (hatm : (fetchStrikeChain s atm itm1 q0).cachedATMStrike ≠ 0) :
    (onOptionTypeToggle (onOptionTypeToggle (fetchStrikeChain s atm itm1 q0) a1 b1 q1)
        a2 b2 q2).strikeChain.map g
      = (fetchStrikeChain s atm itm1 q0).strikeChain.map
          (fun r => g (relabelRung symbol.symbol s.selectedExpiry s.optionType
            (relabelRung symbol.symbol s.selectedExpiry s.optionType.toggle r))) ∧
    (onOptionTypeToggle (onOptionTypeToggle (fetchStrikeChain s atm itm1 q0) a1 b1 q1)
        a2 b2 q2).optionType = s.optionType := by
  have hoff := fetchStrikeChain_offsets s atm itm1 q0 symbol hf hs he ha hi
  have hb := fetchStrikeChain_built s atm itm1 q0 symbol hf hs he ha hi
  generalize fetchStrikeChain s atm itm1 q0 = s1 at *
  have hs1 : getActiveSymbol s1.settings = some symbol := by rw [hb]; exact hs
  have he1 : s1.selectedExpiry = s.selectedExpiry := by rw [hb]
  have ht1 : s1.optionType = s.optionType := by rw [hb]
  have h2 := switchOptionType_canonical { s1 with optionType := s1.optionType.toggle } a1 b1 q1
    symbol hint hatm hs1 s.extendLevel hoff
  unfold onOptionTypeToggle
  generalize switchOptionType { s1 with optionType := s1.optionType.toggle } a1 b1 q1 = s2 at h2 ⊢
  have hint2 : s2.strikeInterval ≠ 0 := by rw [h2]; exact hint
  have hatm2 : s2.cachedATMStrike ≠ 0 := by rw [h2]; exact hatm
  have hs2 : getActiveSymbol s2.settings = some symbol := by rw [h2]; exact hs1
  have hoff2 : s2.strikeChain.map (fun r => r.offset) = canonicalOffsets s.extendLevel := by
    rw [h2]
    simp only []
    rw [applyQuotes_offsets]
    exact flipped_offsets_canonical _ _ _ _ _ hoff
  rw [switchOptionType_canonical { s2 with optionType := s2.optionType.toggle } a2 b2 q2 symbol
    hint2 hatm2 hs2 s.extendLevel hoff2]
  subst h2
  simp only [toggle_toggle, he1, ht1]
  refine ⟨?_, trivial⟩
  rw [applyQuotes_map g hg, applyQuotes_relabel]
  simp only [List.map_reverse, List.reverse_reverse, List.map_map]
  rfl


theorem flipOffset_flipOffset_of_mem {x : Str} {n : Nat} (h : x ∈ canonicalOffsets n) :
    flipOffset (flipOffset x) = x := by
  rw [canonicalOffsets_eq, List.mem_map] at h
  obtain ⟨z, _, rfl⟩ := h
  rw [flipOffset_offsetAt, flipOffset_offsetAt, neg_neg]

theorem built_rung_symbol (s : State) (atm itm1 : SymbolResponse) (q : QuoteResponse)
    (symbol : SymbolConfig) (hf : s.isFetchingStrikeChain = false)
    (hs : getActiveSymbol s.settings = some symbol) (he : s.selectedExpiry ≠ [])
    (ha : atm.success = true) (hi : itm1.success = true) (r : StrikeRung)
    (hr : r ∈ (fetchStrikeChain s atm itm1 q).strikeChain) (hoff : r.offset ≠ atmOffset) :
    r.symbol = buildSymbol symbol.symbol s.selectedExpiry r.strike s.optionType := by
  rw [fetchStrikeChain_built s atm itm1 q symbol hf hs he ha hi] at hr
  simp only [] at hr
  have hm : (r.offset, r.strike, r.symbol)
      ∈ (applyQuotes (buildChain symbol.symbol s.selectedExpiry
          (strOr atm.exchange symbol.optionExchange) atm.symbol s.optionType
          (parseStrike atm.symbol) |parseStrike atm.symbol - parseStrike itm1.symbol|
          (intOr atm.lotsize 25) s.extendLevel) q).map
          (fun r => (r.offset, r.strike, r.symbol)) :=
    List.mem_map.2 ⟨r, hr, rfl⟩
  rw [applyQuotes_map (fun r => (r.offset, r.strike, r.symbol)) (fun _ _ _ => rfl),
    buildChain_eq, List.map_map, List.mem_map] at hm
  obtain ⟨z, _, hz⟩ := hm
  simp only [Function.comp, Prod.mk.injEq] at hz
  obtain ⟨h1, h2, h3⟩ := hz
  have hz0 : z ≠ 0 := by
    rintro rfl
    apply hoff
    rw [← h1, rungAt_offset]
    rfl
  rw [← h3, ← h2]
  exact rungAt_symbol _ _ _ _ _ _ _ _ z hz0



/-! ## Unfolding `extendStrikes` -/

theorem extendStrikes_eq (s : State) (q : QuoteResponse) (symbol : SymbolConfig)
    (hx : s.isExtendingStrikes = false) (hs : getActiveSymbol s.settings = some symbol)
    (he : s.selectedExpiry ≠ []) (hi : s.strikeInterval ≠ 0) (hk : s.cachedATMStrike ≠ 0) :
    extendStrikes s q =
      { s with
        extendLevel := s.extendLevel + 1
        strikeChain := applyQuotes
          (extendItmRung symbol s (s.extendLevel + 1) :: s.strikeChain
            ++ [extendOtmRung symbol s (s.extendLevel + 1)]) q
        isExtendingStrikes := false } := by
  have he' : s.selectedExpiry.isEmpty = false := by
    cases h : s.selectedExpiry with
    | nil => exact absurd h he
    | cons c cs => rfl
  have h1 : (extendItmRung symbol s (s.extendLevel + 1)).offset = itmOffset (s.extendLevel + 1) :=
    rfl
  have h2 : (extendOtmRung symbol s (s.extendLevel + 1)).offset = otmOffset (s.extendLevel + 1) :=
    rfl
  unfold extendStrikes
  simp only [hx, hs, he', hi, hk, decide_False, Bool.or_self, Bool.false_eq_true, if_false,
    List.find?_cons, h1, h2, decide_True, itmOffset_ne_otm, unshiftIf, pushIf,
    List.cons_append]

theorem extendStrikes_guarded (s : State) (q : QuoteResponse)
    (h : s.selectedExpiry = [] ∨ s.strikeInterval = 0 ∨ s.cachedATMStrike = 0) :
    extendStrikes s q = s ∨ extendStrikes s q = { s with isExtendingStrikes := false } := by
  unfold extendStrikes
  split
  · exact Or.inl rfl
  · split
    · exact Or.inr rfl
    · have : (s.selectedExpiry.isEmpty || decide (s.strikeInterval = 0)
          || decide (s.cachedATMStrike = 0)) = true := by
        rcases h with h | h | h <;> simp [h]
      rw [if_pos this]
      exact Or.inr rfl

theorem ladder_succ (t : OptionType) (a d : Int) (n : Nat) :
    ladder t a d (n + 1)
      = (itmOffset (n + 1), a + ((n + 1 : Nat) : Int) * d * itmDirection t) :: ladder t a d n
          ++ [(otmOffset (n + 1), a + ((n + 1 : Nat) : Int) * d * otmDirection t)] := by
  have h1 := offsetAt_neg_cast (n + 1) (by omega)
  have h2 := offsetAt_cast (n + 1) (by omega)
  push_cast at h1 h2 ⊢
  simp only [ladder, signedLevels, List.map_cons, List.map_append, List.map_nil,
    List.cons_append, h1, h2]
  cases t <;> simp [itmDirection, otmDirection] <;> ring

theorem LadderState.extend {symbol : SymbolConfig} {t : OptionType} {a d : Int} {m : Nat}
    {s : State} (h : LadderState symbol t a d m s) (hd : d ≠ 0) (ha : a ≠ 0)
    (q : QuoteResponse) : LadderState symbol t a d (m + 1) (extendStrikes s q) := by
  have hi : s.strikeInterval ≠ 0 := by rw [h.interval]; exact hd
  have hk : s.cachedATMStrike ≠ 0 := by rw [h.atm]; exact ha
  rw [extendStrikes_eq s q symbol h.idle h.active h.expiry hi hk]
  refine ⟨?_, ?_, h.interval, h.atm, h.optionType, h.active, h.expiry, rfl⟩
  · simp only []
    rw [applyQuotes_offsetStrike, ladder_succ]
    simp only [List.map_append, List.map_cons, List.map_nil, h.chain]
    simp only [StrikeRung.offsetStrike, extendItmRung, extendOtmRung, h.level, h.interval,
      h.atm, h.optionType]
  · simp only [h.level]

theorem LadderState.refresh {symbol : SymbolConfig} {t : OptionType} {a d : Int} {m : Nat}
    {s : State} (h : LadderState symbol t a d m s) (q : QuoteResponse) :
    LadderState symbol t a d m (_fetchStrikeLTPs s q) := by
  rw [fetchStrikeLTPs_eq]
  refine ⟨?_, h.level, h.interval, h.atm, h.optionType, h.active, h.expiry, h.idle⟩
  simp only []
  rw [applyQuotes_offsetStrike, h.chain]

theorem LadderState.run {symbol : SymbolConfig} {t : OptionType} {a d : Int} (hd : d ≠ 0)
    (ha : a ≠ 0) (events : List Event) :
    ∀ (m : Nat) (s : State), LadderState symbol t a d m s →
      (∀ e ∈ events, e.isExtendOrRefresh = true) →
      LadderState symbol t a d (m + countExtends events) (run s events) := by
  induction events with
  | nil => intro m s h _; simpa [countExtends, OpenAlgo.run] using h
  | cons e es ih =>
    intro m s h hall
    have hes : ∀ e' ∈ es, e'.isExtendOrRefresh = true :=
      fun e' he' => hall e' (List.mem_cons_of_mem _ he')
    have he := hall e (List.mem_cons_self _ _)
    cases e with
    | extend q =>
      have := ih (m + 1) (extendStrikes s q) (h.extend hd ha q) hes
      have hc : countExtends (Event.extend q :: es) = countExtends es + 1 := by
        simp [countExtends, Event.isExtend]
      rw [hc, show m + (countExtends es + 1) = m + 1 + countExtends es by omega]
      exact this
    | refresh q =>
      have := ih m (_fetchStrikeLTPs s q) (h.refresh q) hes
      have hc : countExtends (Event.refresh q :: es) = countExtends es := by
        simp [countExtends, Event.isExtend]
      rw [hc]
      exact this
    | build _ _ _ => simp [Event.isExtendOrRefresh] at he
    | toggle _ _ _ => simp [Event.isExtendOrRefresh] at he
    | symbolChange _ _ _ _ _ => simp [Event.isExtendOrRefresh] at he
    | expiryClick _ _ _ _ => simp [Event.isExtendOrRefresh] at he

theorem fetchStrikeChain_ladderState (s : State) (atm itm1 : SymbolResponse)
    (q : QuoteResponse) (symbol : SymbolConfig) (hf : s.isFetchingStrikeChain = false)
    (hs : getActiveSymbol s.settings = some symbol) (he : s.selectedExpiry ≠ [])
    (ha : atm.success = true) (hi : itm1.success = true) (hx : s.isExtendingStrikes = false) :
    LadderState symbol s.optionType (parseStrike atm.symbol)
      |parseStrike atm.symbol - parseStrike itm1.symbol| s.extendLevel
      (fetchStrikeChain s atm itm1 q) := by
  refine ⟨fetchStrikeChain_ladder s atm itm1 q symbol hf hs he ha hi, ?_, ?_, ?_, ?_, ?_, ?_, ?_⟩
  all_goals rw [fetchStrikeChain_built s atm itm1 q symbol hf hs he ha hi]
  all_goals first | rfl | exact hs | exact he | exact hx


theorem relabelRung_zeroPrices (u e : Str) (t : OptionType) (r : StrikeRung) :
    (relabelRung u e t r).zeroPrices = relabelRung u e t r := rfl

theorem switchOptionType_perm (s : State) (a b : SymbolResponse) (q : QuoteResponse)
    (symbol : SymbolConfig) (hi : s.strikeInterval ≠ 0) (hk : s.cachedATMStrike ≠ 0)
    (hs : getActiveSymbol s.settings = some symbol) :
    ((switchOptionType s a b q).strikeChain.map StrikeRung.zeroPrices).Perm
      (s.strikeChain.map (relabelRung symbol.symbol s.selectedExpiry s.optionType)) := by
  rw [switchOptionType_eq s a b q symbol hi hk hs]
  simp only []
  rw [applyQuotes_zeroPrices]
  have hid : (sortChain (s.strikeChain.map
      (relabelRung symbol.symbol s.selectedExpiry s.optionType))).map StrikeRung.zeroPrices
        = sortChain (s.strikeChain.map
            (relabelRung symbol.symbol s.selectedExpiry s.optionType)) := by
    conv_rhs => rw [← List.map_id (sortChain _)]
    apply List.map_congr_left
    intro r hr
    have hr' := (sortChain_perm _).mem_iff.1 hr
    obtain ⟨r0, _, rfl⟩ := List.mem_map.1 hr'
    rfl
  rw [hid]
  exact sortChain_perm _



theorem applyQuotes_getElem? (chain : List StrikeRung) (q : QuoteResponse) (i : Nat)
    (r : StrikeRung) (hr : chain[i]? = some r) (hq : q.mentions r.symbol = false) :
    (applyQuotes chain q)[i]? = some r := by
  unfold applyQuotes
  split
  · rename_i hsucc
    split
    · rename_i rows hrows
      apply foldl_applyQuoteRow_getElem? rows chain i r hr
      intro row hrow heq
      have : q.mentions r.symbol = true := by
        unfold QuoteResponse.mentions
        rw [hsucc, hrows]
        simp only [Bool.true_and, List.any_eq_true, decide_eq_true_eq]
        exact ⟨row, hrow, heq.symm⟩
      rw [this] at hq
      exact Bool.noConfusion hq
    · exact hr
  · exact hr


/-! ## Quantities and stop-loss cover -/

theorem toLots_pos (s : State) (q : Int) (hL : 0 < s.lotSize) :
    toLots s q = Int.sign q * (|q| / s.lotSize) := by
  unfold toLots
  have hne : s.lotSize ≠ 0 := ne_of_gt hL
  rw [if_neg hne]
  by_cases hq : q = 0
  · subst hq; simp
  · rw [if_neg hq]
    simp only []
    rw [Int.fdiv_eq_ediv _ (le_of_lt hL)]
    rcases lt_or_gt_of_ne hq with h | h
    · rw [if_neg (by omega), Int.sign_eq_neg_one_of_neg h]
    · rw [if_pos (by omega), Int.sign_eq_one_of_pos h]

theorem floor_div_pos (a L : Int) (hL : 0 < L) : Int.floor ((|a| : ℚ) / (L : ℚ)) = |a| / L := by
  have hcast : (L : ℚ) = ((L.toNat : ℕ) : ℚ) := by
    have : ((L.toNat : ℕ) : Int) = L := Int.toNat_of_nonneg (le_of_lt hL)
    exact_mod_cast this.symm
  rw [hcast, ← Int.cast_abs, Rat.floor_intCast_div_natCast, Int.toNat_of_nonneg (le_of_lt hL)]


theorem floor_div_int (a L : Int) (hL : 0 < L) : Int.floor ((a : ℚ) / (L : ℚ)) = a / L := by
  have hcast : (L : ℚ) = ((L.toNat : ℕ) : ℚ) := by
    have : ((L.toNat : ℕ) : Int) = L := Int.toNat_of_nonneg (le_of_lt hL)
    exact_mod_cast this.symm
  rw [hcast, Rat.floor_intCast_div_natCast, Int.toNat_of_nonneg (le_of_lt hL)]

theorem intOr_pos (a : Option Int) (b : Int) (ha : ∀ x, a = some x → 0 ≤ x) (hb : 0 < b) :
    0 < intOr a b := by
  unfold intOr
  cases a with
  | none => exact hb
  | some x =>
    simp only []
    split
    · exact hb
    · rename_i hx
      have := ha x rfl
      omega

theorem cacheGet_mem {cache : LotSizeCache} {key : Str} {x : Int}
    (h : cacheGet cache key = some x) : ∃ e ∈ cache, e.2 = x := by
  unfold cacheGet at h
  cases hf : cache.find? (fun e => decide (e.1 = key)) with
  | none => rw [hf] at h; simp at h
  | some e =>
    rw [hf] at h
    simp at h
    exact ⟨e, List.mem_of_find?_eq_some hf, h⟩

theorem getCachedLotSizeForOrder_pos (s : State) (p : Panel) (o : Order) (hL : 0 ≤ s.lotSize)
    (hc : ∀ e ∈ p.lotSizeCache, 0 ≤ e.2) : 0 < getCachedLotSizeForOrder s p o := by
  have h1 : 0 < intOr (some s.lotSize) 1 :=
    intOr_pos _ _ (fun x hx => by cases hx; exact hL) (by decide)
  unfold getCachedLotSizeForOrder
  split
  · exact h1
  · apply intOr_pos _ _ _ h1
    intro x hx
    obtain ⟨e, he, rfl⟩ := cacheGet_mem hx
    exact hc e he

theorem foldl_add_eq_sum (f : Order → Int) (l : List Order) (z : Int) :
    l.foldl (fun acc o => acc + f o) z = z + (l.map f).sum := by
  induction l generalizing z with
  | nil => simp
  | cons o l ih => simp [ih, add_assoc]

theorem renderSLPanel_coveredLots (s : State) (p : Panel) :
    (renderSLPanel s p).coveredLots = (p.slOrders.map (orderLots s p)).sum := by
  unfold renderSLPanel
  simp only [foldl_add_eq_sum, zero_add]

theorem slOrderFilter_eq (sel : Str) (a : Side) (o : Order) :
    slOrderFilter sel a o
      = decide (toLowerCase o.order_status ∈ slPendingStatuses ∧
          (o.pricetype = ['S', 'L'] ∨ o.pricetype = ['S', 'L', '-', 'M']) ∧
          o.symbol = sel ∧ o.action = a.toStr) := by
  rw [Bool.eq_iff_iff]
  unfold slOrderFilter
  simp only [Bool.and_eq_true, decide_eq_true_eq, List.contains, List.elem_iff, List.mem_cons,
    List.mem_singleton, List.not_mem_nil, or_false, and_assoc]


theorem readLots_nonneg (input : Option Str) : 0 ≤ readLots input := by
  unfold readLots
  split
  · split
    · exact abs_nonneg _
    · exact le_refl _
  · exact le_refl _


/-! ## Debounce -/

theorem debounce_key {α : Type} (delay : Nat) (key : Str) (now : Nat) (args : α)
    (timers : DebounceTimers α) :
    debounce delay key now args timers key
      = { pending := some (now + delay, args), runs := (timers key).runs } := by
  simp [debounce, Function.update_same]

theorem fireDue_not_due {α : Type} (now : Nat) (key : Str) (timers : DebounceTimers α)
    (h : ∀ due x, (timers key).pending = some (due, x) → now < due) :
    fireDue now timers key = timers key := by
  unfold fireDue
  cases hp : (timers key).pending with
  | none => rfl
  | some e =>
    obtain ⟨due, x⟩ := e
    have := h due x hp
    simp only []
    rw [if_neg (by omega)]

theorem debounceCalls_pending {α : Type} (delay : Nat) (key : Str) :
    ∀ (rest : List (Nat × α)) (t : Nat) (a : α) (timers : DebounceTimers α),
      (timers key).runs = [] →
      (∀ due x, (timers key).pending = some (due, x) → t < due) →
      List.Chain (fun u v => u.1 ≤ v.1 ∧ v.1 < u.1 + delay) (t, a) rest →
      (debounceCalls delay key ((t, a) :: rest) timers key).runs = [] ∧
        (debounceCalls delay key ((t, a) :: rest) timers key).pending
          = some ((((t, a) :: rest).getLast (List.cons_ne_nil _ _)).1 + delay,
              (((t, a) :: rest).getLast (List.cons_ne_nil _ _)).2) := by
  intro rest
  induction rest with
  | nil =>
    intro t a timers hruns hpend _
    simp only [debounceCalls, List.getLast_singleton]
    rw [debounce_key, fireDue_not_due t key timers hpend]
    exact ⟨hruns, rfl⟩
  | cons c rest ih =>
    intro t a timers hruns hpend hchain
    obtain ⟨t', a'⟩ := c
    rw [List.chain_cons] at hchain
    obtain ⟨⟨_, hlt⟩, hrest⟩ := hchain
    have hstep : debounceCalls delay key ((t, a) :: (t', a') :: rest) timers
        = debounceCalls delay key ((t', a') :: rest)
            (debounce delay key t a (fireDue t timers)) := rfl
    rw [hstep, List.getLast_cons (List.cons_ne_nil _ _)]
    apply ih t' a' _ _ _ hrest
    · rw [debounce_key, fireDue_not_due t key timers hpend]
      exact hruns
    · intro due x hp
      rw [debounce_key] at hp
      simp only [Option.some.injEq, Prod.mk.injEq] at hp
      omega

theorem fireDue_due {α : Type} (now : Nat) (key : Str) (timers : DebounceTimers α) (due : Nat)
    (x : α) (hp : (timers key).pending = some (due, x)) (h : due ≤ now) :
    fireDue now timers key = { pending := none, runs := (timers key).runs ++ [(due, x)] } := by
  unfold fireDue
  simp only [hp]
  rw [if_pos h]


/-! ## Live ticks -/

theorem handleWsMessage_subscriptions (s : State) (p : Panel) (l : Live) (data : WsData) :
    (handleWsMessage s p l data).wsSubscriptions = l.wsSubscriptions := by
  unfold handleWsMessage
  split
  · split
    · split <;> rfl
    · rfl
  · rfl

theorem handleWsMessage_strike_slot (s : State) (p : Panel) (l : Live) (data : WsData)
    (h : p.orderType ≠ .MARKET) :
    (handleWsMessage s p l data).pendingWsUpdate.strike = l.pendingWsUpdate.strike := by
  unfold handleWsMessage
  split
  · split
    · split
      · rfl
      · simp only [h, if_false]
    · rfl
  · rfl

theorem applyPendingWsUpdates_panel (p : Panel) (l : Live) (h : p.orderType ≠ .MARKET) :
    (applyPendingWsUpdates p l).1 = p := by
  unfold applyPendingWsUpdates
  simp only [h, if_false]
  split <;> rfl

theorem applyPendingWsUpdates_strike_slot (p : Panel) (l : Live) (h : p.orderType ≠ .MARKET) :
    (applyPendingWsUpdates p l).2.pendingWsUpdate.strike = l.pendingWsUpdate.strike := by
  unfold applyPendingWsUpdates
  simp only [h, if_false]
  cases hu : l.pendingWsUpdate.underlying <;> cases hk : l.pendingWsUpdate.strike <;> simp [hk]

theorem applyPendingWsUpdates_underlying_slot (p : Panel) (l : Live) :
    (applyPendingWsUpdates p l).2.pendingWsUpdate.underlying = none := by
  unfold applyPendingWsUpdates
  cases hu : l.pendingWsUpdate.underlying <;> cases hk : l.pendingWsUpdate.strike <;>
    by_cases hm : p.orderType = .MARKET <;> simp [hk, hu, hm]

theorem applyPendingWsUpdates_strike_slot_market (p : Panel) (l : Live)
    (h : p.orderType = .MARKET) :
    (applyPendingWsUpdates p l).2.pendingWsUpdate.strike = none := by
  unfold applyPendingWsUpdates
  cases hu : l.pendingWsUpdate.underlying <;> cases hk : l.pendingWsUpdate.strike <;>
    simp [hk, h]

theorem applyPendingWsUpdates_underlyingLtp (p : Panel) (l : Live) (ltp : ℚ)
    (h : l.pendingWsUpdate.underlying = some ltp) :
    (applyPendingWsUpdates p l).2.underlyingLtp = ltp := by
  unfold applyPendingWsUpdates
  cases hk : l.pendingWsUpdate.strike <;> by_cases hm : p.orderType = .MARKET <;>
    simp [hk, h, hm]

theorem applyPendingWsUpdates_optionLtp (p : Panel) (l : Live) (ltp : ℚ)
    (hm : p.orderType = .MARKET) (h : l.pendingWsUpdate.strike = some ltp) :
    (applyPendingWsUpdates p l).1.optionLtp = ltp := by
  unfold applyPendingWsUpdates
  cases hu : l.pendingWsUpdate.underlying <;> simp [h, hm]

theorem handleTicks_subscriptions (s : State) (p : Panel) (ticks : List TickData) :
    ∀ l : Live, (handleTicks s p l ticks).wsSubscriptions = l.wsSubscriptions := by
  induction ticks with
  | nil => intro l; rfl
  | cons t ts ih =>
    intro l
    unfold handleTicks at ih ⊢
    rw [List.foldl_cons, ih, handleWsMessage_subscriptions]

theorem handleTicks_append (s : State) (p : Panel) (l : Live) (ticks : List TickData)
    (last : TickData) :
    handleTicks s p l (ticks ++ [last])
      = handleWsMessage s p (handleTicks s p l ticks) (tickMessage last) := by
  unfold handleTicks
  rw [List.foldl_append]
  rfl

theorem handleWsMessage_underlying_tick (s : State) (p : Panel) (l : Live) (tick : TickData)
    (symbol : SymbolConfig) (sub : Subscription)
    (hs : getActiveSymbol s.settings = some symbol)
    (hsub : l.wsSubscriptions.underlying = some sub) (hsym : tick.symbol = sub.symbol) :
    (handleWsMessage s p l (tickMessage tick)).pendingWsUpdate.underlying = some tick.ltp := by
  unfold handleWsMessage tickMessage
  simp [hs, hsub, hsym]

theorem handleWsMessage_strike_tick (s : State) (p : Panel) (l : Live) (tick : TickData)
    (symbol : SymbolConfig) (sub : Subscription)
    (hs : getActiveSymbol s.settings = some symbol) (hm : p.orderType = .MARKET)
    (hsub : l.wsSubscriptions.strike = some sub) (hsym : tick.symbol = sub.symbol) :
    (handleWsMessage s p l (tickMessage tick)).pendingWsUpdate.strike = some tick.ltp := by
  unfold handleWsMessage tickMessage
  simp [hs, hsub, hsym, hm]

theorem isOpen_of_socket {l : Live} {sock : Socket} (hws : l.ws = some sock)
    (hopen : sock.readyState = .OPEN) : l.isOpen = true := by
  unfold Live.isOpen
  rw [hws]
  simp [hopen]

theorem WsSubscriptions.get_set (w : WsSubscriptions) (key other : Target)
    (v : Option Subscription) :
    (w.set key v).get other = if other = key then v else w.get other := by
  cases key <;> cases other <;> rfl

/-! ## Option symbols and the lot-size cache -/

theorem isDigit_not_isUpper (c : Char) (h : c.isDigit = true) : c.isUpper = false := by
  unfold Char.isDigit at h
  unfold Char.isUpper
  simp only [Bool.and_eq_true, decide_eq_true_eq, ge_iff_le] at h
  simp only [Bool.and_eq_false_imp, decide_eq_true_eq, decide_eq_false_iff_not, ge_iff_le]
  intro h1
  have h2 := h.2
  rw [UInt32.le_def, BitVec.le_def] at h1 h2
  exfalso
  have e1 : (UInt32.toBitVec 65).toNat = 65 := rfl
  have e2 : (UInt32.toBitVec 57).toNat = 57 := rfl
  rw [e1] at h1
  rw [e2] at h2
  omega

theorem takeWhile_append_stop (p : Char → Bool) (l : Str) (a : Char) (r : Str)
    (hl : ∀ c ∈ l, p c = true) (ha : p a = false) :
    (l ++ a :: r).takeWhile p = l ∧ (l ++ a :: r).dropWhile p = a :: r := by
  induction l with
  | nil => simp [List.takeWhile, List.dropWhile, ha]
  | cons x xs ih =>
    have hx : p x = true := hl x (List.mem_cons_self _ _)
    have ih2 := ih (fun c hc => hl c (List.mem_cons_of_mem _ hc))
    simp [List.takeWhile, List.dropWhile, hx, ih2.1, ih2.2]

theorem optionSymbolMatch_compose (U S T : Str) (d1 d2 m1 m2 m3 y1 y2 : Char)
    (hU : U ≠ []) (hUu : ∀ c ∈ U, c.isUpper = true)
    (he : isExpiryTag [d1, d2, m1, m2, m3, y1, y2] = true)
    (hS : S ≠ []) (hSd : ∀ c ∈ S, c.isDigit = true)
    (hT : T = ['C', 'E'] ∨ T = ['P', 'E']) :
    optionSymbolMatch (U ++ [d1, d2, m1, m2, m3, y1, y2] ++ S ++ T)
      = some (U, [d1, d2, m1, m2, m3, y1, y2], S, T) := by
  have he2 : (d1.isDigit && d2.isDigit && m1.isUpper && m2.isUpper && m3.isUpper
      && y1.isDigit && y2.isDigit) = true := he
  have hd1 : d1.isDigit = true := by
    simp only [Bool.and_eq_true] at he2
    exact he2.1.1.1.1.1.1
  have h1 := takeWhile_append_stop Char.isUpper U d1
    (d2 :: m1 :: m2 :: m3 :: y1 :: y2 :: (S ++ T)) hUu (isDigit_not_isUpper d1 hd1)
  have hTc : ∃ c rest, T = c :: rest ∧ c.isDigit = false := by
    rcases hT with h | h
    · exact ⟨'C', ['E'], h, by decide⟩
    · exact ⟨'P', ['E'], h, by decide⟩
  obtain ⟨c, rest, hTe, hc⟩ := hTc
  have h2 := takeWhile_append_stop Char.isDigit S c rest hSd hc
  rw [← hTe] at h2
  have hs : U ++ [d1, d2, m1, m2, m3, y1, y2] ++ S ++ T
      = U ++ d1 :: (d2 :: m1 :: m2 :: m3 :: y1 :: y2 :: (S ++ T)) := by simp
  have hUe : U.isEmpty = false := by cases U <;> simp_all
  have hSe : S.isEmpty = false := by cases S <;> simp_all
  have hT2 : (T = ['C', 'E'] || T = ['P', 'E']) = true := by
    rcases hT with h | h <;> simp [h]
  unfold optionSymbolMatch
  rw [hs]
  simp only [h1.1, h1.2, hUe, he2, h2.1, h2.2, hSe, hT2, if_true, Bool.false_eq_true, if_false]

theorem isExpiryTag_cases {E : Str} (h : isExpiryTag E = true) :
    ∃ d1 d2 m1 m2 m3 y1 y2, E = [d1, d2, m1, m2, m3, y1, y2] := by
  unfold isExpiryTag at h
  split at h
  · exact ⟨_, _, _, _, _, _, _, rfl⟩
  · simp at h

theorem parseOptionSymbol_compose (U E S T : Str)
    (hU : U ≠ []) (hUu : ∀ c ∈ U, c.isUpper = true) (hE : isExpiryTag E = true)
    (hS : S ≠ []) (hSd : ∀ c ∈ S, c.isDigit = true)
    (hT : T = ['C', 'E'] ∨ T = ['P', 'E']) :
    parseOptionSymbol (U ++ E ++ S ++ T)
      = some { underlying := U, expiry := E, strike := S, optionType := T, isOption := true } := by
  obtain ⟨d1, d2, m1, m2, m3, y1, y2, rfl⟩ := isExpiryTag_cases hE
  have hne : (U ++ [d1, d2, m1, m2, m3, y1, y2] ++ S ++ T).isEmpty = false := by
    cases U with
    | nil => exact absurd rfl hU
    | cons a as => rfl
  unfold parseOptionSymbol
  rw [hne, optionSymbolMatch_compose U S T d1 d2 m1 m2 m3 y1 y2 hU hUu hE hS hSd hT]
  rfl

theorem intToStr_nonneg (k : Int) (h : 0 ≤ k) : intToStr k = natToStr k.toNat := by
  cases k with
  | ofNat n => rfl
  | negSucc n => exact absurd h (by simp)

theorem toStr_cases (t : OptionType) : t.toStr = ['C', 'E'] ∨ t.toStr = ['P', 'E'] := by
  cases t
  · exact Or.inl rfl
  · exact Or.inr rfl

theorem cacheGet_cacheSet_ne (cache : LotSizeCache) (key other : Str) (v : Int)
    (h : other ≠ key) : cacheGet (cacheSet cache key v) other = cacheGet cache other := by
  unfold cacheGet cacheSet
  have h1 : decide (key = other) = false := by simp [Ne.symm h]
  rw [List.find?_cons, h1]
  simp only []
  rw [List.find?_filter]
  congr 2
  funext e
  by_cases he : e.1 = other
  · have hk : e.1 ≠ key := by rw [he]; exact h
    simp [he, h]
  · simp [he]

theorem cacheSet_ok (cache : LotSizeCache) (key : Str) (v : Int) (hc : CacheOk cache)
    (hv : v ≠ 0) : CacheOk (cacheSet cache key v) := by
  intro e he
  unfold cacheSet at he
  rcases List.mem_cons.1 he with h | h
  · rw [h]; exact hv
  · exact hc e (List.mem_of_mem_filter h)

theorem fetchLotSizeFromAPI_ne_zero (r : SymbolInfoResponse) : fetchLotSizeFromAPI r ≠ 0 := by
  unfold fetchLotSizeFromAPI intOr
  split
  · split
    · split
      · decide
      · assumption
    · decide
  · decide

theorem cacheGet_ne_zero {cache : LotSizeCache} {key : Str} {v : Int} (hc : CacheOk cache)
    (h : cacheGet cache key = some v) : v ≠ 0 := by
  obtain ⟨e, he, hv⟩ := cacheGet_mem h
  rw [← hv]
  exact hc e he

theorem collectUniqueKeys_missing (cache : LotSizeCache) :
    ∀ (orders : List Order) (acc : List (Str × Str × Str)),
      ∀ e ∈ collectUniqueKeys cache orders acc,
        e ∈ acc ∨ intOr (cacheGet cache e.1) 0 = 0 := by
  intro orders
  induction orders with
  | nil => intro acc e he; exact Or.inl he
  | cons order rest ih =>
    intro acc e he
    unfold collectUniqueKeys at he
    split at he
    · exact ih acc e he
    · rename_i parsed hparsed
      simp only [] at he
      split at he
      · exact ih acc e he
      · rename_i hmiss
        split at he
        · exact ih acc e he
        · rcases ih _ e he with h | h
          · rcases List.mem_append.1 h with h2 | h2
            · exact Or.inl h2
            · right
              rw [List.mem_singleton] at h2
              rw [h2]
              simpa using hmiss
          · exact Or.inr h

theorem foldl_cacheSet_get (key : Str) (symbolApi : Str → Str → SymbolInfoResponse)
    (entries : List (Str × Str × Str)) :
    ∀ cache : LotSizeCache, (∀ e ∈ entries, e.1 ≠ key) →
      cacheGet (entries.foldl
        (fun c e => cacheSet c e.1 (fetchLotSizeFromAPI (symbolApi e.2.1 e.2.2))) cache) key
        = cacheGet cache key := by
  induction entries with
  | nil => intro cache _; rfl
  | cons e es ih =>
    intro cache h
    rw [List.foldl_cons, ih _ (fun x hx => h x (List.mem_cons_of_mem _ hx))]
    exact cacheGet_cacheSet_ne cache e.1 key _ (Ne.symm (h e (List.mem_cons_self _ _)))

theorem foldl_cacheSet_ok (symbolApi : Str → Str → SymbolInfoResponse)
    (entries : List (Str × Str × Str)) :
    ∀ cache : LotSizeCache, CacheOk cache →
      CacheOk (entries.foldl
        (fun c e => cacheSet c e.1 (fetchLotSizeFromAPI (symbolApi e.2.1 e.2.2))) cache) := by
  induction entries with
  | nil => intro cache h; exact h
  | cons e es ih =>
    intro cache h
    rw [List.foldl_cons]
    exact ih _ (cacheSet_ok cache e.1 _ h (fetchLotSizeFromAPI_ne_zero _))

theorem collectUniqueKeys_fresh (cache : LotSizeCache) (orders : List Order) (key : Str)
    (v : Int) (hc : CacheOk cache) (h : cacheGet cache key = some v) :
    ∀ e ∈ collectUniqueKeys cache orders [], e.1 ≠ key := by
  intro e he hek
  rcases collectUniqueKeys_missing cache orders [] e he with h1 | h1
  · simp at h1
  · rw [hek, h] at h1
    have hv := cacheGet_ne_zero hc h
    unfold intOr at h1
    simp [hv] at h1

theorem fetchLotSizesForOrders_get (cache : LotSizeCache) (orders : List Order)
    (symbolApi : Str → Str → SymbolInfoResponse) (key : Str) (v : Int) (hc : CacheOk cache)
    (h : cacheGet cache key = some v) :
    cacheGet (fetchLotSizesForOrders cache orders symbolApi) key = some v := by
  unfold fetchLotSizesForOrders
  rw [foldl_cacheSet_get key symbolApi _ cache (collectUniqueKeys_fresh cache orders key v hc h)]
  exact h

theorem getLotSizeForOrder_hit (cache : LotSizeCache) (order : Order)
    (symbolApi : Str → Str → SymbolInfoResponse) (v : Int) (hc : CacheOk cache)
    (h : cacheGet cache (lotSizeKeyForOrder order) = some v) :
    getLotSizeForOrder cache order symbolApi = (v, cache, []) := by
  have hv := cacheGet_ne_zero hc h
  unfold getLotSizeForOrder
  simp [h, intOr, hv]

theorem getLotSizeForOrder_get (cache : LotSizeCache) (order : Order)
    (symbolApi : Str → Str → SymbolInfoResponse) (key : Str) (v : Int) (hc : CacheOk cache)
    (h : cacheGet cache key = some v) :
    cacheGet (getLotSizeForOrder cache order symbolApi).2.1 key = some v := by
  by_cases hk : lotSizeKeyForOrder order = key
  · rw [getLotSizeForOrder_hit cache order symbolApi v hc (by rw [hk]; exact h)]
    exact h
  · unfold getLotSizeForOrder
    simp only []
    split
    · exact h
    · simp only []
      rw [cacheGet_cacheSet_ne _ _ _ _ (Ne.symm hk)]
      exact h

theorem getLotSizeForOrder_ok (cache : LotSizeCache) (order : Order)
    (symbolApi : Str → Str → SymbolInfoResponse) (hc : CacheOk cache) :
    CacheOk (getLotSizeForOrder cache order symbolApi).2.1 := by
  unfold getLotSizeForOrder
  simp only []
  split
  · exact hc
  · exact cacheSet_ok _ _ _ hc (fetchLotSizeFromAPI_ne_zero _)

theorem applyCacheCall_ok (cache : LotSizeCache) (call : CacheCall) (hc : CacheOk cache) :
    CacheOk (applyCacheCall cache call) := by
  cases call with
  | getLotSizeForOrder order symbolApi => exact getLotSizeForOrder_ok cache order symbolApi hc
  | fetchLotSizesForOrders orders symbolApi =>
    exact foldl_cacheSet_ok symbolApi _ cache hc

theorem applyCacheCall_get (cache : LotSizeCache) (call : CacheCall) (key : Str) (v : Int)
    (hc : CacheOk cache) (h : cacheGet cache key = some v) :
    cacheGet (applyCacheCall cache call) key = some v := by
  cases call with
  | getLotSizeForOrder order symbolApi =>
    exact getLotSizeForOrder_get cache order symbolApi key v hc h
  | fetchLotSizesForOrders orders symbolApi =>
    exact fetchLotSizesForOrders_get cache orders symbolApi key v hc h

theorem cacheAfter_ok (calls : List CacheCall) :
    ∀ cache : LotSizeCache, CacheOk cache → CacheOk (cacheAfter calls cache) := by
  induction calls with
  | nil => intro cache h; exact h
  | cons call rest ih =>
    intro cache h
    exact ih _ (applyCacheCall_ok cache call h)

theorem cacheAfter_get (calls : List CacheCall) (key : Str) (v : Int) :
    ∀ cache : LotSizeCache, CacheOk cache → cacheGet cache key = some v →
      cacheGet (cacheAfter calls cache) key = some v := by
  induction calls with
  | nil => intro cache _ h; exact h
  | cons call rest ih =>
    intro cache hc h
    exact ih _ (applyCacheCall_ok cache call hc) (applyCacheCall_get cache call key v hc h)

theorem cacheOk_nil : CacheOk [] := by
  intro e he
  simp at he

theorem lotSizeKeyForOrder_option (order : Order) (U E S T : Str)
    (hU : U ≠ []) (hUu : ∀ c ∈ U, c.isUpper = true) (hE : isExpiryTag E = true)
    (hS : S ≠ []) (hSd : ∀ c ∈ S, c.isDigit = true)
    (hT : T = ['C', 'E'] ∨ T = ['P', 'E']) (ho : order.symbol = U ++ E ++ S ++ T) :
    lotSizeKeyForOrder order = getLotSizeCacheKey U E := by
  unfold lotSizeKeyForOrder
  rw [ho, parseOptionSymbol_compose U E S T hU hUu hE hS hSd hT]
  rfl

/-! ## Relabelled chain and direct build -/

theorem otmDirection_toggle (t : OptionType) : otmDirection t.toggle = -otmDirection t := by
  cases t <;> rfl

theorem offsetAt_eq_atm {z : Int} : offsetAt z = atmOffset ↔ z = 0 := by
  constructor
  · intro h
    exact offsetAt_injective (h.trans offsetAt_zero.symm)
  · intro h
    rw [h]
    rfl

theorem ladderView_relabel_rungAt (u e x x2 a a2 : Str) (t : OptionType) (k d L L2 : Int)
    (z : Int) :
    (relabelRung u e t.toggle (rungAt u e x a t k d L (-z))).ladderView
      = (rungAt u e x2 a2 t.toggle k d L2 z).ladderView := by
  have hoff : flipOffset (offsetAt (-z)) = offsetAt z := by
    rw [flipOffset_offsetAt, neg_neg]
  have hstr : (rungAt u e x a t k d L (-z)).strike = (rungAt u e x2 a2 t.toggle k d L2 z).strike := by
    rw [rungAt_strike, rungAt_strike, otmDirection_toggle]
    ring
  unfold StrikeRung.ladderView
  simp only [relabelRung, rungAt_offset, hoff, hstr]
  by_cases hz : z = 0
  · simp [offsetAt_eq_atm, hz]
  · simp only [offsetAt_eq_atm, hz, if_false]
    rw [rungAt_symbol u e x2 a2 t.toggle k d L2 z hz]

theorem ladderView_prices (r : StrikeRung) (l p : ℚ) :
    StrikeRung.ladderView { r with ltp := l, prevClose := p } = r.ladderView := rfl

theorem switch_direct_aux (s : State) (atm itm1 atm2 itm2 : SymbolResponse)
    (q q1 q2 : QuoteResponse) (symbol : SymbolConfig) (hf : s.isFetchingStrikeChain = false)
    (hs : getActiveSymbol s.settings = some symbol) (he : s.selectedExpiry ≠ [])
    (ha : atm.success = true) (hi : itm1.success = true)
    (hd : 0 < |parseStrike atm.symbol - parseStrike itm1.symbol|)
    (ha2 : atm2.success = true) (hi2 : itm2.success = true)
    (hk2 : parseStrike atm2.symbol = parseStrike atm.symbol)
    (hd2 : |parseStrike atm2.symbol - parseStrike itm2.symbol|
      = |parseStrike atm.symbol - parseStrike itm1.symbol|) :
    (onOptionTypeToggle (fetchStrikeChain s atm itm1 q) atm2 itm2 q1).strikeChain.map
        StrikeRung.ladderView
      = (fetchStrikeChain
          { fetchStrikeChain s atm itm1 q with
            optionType := (fetchStrikeChain s atm itm1 q).optionType.toggle }
          atm2 itm2 q2).strikeChain.map StrikeRung.ladderView := by
  have hoff := fetchStrikeChain_offsets s atm itm1 q symbol hf hs he ha hi
  have hb := fetchStrikeChain_built s atm itm1 q symbol hf hs he ha hi
  generalize fetchStrikeChain s atm itm1 q = s1 at *
  have hs1 : getActiveSymbol s1.settings = some symbol := by rw [hb]; exact hs
  have he1 : s1.selectedExpiry = s.selectedExpiry := by rw [hb]
  have ht1 : s1.optionType = s.optionType := by rw [hb]
  have hl1 : s1.extendLevel = s.extendLevel := by rw [hb]
  have hf1 : s1.isFetchingStrikeChain = false := by rw [hb]
  have hk1 : s1.cachedATMStrike = parseStrike atm.symbol := by rw [hb]
  have hi1 : s1.strikeInterval = |parseStrike atm.symbol - parseStrike itm1.symbol| := by rw [hb]
  have hc1 : s1.strikeChain = applyQuotes
      (buildChain symbol.symbol s.selectedExpiry (strOr atm.exchange symbol.optionExchange)
        atm.symbol s.optionType (parseStrike atm.symbol)
        |parseStrike atm.symbol - parseStrike itm1.symbol| (intOr atm.lotsize 25)
        s.extendLevel) q := by rw [hb]
  have hdirect : ∀ q0 : QuoteResponse,
      (fetchStrikeChain { s1 with optionType := s1.optionType.toggle } atm2 itm2
          q0).strikeChain.map StrikeRung.ladderView
        = (signedLevels s.extendLevel).map (fun z =>
            (rungAt symbol.symbol s.selectedExpiry (strOr atm2.exchange symbol.optionExchange)
              atm2.symbol s.optionType.toggle (parseStrike atm.symbol)
              |parseStrike atm.symbol - parseStrike itm1.symbol| (intOr atm2.lotsize 25)
              z).ladderView) := by
    intro q0
    rw [fetchStrikeChain_built { s1 with optionType := s1.optionType.toggle } atm2 itm2 q0
      symbol hf1 hs1 (by rw [he1]; exact he) ha2 hi2]
    have hd3 : |parseStrike atm.symbol - parseStrike itm2.symbol|
        = |parseStrike atm.symbol - parseStrike itm1.symbol| := by
      have h := hd2
      rw [hk2] at h
      exact h
    simp only [he1, ht1, hl1, hk2, hd3]
    rw [applyQuotes_map StrikeRung.ladderView ladderView_prices, buildChain_eq, List.map_map]
    rfl
  rw [hdirect q2]
  unfold onOptionTypeToggle
  by_cases hk : parseStrike atm.symbol = 0
  · have : switchOptionType { s1 with optionType := s1.optionType.toggle } atm2 itm2 q1
        = fetchStrikeChain { s1 with optionType := s1.optionType.toggle } atm2 itm2 q1 := by
      unfold switchOptionType
      simp [hk1, hk]
    rw [this, hdirect q1]
  · have hint : s1.strikeInterval ≠ 0 := by rw [hi1]; omega
    have hatm : s1.cachedATMStrike ≠ 0 := by rw [hk1]; exact hk
    rw [switchOptionType_canonical { s1 with optionType := s1.optionType.toggle } atm2 itm2 q1
      symbol hint hatm hs1 s.extendLevel hoff]
    simp only [he1, ht1]
    rw [applyQuotes_map StrikeRung.ladderView ladderView_prices, hc1, applyQuotes_relabel,
      buildChain_eq, List.map_map, List.map_reverse, List.map_map, ← List.map_reverse,
      signedLevels_reverse, List.map_map]
    apply List.map_congr_left
    intro z _
    exact ladderView_relabel_rungAt _ _ _ _ _ _ _ _ _ _ _ z

/-! ## Quotes with a zero or missing price -/

theorem updateFirst_getElem?_first (p : StrikeRung → Bool) (f : StrikeRung → StrikeRung) :
    ∀ (l : List StrikeRung) (i : Nat) (r : StrikeRung), l[i]? = some r → p r = true →
      (∀ j x, j < i → l[j]? = some x → p x = false) →
      (updateFirst p f l)[i]? = some (f r) := by
  intro l
  induction l with
  | nil => intro i r hr; simp at hr
  | cons x xs ih =>
    intro i r hr hp hfirst
    cases i with
    | zero =>
      simp only [List.getElem?_cons_zero, Option.some.injEq] at hr
      subst hr
      unfold updateFirst
      rw [if_pos hp]
      exact List.getElem?_cons_zero
    | succ j =>
      have hx : p x = false := hfirst 0 x (Nat.succ_pos j) List.getElem?_cons_zero
      unfold updateFirst
      rw [hx]
      simp only [Bool.false_eq_true, if_false, List.getElem?_cons_succ]
      rw [List.getElem?_cons_succ] at hr
      apply ih j r hr hp
      intro k y hk hy
      exact hfirst (k + 1) y (Nat.succ_lt_succ hk) (by rw [List.getElem?_cons_succ]; exact hy)

theorem applyQuoteRow_first (chain : List StrikeRung) (row : QuoteRow) (d : QuoteData) (i : Nat)
    (r : StrikeRung) (hr : chain[i]? = some r) (hsym : row.symbol = r.symbol)
    (hfirst : ∀ j, j < i → (chain.map (fun x => x.symbol))[j]? ≠ some r.symbol)
    (hd : row.data = some d) :
    (applyQuoteRow chain row)[i]?
      = some { r with ltp := priceOrZero d.ltp, prevClose := priceOrZero d.prev_close } := by
  unfold applyQuoteRow
  rw [hd]
  simp only []
  apply updateFirst_getElem?_first _ _ chain i r hr
  · simp [hsym]
  · intro j x hj hx
    have := hfirst j hj
    rw [List.getElem?_map, hx] at this
    simp only [Option.map_some', ne_eq, Option.some.injEq] at this
    simp [hsym, this]

theorem applyQuoteRow_no_data (chain : List StrikeRung) (row : QuoteRow) (h : row.data = none) :
    applyQuoteRow chain row = chain := by
  unfold applyQuoteRow
  rw [h]

theorem foldl_applyQuoteRow_keep (rows : List QuoteRow) :
    ∀ (chain : List StrikeRung) (i : Nat) (r : StrikeRung), chain[i]? = some r →
      (∀ row ∈ rows, row.symbol ≠ r.symbol ∨ row.data = none) →
      (rows.foldl applyQuoteRow chain)[i]? = some r := by
  induction rows with
  | nil => intro chain i r hr _; exact hr
  | cons row rows ih =>
    intro chain i r hr h
    rw [List.foldl_cons]
    apply ih _ i r _ (fun x hx => h x (List.mem_cons_of_mem _ hx))
    rcases h row (List.mem_cons_self _ _) with h1 | h1
    · exact applyQuoteRow_getElem? chain row i r hr (Ne.symm h1)
    · rw [applyQuoteRow_no_data chain row h1]
      exact hr

theorem zeroPrices_update {r r1 : StrikeRung} (h : r1.zeroPrices = r.zeroPrices) (a b : ℚ) :
    ({ r1 with ltp := a, prevClose := b } : StrikeRung) = { r with ltp := a, prevClose := b } := by
  cases r
  cases r1
  simp only [StrikeRung.zeroPrices, StrikeRung.mk.injEq] at h
  simp only [StrikeRung.mk.injEq]
  tauto

theorem fetchStrikeLTPs_row_applied (s : State) (q : QuoteResponse) (pre post : List QuoteRow)
    (row : QuoteRow) (d : QuoteData) (i : Nat) (r : StrikeRung)
    (hq : q.success = true) (hrows : q.results = some (pre ++ row :: post))
    (hr : s.strikeChain[i]? = some r) (hsym : row.symbol = r.symbol)
    (hfirst : ∀ j, j < i → (s.strikeChain.map (fun x => x.symbol))[j]? ≠ some r.symbol)
    (hd : row.data = some d)
    (hpost : ∀ row2 ∈ post, row2.symbol ≠ r.symbol ∨ row2.data = none) :
    (_fetchStrikeLTPs s q).strikeChain[i]?
      = some { r with ltp := priceOrZero d.ltp, prevClose := priceOrZero d.prev_close } := by
  rw [fetchStrikeLTPs_chain]
  unfold applyQuotes
  rw [hq, hrows]
  simp only [if_true]
  rw [List.foldl_append, List.foldl_cons]
  have hmapz := foldl_applyQuoteRow_map StrikeRung.zeroPrices (fun _ _ _ => rfl) pre
    s.strikeChain
  have hmaps := foldl_applyQuoteRow_map (fun x : StrikeRung => x.symbol) (fun _ _ _ => rfl) pre
    s.strikeChain
  generalize List.foldl applyQuoteRow s.strikeChain pre = chain1 at hmapz hmaps ⊢
  have hz := congrArg (fun l => l[i]?) hmapz
  simp only [List.getElem?_map, hr, Option.map_some'] at hz
  cases h1 : chain1[i]? with
  | none => rw [h1] at hz; simp at hz
  | some r1 =>
    rw [h1] at hz
    simp only [Option.map_some', Option.some.injEq] at hz
    have hs1 : r1.symbol = r.symbol := by
      have h := congrArg StrikeRung.symbol hz; exact h
    have hrow := applyQuoteRow_first chain1 row d i r1 h1 (by rw [hsym, hs1])
      (by rw [hmaps, hs1]; exact hfirst) hd
    rw [zeroPrices_update hz] at hrow
    exact foldl_applyQuoteRow_keep post _ i _ hrow hpost

theorem fetchStrikeLTPs_rows_without_data (s : State) (q : QuoteResponse) (i : Nat)
    (r : StrikeRung) (hr : s.strikeChain[i]? = some r)
    (h : ∀ rows, q.results = some rows → ∀ row ∈ rows, row.symbol = r.symbol → row.data = none) :
    (_fetchStrikeLTPs s q).strikeChain[i]? = some r := by
  rw [fetchStrikeLTPs_chain]
  unfold applyQuotes
  split
  · split
    · rename_i rows hrows
      apply foldl_applyQuoteRow_keep rows _ i r hr
      intro row hrow
      by_cases hsym : row.symbol = r.symbol
      · exact Or.inr (h rows hrows row hrow hsym)
      · exact Or.inl hsym
    · exact hr
  · exact hr

/-! ## Order quantity -/

theorem intOr_some_ne_zero (x b : Int) (h : x ≠ 0) : intOr (some x) b = x := by
  unfold intOr
  simp [h]

theorem minDisplay_le (s : State) (hl : 0 < s.lotSize) : minDisplay s ≤ s.lotSize := by
  unfold minDisplay
  split
  · split
    · omega
    · rw [intOr_some_ne_zero _ _ (by omega)]
  · omega

theorem lotsOk_le (s : State) (q : Quantity) (hl : 0 < s.lotSize) (h : LotsOk s q) :
    s.lotSize ≤ q.lots := by
  obtain ⟨k, hk, he⟩ := h
  rw [he]
  nlinarith

theorem toQuantity_ok (s : State) (q : Quantity) (v : Int) (hl : 0 < s.lotSize) :
    LotsOk s (setQuantityFromDisplay s q v) := by
  unfold LotsOk setQuantityFromDisplay toQuantity
  have hne : s.lotSize ≠ 0 := by omega
  simp only [hne, ne_eq, not_false_eq_true, if_true]
  exact ⟨_, le_max_left _ _, rfl⟩

theorem onLotsInc_ok (s : State) (q : Quantity) (hl : 0 < s.lotSize) (h : LotsOk s q) :
    LotsOk s (onLotsInc s q) := by
  unfold onLotsInc
  split
  · split
    · exact h
    · obtain ⟨k, hk, he⟩ := h
      refine ⟨k + 1, by omega, ?_⟩
      simp only [intOr_some_ne_zero s.lotSize 1 (by omega), he]
      ring
  · exact h

theorem onLotsDec_ok (s : State) (q : Quantity) (hl : 0 < s.lotSize) (h : LotsOk s q) :
    LotsOk s (onLotsDec s q) := by
  unfold onLotsDec
  split
  · split
    · exact h
    · simp only [intOr_some_ne_zero s.lotSize 1 (by omega)]
      split
      · rename_i hgt
        obtain ⟨k, hk, he⟩ := h
        have hk2 : 2 ≤ k := by
          by_contra hlt
          have : k = 1 := by omega
          rw [he, this] at hgt
          omega
        refine ⟨k - 1, by omega, ?_⟩
        simp only [he]
        have : s.lotSize ≤ k * s.lotSize - s.lotSize := by nlinarith
        rw [max_eq_right this]
        ring
      · exact h
  · exact h

theorem onLotsInput_ok (s : State) (q : Quantity) (v : Option Int) (hl : 0 < s.lotSize)
    (h : LotsOk s q) : LotsOk s (onLotsInput s q v) := by
  unfold onLotsInput
  split
  · split
    · exact h
    · exact toQuantity_ok s q _ hl
  · exact h

theorem onLotsChange_ok (s : State) (q : Quantity) (v : Option Int) (hl : 0 < s.lotSize)
    (h : LotsOk s q) : LotsOk s (onLotsChange s q v) := by
  unfold onLotsChange
  split
  · split
    · exact h
    · have hq := toQuantity_ok s q (intOr v (minDisplay s)) hl
      have hle := lotsOk_le s _ hl hq
      have hm := minDisplay_le s hl
      simp only []
      rw [if_neg (by omega)]
      exact hq
  · exact h

theorem onLotsClick_lots (q : Quantity) : (onLotsClick q).lots = q.lots := by
  unfold onLotsClick
  split
  · split <;> rfl
  · rfl

theorem onLotsBlur_lots (q : Quantity) : (onLotsBlur q).lots = q.lots := by
  unfold onLotsBlur
  split
  · split <;> rfl
  · rfl

theorem qtyStep_ok (s : State) (q : Quantity) (e : QtyEvent) (hl : 0 < s.lotSize)
    (h : LotsOk s q) : LotsOk s (qtyStep s q e) := by
  cases e with
  | dec => exact onLotsDec_ok s q hl h
  | inc => exact onLotsInc_ok s q hl h
  | click =>
    obtain ⟨k, hk, he⟩ := h
    exact ⟨k, hk, by rw [← he]; exact onLotsClick_lots q⟩
  | blur =>
    obtain ⟨k, hk, he⟩ := h
    exact ⟨k, hk, by rw [← he]; exact onLotsBlur_lots q⟩
  | input v => exact onLotsInput_ok s q v hl h
  | change v => exact onLotsChange_ok s q v hl h

theorem qtyRun_ok (s : State) (events : List QtyEvent) (hl : 0 < s.lotSize) :
    ∀ q : Quantity, LotsOk s q → LotsOk s (qtyRun s q events) := by
  induction events with
  | nil => intro q h; exact h
  | cons e es ih =>
    intro q h
    exact ih _ (qtyStep_ok s q e hl h)

theorem initializeQuantityInput_ok (s : State) (q : Quantity) (el : LotsInput)
    (hl : 0 < s.lotSize) (hel : q.lotsInput = some el) :
    LotsOk s (initializeQuantityInput s q) := by
  unfold initializeQuantityInput
  rw [hel]
  simp only [gt_iff_lt, hl, if_true]
  exact ⟨1, le_refl _, by simp⟩

theorem getApiQuantity_eq (s : State) (q : Quantity) (hl : 0 < s.lotSize) (h : LotsOk s q) :
    getApiQuantity q = q.lots := by
  have hle := lotsOk_le s q hl h
  unfold getApiQuantity
  rw [intOr_some_ne_zero _ _ (by omega)]
  exact max_eq_right (by omega)

/-! ## Claims -/

/-- C1: when no build is in flight, an underlying is active, an expiry is
selected and both optionsymbol responses report success, the chain built by
`fetchStrikeChain` at level `n = extendLevel` has exactly `2n+1` rungs and its
offsets are, in order, `ITM_n, ..., ITM1, ATM, OTM1, ..., OTM_n`. -/
theorem fetchStrikeChain_canonical_offsets (s : State) (atm itm1 : SymbolResponse)
    (q : QuoteResponse) (symbol : SymbolConfig) (hf : s.isFetchingStrikeChain = false)
    (hs : getActiveSymbol s.settings = some symbol) (he : s.selectedExpiry ≠ [])
    (ha : atm.success = true) (hi : itm1.success = true) :
    (fetchStrikeChain s atm itm1 q).strikeChain.length = 2 * s.extendLevel + 1 ∧
      (fetchStrikeChain s atm itm1 q).strikeChain.map (fun r => r.offset)
        = canonicalOffsets s.extendLevel ∧
      (fetchStrikeChain s atm itm1 q).extendLevel = s.extendLevel := by
  have hl := fetchStrikeChain_ladder s atm itm1 q symbol hf hs he ha hi
  refine ⟨?_, ?_, ?_⟩
  · have := congrArg List.length hl
    simpa [ladder_length] using this
  · rw [map_offset_eq, hl, ladder_offsets]
  · rw [fetchStrikeChain_built s atm itm1 q symbol hf hs he ha hi]

/-- Witness of C1: the NIFTY build at level 2 has 5 rungs in canonical order. -/
theorem fetchStrikeChain_canonical_offsets_witness :
    (fetchStrikeChain (exState .CE) exAtm exItm1 exNoQuotes).strikeChain.length = 2 * 2 + 1 ∧
      (fetchStrikeChain (exState .CE) exAtm exItm1 exNoQuotes).strikeChain.map (fun r => r.offset)
        = canonicalOffsets 2 ∧
      (fetchStrikeChain (exState .CE) exAtm exItm1 exNoQuotes).extendLevel = 2 :=
  fetchStrikeChain_canonical_offsets (exState .CE) exAtm exItm1 exNoQuotes exSymbol
    (by decide) (by decide) (by decide) (by decide) (by decide)

/-- C2: for a chain built by `fetchStrikeChain` whose resolved interval `d` is
positive, the strikes read from the ITM_n rung to the OTM_n rung are strictly
increasing for CE and strictly decreasing for PE, each rung's strike is the
previous one plus `d` for CE and minus `d` for PE, and the rung tagged ATM
exists and carries the cached ATM strike, the one parsed from the ATM symbol. -/
theorem fetchStrikeChain_strikes_monotone (s : State) (atm itm1 : SymbolResponse)
    (q : QuoteResponse) (symbol : SymbolConfig) (hf : s.isFetchingStrikeChain = false)
    (hs : getActiveSymbol s.settings = some symbol) (he : s.selectedExpiry ≠ [])
    (ha : atm.success = true) (hi : itm1.success = true)
    (hd : 0 < (fetchStrikeChain s atm itm1 q).strikeInterval) :
    (s.optionType = .CE →
        ((fetchStrikeChain s atm itm1 q).strikeChain.map (fun r => r.strike)).Pairwise (· < ·) ∧
        ((fetchStrikeChain s atm itm1 q).strikeChain.map (fun r => r.strike)).Chain'
          (fun x y => y = x + (fetchStrikeChain s atm itm1 q).strikeInterval)) ∧
      (s.optionType = .PE →
        ((fetchStrikeChain s atm itm1 q).strikeChain.map (fun r => r.strike)).Pairwise (· > ·) ∧
        ((fetchStrikeChain s atm itm1 q).strikeChain.map (fun r => r.strike)).Chain'
          (fun x y => y = x - (fetchStrikeChain s atm itm1 q).strikeInterval)) ∧
      (∃ r ∈ (fetchStrikeChain s atm itm1 q).strikeChain, r.offset = atmOffset) ∧
      (∀ r ∈ (fetchStrikeChain s atm itm1 q).strikeChain, r.offset = atmOffset →
        r.strike = (fetchStrikeChain s atm itm1 q).cachedATMStrike) ∧
      (fetchStrikeChain s atm itm1 q).cachedATMStrike = parseStrike atm.symbol := by
  have hl := fetchStrikeChain_ladder s atm itm1 q symbol hf hs he ha hi
  have hb := fetchStrikeChain_built s atm itm1 q symbol hf hs he ha hi
  have hint : (fetchStrikeChain s atm itm1 q).strikeInterval
      = |parseStrike atm.symbol - parseStrike itm1.symbol| := by rw [hb]
  have hatm : (fetchStrikeChain s atm itm1 q).cachedATMStrike = parseStrike atm.symbol := by
    rw [hb]
  rw [hint] at hd
  rw [map_strike_eq, hl, hint, hatm]
  refine ⟨?_, ?_, ?_, ?_, rfl⟩
  · intro ht
    constructor
    · have := ladder_strikes_pairwise s.optionType (parseStrike atm.symbol) _ s.extendLevel hd
      simpa [ht] using this
    · have := ladder_strikes_chain' s.optionType (parseStrike atm.symbol)
        |parseStrike atm.symbol - parseStrike itm1.symbol| s.extendLevel
      simpa [ht, otmDirection] using this
  · intro ht
    constructor
    · have := ladder_strikes_pairwise s.optionType (parseStrike atm.symbol) _ s.extendLevel hd
      simpa [ht] using this
    · have := ladder_strikes_chain' s.optionType (parseStrike atm.symbol)
        |parseStrike atm.symbol - parseStrike itm1.symbol| s.extendLevel
      simpa [ht, otmDirection, sub_eq_add_neg] using this
  · have hm := atm_mem_ladder s.optionType (parseStrike atm.symbol)
      |parseStrike atm.symbol - parseStrike itm1.symbol| s.extendLevel
    rw [← hl, List.mem_map] at hm
    obtain ⟨r, hr, hrp⟩ := hm
    exact ⟨r, hr, (Prod.mk.inj hrp).1⟩
  · intro r hr hoff
    have hm := mem_offsetStrike hr
    rw [hl, hoff] at hm
    exact ladder_atm_strike hm

/-- Witness of C2: the NIFTY call ladder resolved from 24500 and 24450. -/
theorem fetchStrikeChain_strikes_monotone_witness :
    ((fetchStrikeChain (exState .CE) exAtm exItm1 exNoQuotes).strikeChain.map
        (fun r => r.strike)).Pairwise (· < ·) :=
  ((fetchStrikeChain_strikes_monotone (exState .CE) exAtm exItm1 exNoQuotes exSymbol
    (by decide) (by decide) (by decide) (by decide) (by decide) (by decide)).1 rfl).1

/-- C3: `fetchStrikeChain` sets `strikeInterval` to `|a - b|` for the parsed
ATM strike `a` and ITM1 strike `b`, a value that is never negative and is the
same for CE and PE; the rung of level `i` (`1 ≤ i ≤ extendLevel`) carries the
strike `a - i*|a-b|` on the ITM side and `a + i*|a-b|` on the OTM side for CE,
and the opposite signs for PE.  With `a = 24500`, `b = 24450` and level 2 the
chain is ITM2=24400, ITM1=24450, ATM=24500, OTM1=24550, OTM2=24600 for CE and
ITM2=24600, ITM1=24550, ATM=24500, OTM1=24450, OTM2=24400 for PE. -/
theorem fetchStrikeChain_interval_levels (s : State) (atm itm1 : SymbolResponse)
    (q : QuoteResponse) (symbol : SymbolConfig) (hf : s.isFetchingStrikeChain = false)
    (hs : getActiveSymbol s.settings = some symbol) (he : s.selectedExpiry ≠ [])
    (ha : atm.success = true) (hi : itm1.success = true) :
    (fetchStrikeChain s atm itm1 q).strikeInterval
        = |parseStrike atm.symbol - parseStrike itm1.symbol| ∧
      0 ≤ (fetchStrikeChain s atm itm1 q).strikeInterval ∧
      (∀ t : OptionType,
        (fetchStrikeChain { s with optionType := t } atm itm1 q).strikeInterval
          = |parseStrike atm.symbol - parseStrike itm1.symbol|) ∧
      (∀ i : Nat, 1 ≤ i → i ≤ s.extendLevel →
        (s.optionType = .CE →
          (itmOffset i, parseStrike atm.symbol
              - (i : Int) * |parseStrike atm.symbol - parseStrike itm1.symbol|)
            ∈ (fetchStrikeChain s atm itm1 q).strikeChain.map StrikeRung.offsetStrike ∧
          (otmOffset i, parseStrike atm.symbol
              + (i : Int) * |parseStrike atm.symbol - parseStrike itm1.symbol|)
            ∈ (fetchStrikeChain s atm itm1 q).strikeChain.map StrikeRung.offsetStrike) ∧
        (s.optionType = .PE →
          (itmOffset i, parseStrike atm.symbol
              + (i : Int) * |parseStrike atm.symbol - parseStrike itm1.symbol|)
            ∈ (fetchStrikeChain s atm itm1 q).strikeChain.map StrikeRung.offsetStrike ∧
          (otmOffset i, parseStrike atm.symbol
              - (i : Int) * |parseStrike atm.symbol - parseStrike itm1.symbol|)
            ∈ (fetchStrikeChain s atm itm1 q).strikeChain.map StrikeRung.offsetStrike)) ∧
      (parseStrike exAtm.symbol = 24500 ∧ parseStrike exItm1.symbol = 24450 ∧
        (fetchStrikeChain (exState .CE) exAtm exItm1 exNoQuotes).strikeInterval = 50 ∧
        (fetchStrikeChain (exState .CE) exAtm exItm1 exNoQuotes).strikeChain.map
            StrikeRung.offsetStrike
          = [(itmOffset 2, 24400), (itmOffset 1, 24450), (atmOffset, 24500),
              (otmOffset 1, 24550), (otmOffset 2, 24600)] ∧
        (fetchStrikeChain (exState .PE) exAtm exItm1 exNoQuotes).strikeChain.map
            StrikeRung.offsetStrike
          = [(itmOffset 2, 24600), (itmOffset 1, 24550), (atmOffset, 24500),
              (otmOffset 1, 24450), (otmOffset 2, 24400)]) := by
  have hl := fetchStrikeChain_ladder s atm itm1 q symbol hf hs he ha hi
  have hb := fetchStrikeChain_built s atm itm1 q symbol hf hs he ha hi
  have hint : (fetchStrikeChain s atm itm1 q).strikeInterval
      = |parseStrike atm.symbol - parseStrike itm1.symbol| := by rw [hb]
  refine ⟨hint, ?_, ?_, ?_, ?_⟩
  · rw [hint]; exact abs_nonneg _
  · intro t
    rw [fetchStrikeChain_built { s with optionType := t } atm itm1 q symbol hf hs he ha hi]
  · intro i h1 h2
    rw [hl]
    have hitm := itm_mem_ladder s.optionType (parseStrike atm.symbol)
      |parseStrike atm.symbol - parseStrike itm1.symbol| s.extendLevel i h1 h2
    have hotm := otm_mem_ladder s.optionType (parseStrike atm.symbol)
      |parseStrike atm.symbol - parseStrike itm1.symbol| s.extendLevel i h1 h2
    constructor
    · intro ht
      rw [ht] at hitm hotm ⊢
      simp only [itmDirection, otmDirection] at hitm hotm
      constructor
      · simpa [sub_eq_add_neg] using hitm
      · simpa using hotm
    · intro ht
      rw [ht] at hitm hotm ⊢
      simp only [itmDirection, otmDirection] at hitm hotm
      constructor
      · simpa using hitm
      · simpa [sub_eq_add_neg] using hotm
  · decide

/-- Witness of C3: the interval resolved from 24500 and 24450 is 50. -/
theorem fetchStrikeChain_interval_levels_witness :
    (fetchStrikeChain (exState .PE) exAtm exItm1 exNoQuotes).strikeInterval
      = |parseStrike exAtm.symbol - parseStrike exItm1.symbol| :=
  (fetchStrikeChain_interval_levels (exState .PE) exAtm exItm1 exNoQuotes exSymbol
    (by decide) (by decide) (by decide) (by decide) (by decide)).1

/-- C4 (as amended): after a build with a non-zero resolved interval and ATM
strike, toggling the option type twice through `switchOptionType` restores the
option type, the offsets and strikes of all rungs in their original order, and
the symbol of every rung other than ATM; the ATM rung's symbol becomes
`underlying + expiry + strike + optionType`, the original one only when the
resolved ATM symbol was spelt that way. -/
theorem toggle_twice_restores (s : State) (atm itm1 a1 b1 a2 b2 : SymbolResponse)
    (q0 q1 q2 : QuoteResponse) (symbol : SymbolConfig) (hf : s.isFetchingStrikeChain = false)
    (hs : getActiveSymbol s.settings = some symbol) (he : s.selectedExpiry ≠ [])
    (ha : atm.success = true) (hi : itm1.success = true)
    (hint : (fetchStrikeChain s atm itm1 q0).strikeInterval ≠ 0)
    (hatm : (fetchStrikeChain s atm itm1 q0).cachedATMStrike ≠ 0) :
    ∀ s1 s3 : State, s1 = fetchStrikeChain s atm itm1 q0 →
      s3 = onOptionTypeToggle (onOptionTypeToggle s1 a1 b1 q1) a2 b2 q2 →
      s3.optionType = s1.optionType ∧
      s3.strikeChain.map StrikeRung.offsetStrike = s1.strikeChain.map StrikeRung.offsetStrike ∧
      ∀ (i : Nat) (r r' : StrikeRung), s1.strikeChain[i]? = some r →
        s3.strikeChain[i]? = some r' →
        r'.offset = r.offset ∧ r'.strike = r.strike ∧
          (r.offset ≠ atmOffset → r'.symbol = r.symbol) ∧
          (r.offset = atmOffset →
            r'.symbol = buildSymbol symbol.symbol s.selectedExpiry r.strike s.optionType) := by
  intro s1 s3 h1 h3
  have hoff := fetchStrikeChain_offsets s atm itm1 q0 symbol hf hs he ha hi
  have ht1 : s1.optionType = s.optionType := by
    rw [h1, fetchStrikeChain_built s atm itm1 q0 symbol hf hs he ha hi]
  have hmem : ∀ r ∈ s1.strikeChain, flipOffset (flipOffset r.offset) = r.offset := by
    intro r hr
    apply flipOffset_flipOffset_of_mem (n := s.extendLevel)
    rw [← hoff, ← h1]
    exact List.mem_map.2 ⟨r, hr, rfl⟩
  have key := fun {β : Type} (g : StrikeRung → β)
      (hg : ∀ (r : StrikeRung) (l p : ℚ), g { r with ltp := l, prevClose := p } = g r) =>
    toggle_twice_map g hg s atm itm1 a1 b1 a2 b2 q0 q1 q2 symbol hf hs he ha hi hint hatm
  rw [← h1] at key
  refine ⟨?_, ?_, ?_⟩
  · rw [h3, ht1]
    exact (key (fun r => r.offset) (fun _ _ _ => rfl)).2
  · rw [h3, (key StrikeRung.offsetStrike (fun _ _ _ => rfl)).1]
    apply List.map_congr_left
    intro r hr
    simp only [StrikeRung.offsetStrike, relabelRung, hmem r hr]
  · intro i r r' hr hr'
    have hk := (key (fun r => (r.offset, r.strike, r.symbol)) (fun _ _ _ => rfl)).1
    rw [← h3] at hk
    have hi1 := congrArg (fun l => l[i]?) hk
    simp only [List.getElem?_map, hr, hr', Option.map_some', Option.some.injEq,
      Prod.mk.injEq, relabelRung] at hi1
    obtain ⟨e1, e2, e3⟩ := hi1
    have hrm : r ∈ s1.strikeChain := List.getElem?_mem hr
    refine ⟨?_, e2, ?_, ?_⟩
    · rw [e1, hmem r hrm]
    · intro hne
      rw [e3]
      rw [h1] at hrm
      exact (built_rung_symbol s atm itm1 q0 symbol hf hs he ha hi r hrm hne).symm
    · intro _
      exact e3

/-- Witness of C4 (as amended): the NIFTY call chain, toggled twice. -/
theorem toggle_twice_restores_witness :
    (onOptionTypeToggle (onOptionTypeToggle (fetchStrikeChain (exState .CE) exAtm exItm1
        exNoQuotes) exAtm exItm1 exNoQuotes) exAtm exItm1 exNoQuotes).strikeChain.map
        StrikeRung.offsetStrike
      = (fetchStrikeChain (exState .CE) exAtm exItm1 exNoQuotes).strikeChain.map
          StrikeRung.offsetStrike :=
  (toggle_twice_restores (exState .CE) exAtm exItm1 exAtm exItm1 exAtm exItm1 exNoQuotes
    exNoQuotes exNoQuotes exSymbol (by decide) (by decide) (by decide) (by decide) (by decide)
    (by decide) (by decide) _ _ rfl rfl).2.1

/-- Counterexample to C4 as stated: the ATM resolution returns a symbol that
matches the strike pattern (strike 24500) with the strike spelt `024500`; the
interval and the cached ATM strike are non-zero, yet after two toggles the ATM
rung carries the rebuilt symbol `NIFTY28NOV2424500CE`, not the original one. -/
theorem toggle_twice_atm_symbol_differs :
    (fetchStrikeChain (exState .CE) exAtmPadded exItm1 exNoQuotes).strikeInterval = 50 ∧
      (fetchStrikeChain (exState .CE) exAtmPadded exItm1 exNoQuotes).cachedATMStrike = 24500 ∧
      chainSymbols (fetchStrikeChain (exState .CE) exAtmPadded exItm1 exNoQuotes)
        = [exSymbolText ['2', '4', '4', '0', '0', 'C', 'E'],
            exSymbolText ['2', '4', '4', '5', '0', 'C', 'E'],
            exSymbolText ['0', '2', '4', '5', '0', '0', 'C', 'E'],
            exSymbolText ['2', '4', '5', '5', '0', 'C', 'E'],
            exSymbolText ['2', '4', '6', '0', '0', 'C', 'E']] ∧
      chainSymbols (onOptionTypeToggle (onOptionTypeToggle
          (fetchStrikeChain (exState .CE) exAtmPadded exItm1 exNoQuotes)
          exAtmPadded exItm1 exNoQuotes) exAtmPadded exItm1 exNoQuotes)
        = [exSymbolText ['2', '4', '4', '0', '0', 'C', 'E'],
            exSymbolText ['2', '4', '4', '5', '0', 'C', 'E'],
            exSymbolText ['2', '4', '5', '0', '0', 'C', 'E'],
            exSymbolText ['2', '4', '5', '5', '0', 'C', 'E'],
            exSymbolText ['2', '4', '6', '0', '0', 'C', 'E']] ∧
      chainSymbols (onOptionTypeToggle (onOptionTypeToggle
          (fetchStrikeChain (exState .CE) exAtmPadded exItm1 exNoQuotes)
          exAtmPadded exItm1 exNoQuotes) exAtmPadded exItm1 exNoQuotes)
        ≠ chainSymbols (fetchStrikeChain (exState .CE) exAtmPadded exItm1 exNoQuotes) := by
  decide

/-- C5 (as amended): when the build resolved a non-zero interval and a
non-zero ATM strike and no extend is in flight, any sequence of `extendStrikes`
calls and quote refreshes containing `k` extends turns the chain built at level
`n` into a chain with the same offsets and strikes, in the same order, as the
chain built directly at level `n + k`, and leaves `extendLevel` at `n + k`. -/
theorem extends_match_direct_build (s : State) (atm itm1 : SymbolResponse)
    (q0 q1 : QuoteResponse) (symbol : SymbolConfig) (hf : s.isFetchingStrikeChain = false)
    (hs : getActiveSymbol s.settings = some symbol) (he : s.selectedExpiry ≠ [])
    (ha : atm.success = true) (hi : itm1.success = true) (hx : s.isExtendingStrikes = false)
    (hint : (fetchStrikeChain s atm itm1 q0).strikeInterval ≠ 0)
    (hatm : (fetchStrikeChain s atm itm1 q0).cachedATMStrike ≠ 0)
    (events : List Event) (hall : ∀ e ∈ events, e.isExtendOrRefresh = true) :
    (run (fetchStrikeChain s atm itm1 q0) events).strikeChain.map StrikeRung.offsetStrike
        = (fetchStrikeChain { s with extendLevel := s.extendLevel + countExtends events }
            atm itm1 q1).strikeChain.map StrikeRung.offsetStrike ∧
      (run (fetchStrikeChain s atm itm1 q0) events).extendLevel
        = s.extendLevel + countExtends events := by
  have hb := fetchStrikeChain_built s atm itm1 q0 symbol hf hs he ha hi
  have hd : |parseStrike atm.symbol - parseStrike itm1.symbol| ≠ 0 := by
    rw [hb] at hint; exact hint
  have hk : parseStrike atm.symbol ≠ 0 := by
    rw [hb] at hatm; exact hatm
  have h0 := fetchStrikeChain_ladderState s atm itm1 q0 symbol hf hs he ha hi hx
  have hrun := LadderState.run hd hk events s.extendLevel _ h0 hall
  refine ⟨?_, hrun.level⟩
  rw [hrun.chain,
    fetchStrikeChain_ladder { s with extendLevel := s.extendLevel + countExtends events }
      atm itm1 q1 symbol hf hs he ha hi]

/-- Witness of C5 (as amended): extend, refresh, extend on the NIFTY call chain
of level 2 gives the ladder of level 4. -/
theorem extends_match_direct_build_witness :
    (run (fetchStrikeChain (exState .CE) exAtm exItm1 exNoQuotes)
        [Event.extend exNoQuotes, Event.refresh exNoQuotes,
          Event.extend exNoQuotes]).extendLevel = 2 + 2 :=
  (extends_match_direct_build (exState .CE) exAtm exItm1 exNoQuotes exNoQuotes exSymbol
    (by decide) (by decide) (by decide) (by decide) (by decide) (by decide) (by decide)
    (by decide) [Event.extend exNoQuotes, Event.refresh exNoQuotes, Event.extend exNoQuotes]
    (by decide)).2

/-- Counterexample to C5 as stated: for the underlying `M&M` the strike pattern
matches neither resolved symbol, so the build at level 2 caches interval 0 and
ATM strike 0; one `extendStrikes` call then changes nothing (5 rungs, level 2)
whereas the direct build at level 3 has 7 rungs. -/
theorem extend_without_interval_differs :
    (fetchStrikeChain (exStateMM 2) exAtmMM exItm1MM exNoQuotes).strikeInterval = 0 ∧
      (fetchStrikeChain (exStateMM 2) exAtmMM exItm1MM exNoQuotes).cachedATMStrike = 0 ∧
      (run (fetchStrikeChain (exStateMM 2) exAtmMM exItm1MM exNoQuotes)
          [Event.extend exNoQuotes]).strikeChain.length = 5 ∧
      (fetchStrikeChain (exStateMM 3) exAtmMM exItm1MM exNoQuotes).strikeChain.length = 7 ∧
      (run (fetchStrikeChain (exStateMM 2) exAtmMM exItm1MM exNoQuotes)
          [Event.extend exNoQuotes]).strikeChain.map StrikeRung.offsetStrike
        ≠ (fetchStrikeChain (exStateMM 3) exAtmMM exItm1MM exNoQuotes).strikeChain.map
            StrikeRung.offsetStrike := by
  decide

/-- C6 (evaluation of the code at the failing input): after a successful NIFTY
build, a change of underlying whose chain build fails, and one `extendStrikes`
call, the cached interval and ATM strike of the old underlying are still set,
`extendLevel` is 6 and the chain consists of the two rungs ITM6 and OTM6 with
BANKNIFTY symbols at NIFTY strikes: it is neither empty nor a chain of
`2 * 6 + 1` rungs. -/
theorem stale_cache_extend_breaks_shape :
    (run (State.initial exSettingsTwo) exStaleExtendRun).extendLevel = 6 ∧
      (run (State.initial exSettingsTwo) exStaleExtendRun).strikeInterval = 50 ∧
      (run (State.initial exSettingsTwo) exStaleExtendRun).cachedATMStrike = 24500 ∧
      (run (State.initial exSettingsTwo) exStaleExtendRun).strikeChain.map
          StrikeRung.offsetStrike = [(itmOffset 6, 24200), (otmOffset 6, 24800)] ∧
      chainSymbols (run (State.initial exSettingsTwo) exStaleExtendRun)
        = [['B', 'A', 'N', 'K', 'N', 'I', 'F', 'T', 'Y'] ++ exExpiry
              ++ ['2', '4', '2', '0', '0', 'C', 'E'],
            ['B', 'A', 'N', 'K', 'N', 'I', 'F', 'T', 'Y'] ++ exExpiry
              ++ ['2', '4', '8', '0', '0', 'C', 'E']] ∧
      ChainShape (run (State.initial exSettingsTwo) (exStaleExtendRun.take 2)) ∧
      ¬ ChainShape (run (State.initial exSettingsTwo) exStaleExtendRun) := by
  decide

/-- C7: with a non-zero cached interval and ATM strike and an active
underlying, `switchOptionType` relabels the chain rung for rung (the new chain,
prices disregarded, is a permutation of the relabelled rungs): a rung tagged
`ITM_k` becomes `OTM_k`, a rung tagged `OTM_k` becomes `ITM_k`, ATM stays ATM,
strike, exchange and lot size are kept, every symbol of the new chain is
`underlying + expiry + strike + optionType` for the rung's own strike and the
current (new) option type, and a chain whose offsets were in canonical order
`ITM_m, ..., ITM1, ATM, OTM1, ..., OTM_m` is again in that order. -/
theorem switchOptionType_relabels (s : State) (a b : SymbolResponse) (q : QuoteResponse)
    (symbol : SymbolConfig) (hi : s.strikeInterval ≠ 0) (hk : s.cachedATMStrike ≠ 0)
    (hs : getActiveSymbol s.settings = some symbol) :
    ((switchOptionType s a b q).strikeChain.map StrikeRung.zeroPrices).Perm
        (s.strikeChain.map (relabelRung symbol.symbol s.selectedExpiry s.optionType)) ∧
      (switchOptionType s a b q).strikeChain.length = s.strikeChain.length ∧
      (∀ r ∈ s.strikeChain, ∃ r' ∈ (switchOptionType s a b q).strikeChain,
        (∀ k : Nat, r.offset = itmOffset k → r'.offset = otmOffset k) ∧
        (∀ k : Nat, r.offset = otmOffset k → r'.offset = itmOffset k) ∧
        (r.offset = atmOffset → r'.offset = atmOffset) ∧
        r'.strike = r.strike ∧ r'.exchange = r.exchange ∧ r'.lotsize = r.lotsize ∧
        r'.symbol = buildSymbol symbol.symbol s.selectedExpiry r.strike s.optionType) ∧
      (∀ r' ∈ (switchOptionType s a b q).strikeChain,
        r'.symbol = buildSymbol symbol.symbol s.selectedExpiry r'.strike s.optionType) ∧
      (∀ m : Nat, s.strikeChain.map (fun r => r.offset) = canonicalOffsets m →
        (switchOptionType s a b q).strikeChain.map (fun r => r.offset) = canonicalOffsets m) := by
  have hperm := switchOptionType_perm s a b q symbol hi hk hs
  refine ⟨hperm, ?_, ?_, ?_, ?_⟩
  · have := hperm.length_eq
    simpa using this
  · intro r hr
    have hm : relabelRung symbol.symbol s.selectedExpiry s.optionType r
        ∈ (switchOptionType s a b q).strikeChain.map StrikeRung.zeroPrices :=
      hperm.mem_iff.2 (List.mem_map.2 ⟨r, hr, rfl⟩)
    obtain ⟨r', hr', hz⟩ := List.mem_map.1 hm
    have ho : r'.offset = flipOffset r.offset := by
      have h := congrArg StrikeRung.offset hz; exact h
    have hst : r'.strike = r.strike := by
      have h := congrArg StrikeRung.strike hz; exact h
    have hex : r'.exchange = r.exchange := by
      have h := congrArg StrikeRung.exchange hz; exact h
    have hlo : r'.lotsize = r.lotsize := by
      have h := congrArg StrikeRung.lotsize hz; exact h
    have hsy : r'.symbol = buildSymbol symbol.symbol s.selectedExpiry r.strike s.optionType := by
      have h := congrArg StrikeRung.symbol hz; exact h
    refine ⟨r', hr', ?_, ?_, ?_, hst, hex, hlo, hsy⟩
    · intro k hko; rw [ho, hko, flipOffset_itm]
    · intro k hko; rw [ho, hko, flipOffset_otm]
    · intro hko; rw [ho, hko, flipOffset_atm]
  · intro r' hr'
    have hm : r'.zeroPrices
        ∈ s.strikeChain.map (relabelRung symbol.symbol s.selectedExpiry s.optionType) :=
      hperm.mem_iff.1 (List.mem_map.2 ⟨r', hr', rfl⟩)
    obtain ⟨r, _, hz⟩ := List.mem_map.1 hm
    have h1 : r'.symbol = buildSymbol symbol.symbol s.selectedExpiry r.strike s.optionType := by
      have h := congrArg StrikeRung.symbol hz; exact h.symm
    have h2 : r'.strike = r.strike := by
      have h := congrArg StrikeRung.strike hz; exact h.symm
    rw [h1, h2]
  · intro m hm
    rw [switchOptionType_canonical s a b q symbol hi hk hs m hm]
    simp only []
    rw [applyQuotes_offsets]
    exact flipped_offsets_canonical _ _ _ _ _ hm

/-- Witness of C7: the NIFTY call chain of level 2 relabelled for PE. -/
theorem switchOptionType_relabels_witness :
    (switchOptionType
        { fetchStrikeChain (exState .CE) exAtm exItm1 exNoQuotes with optionType := .PE }
        exAtm exItm1 exNoQuotes).strikeChain.length
      = ({ fetchStrikeChain (exState .CE) exAtm exItm1 exNoQuotes with
            optionType := .PE } : State).strikeChain.length :=
  (switchOptionType_relabels
    { fetchStrikeChain (exState .CE) exAtm exItm1 exNoQuotes with optionType := .PE }
    exAtm exItm1 exNoQuotes exSymbol (by decide) (by decide) (by decide)).2.1

/-- C8 (as amended): when there is an active underlying, no extend is in
flight and the expiry, the cached interval and the cached ATM strike are all
set, one `extendStrikes` call increases `extendLevel` by exactly 1 and puts one
new rung tagged ITM at the front and one new rung tagged OTM at the end of the
chain, both at the new level; prices disregarded, the existing rungs are the
same rungs in the same order, and an existing rung keeps its `ltp` and
`prevClose` as well unless the multiquotes response carries a row with its
symbol.  When the expiry, the interval or the ATM strike is missing, the call
changes neither the chain nor `extendLevel`. -/
theorem extendStrikes_frame (s : State) (q : QuoteResponse) :
    (∀ symbol : SymbolConfig, s.isExtendingStrikes = false →
      getActiveSymbol s.settings = some symbol → s.selectedExpiry ≠ [] →
      s.strikeInterval ≠ 0 → s.cachedATMStrike ≠ 0 →
      (extendStrikes s q).extendLevel = s.extendLevel + 1 ∧
      (∃ newItm newOtm : StrikeRung,
        newItm.offset = itmOffset (s.extendLevel + 1) ∧
        newOtm.offset = otmOffset (s.extendLevel + 1) ∧
        (extendStrikes s q).strikeChain.map StrikeRung.zeroPrices
          = newItm :: s.strikeChain.map StrikeRung.zeroPrices ++ [newOtm]) ∧
      (∀ (i : Nat) (r : StrikeRung), s.strikeChain[i]? = some r →
        q.mentions r.symbol = false → (extendStrikes s q).strikeChain[i + 1]? = some r)) ∧
    (s.selectedExpiry = [] ∨ s.strikeInterval = 0 ∨ s.cachedATMStrike = 0 →
      (extendStrikes s q).strikeChain = s.strikeChain ∧
      (extendStrikes s q).extendLevel = s.extendLevel) := by
  constructor
  · intro symbol hx hs he hi hk
    rw [extendStrikes_eq s q symbol hx hs he hi hk]
    refine ⟨rfl, ⟨extendItmRung symbol s (s.extendLevel + 1),
      extendOtmRung symbol s (s.extendLevel + 1), rfl, rfl, ?_⟩, ?_⟩
    · simp only []
      rw [applyQuotes_zeroPrices]
      simp only [List.map_append, List.map_cons, List.map_nil]
      rfl
    · intro i r hr hq
      simp only []
      apply applyQuotes_getElem? _ q (i + 1) r _ hq
      rw [List.cons_append, List.getElem?_cons_succ, List.getElem?_append_left]
      · exact hr
      · by_contra hge
        rw [List.getElem?_eq_none (by omega)] at hr
        exact Option.noConfusion hr
  · intro h
    rcases extendStrikes_guarded s q h with h' | h' <;> rw [h'] <;> exact ⟨rfl, rfl⟩

/-- Witness of C8 (as amended): one extend of the NIFTY call chain of level 2. -/
theorem extendStrikes_frame_witness : (extendStrikes exBuilt exNoQuotes).extendLevel = 2 + 1 :=
  ((extendStrikes_frame exBuilt exNoQuotes).1 exSymbol (by decide) (by decide) (by decide)
    (by decide) (by decide)).1

/-- Counterexample to C8 as stated: with the expiry, the cached interval and
the cached ATM strike all set, `extendStrikes` changes nothing when no
underlying is configured any more, and nothing when an earlier extend is still
in flight; and with an active underlying, a multiquotes response carrying a row
for the ATM symbol changes the `ltp` and `prevClose` of the existing ATM rung
(from 0 to 101 and 99) while the chain is extended. -/
theorem extendStrikes_frame_fails :
    (exBuilt.selectedExpiry ≠ [] ∧ exBuilt.strikeInterval ≠ 0 ∧ exBuilt.cachedATMStrike ≠ 0) ∧
      (extendStrikes exBuiltNoSymbols exNoQuotes).extendLevel = exBuiltNoSymbols.extendLevel ∧
      (extendStrikes exBuiltNoSymbols exNoQuotes).strikeChain = exBuiltNoSymbols.strikeChain ∧
      (extendStrikes exBuiltExtending exNoQuotes).extendLevel = exBuiltExtending.extendLevel ∧
      (extendStrikes exBuiltExtending exNoQuotes).strikeChain = exBuiltExtending.strikeChain ∧
      exBuilt.strikeChain.map (fun r => (r.offset, r.ltp, r.prevClose))
        = [(itmOffset 2, 0, 0), (itmOffset 1, 0, 0), (atmOffset, 0, 0), (otmOffset 1, 0, 0),
            (otmOffset 2, 0, 0)] ∧
      (extendStrikes exBuilt exAtmQuote).strikeChain.map (fun r => (r.offset, r.ltp, r.prevClose))
        = [(itmOffset 3, 0, 0), (itmOffset 2, 0, 0), (itmOffset 1, 0, 0), (atmOffset, 101, 99),
            (otmOffset 1, 0, 0), (otmOffset 2, 0, 0), (otmOffset 3, 0, 0)] := by
  decide

/-- C9: `_fetchStrikeLTPs` keeps the number and order of the rungs; after a
multiquotes response, a rung whose symbol does not appear in any row of the
response is left exactly as it was, so its `ltp` and `prevClose` are unchanged
(in particular not reset to 0); and when the response does not report success
the whole chain is unchanged. -/
theorem fetchStrikeLTPs_keeps_absent (s : State) (q : QuoteResponse) :
    (_fetchStrikeLTPs s q).strikeChain.length = s.strikeChain.length ∧
      (∀ (i : Nat) (r : StrikeRung), s.strikeChain[i]? = some r →
        (∀ rows : List QuoteRow, q.results = some rows → ∀ row ∈ rows, row.symbol ≠ r.symbol) →
        ∃ r' : StrikeRung, (_fetchStrikeLTPs s q).strikeChain[i]? = some r' ∧ r' = r ∧
          r'.ltp = r.ltp ∧ r'.prevClose = r.prevClose) ∧
      (q.success = false → (_fetchStrikeLTPs s q).strikeChain = s.strikeChain) := by
  rw [fetchStrikeLTPs_chain]
  refine ⟨applyQuotes_length _ _, ?_, ?_⟩
  · intro i r hr habs
    refine ⟨r, ?_, rfl, rfl, rfl⟩
    apply applyQuotes_getElem? _ q i r hr
    unfold QuoteResponse.mentions
    cases hres : q.results with
    | none => simp
    | some rows =>
      simp only [Bool.and_eq_false_imp, List.any_eq_false, decide_eq_true_eq]
      intro _ row hrow
      exact habs rows hres row hrow
  · intro hq
    unfold applyQuotes
    simp [hq]

/-- Witness of C9: a response with a row for the ATM symbol only leaves the
ITM2 rung of the NIFTY chain as it was. -/
theorem fetchStrikeLTPs_keeps_absent_witness :
    ∃ r' : StrikeRung, (_fetchStrikeLTPs exBuilt exAtmQuote).strikeChain[0]? = some r' ∧
      r' = itmRung exSymbol.symbol exExpiry ['N', 'F', 'O'] .CE 24500 50 25 2 ∧
      r'.ltp = (itmRung exSymbol.symbol exExpiry ['N', 'F', 'O'] .CE 24500 50 25 2).ltp ∧
      r'.prevClose
        = (itmRung exSymbol.symbol exExpiry ['N', 'F', 'O'] .CE 24500 50 25 2).prevClose :=
  (fetchStrikeLTPs_keeps_absent exBuilt exAtmQuote).2.1 0
    (itmRung exSymbol.symbol exExpiry ['N', 'F', 'O'] .CE 24500 50 25 2) (by decide)
    (by decide)

/-- C10 (as amended): when both resolution responses report success,
`fetchStrikeChain` does not abort on a symbol the strike pattern does not
match: it takes that strike as 0, so an unparsable ATM symbol caches the ATM
strike 0 and the interval `|ITM1 strike|`, an unparsable ITM1 symbol gives the
interval `|ATM strike|`, and in every case the prior chain is replaced by the
`2 * extendLevel + 1` rungs of the ladder built from the cached values. -/
theorem fetchStrikeChain_unparsable (s : State) (atm itm1 : SymbolResponse)
    (q : QuoteResponse) (symbol : SymbolConfig) (hf : s.isFetchingStrikeChain = false)
    (hs : getActiveSymbol s.settings = some symbol) (he : s.selectedExpiry ≠ [])
    (ha : atm.success = true) (hi : itm1.success = true) :
    (strikeMatch atm.symbol = none →
        (fetchStrikeChain s atm itm1 q).cachedATMStrike = 0 ∧
        (fetchStrikeChain s atm itm1 q).strikeInterval = |parseStrike itm1.symbol|) ∧
      (strikeMatch itm1.symbol = none →
        (fetchStrikeChain s atm itm1 q).strikeInterval = |parseStrike atm.symbol|) ∧
      (fetchStrikeChain s atm itm1 q).strikeChain.length = 2 * s.extendLevel + 1 ∧
      (fetchStrikeChain s atm itm1 q).strikeChain.map StrikeRung.offsetStrike
        = ladder s.optionType (fetchStrikeChain s atm itm1 q).cachedATMStrike
            (fetchStrikeChain s atm itm1 q).strikeInterval s.extendLevel ∧
      (fetchStrikeChain s atm itm1 q).isFetchingStrikeChain = false ∧
      (fetchStrikeChain s atm itm1 q).loadingStrikes = false := by
  have hl := fetchStrikeChain_ladder s atm itm1 q symbol hf hs he ha hi
  have hlen : (fetchStrikeChain s atm itm1 q).strikeChain.length = 2 * s.extendLevel + 1 := by
    have := congrArg List.length hl
    simpa [ladder_length] using this
  have hb := fetchStrikeChain_built s atm itm1 q symbol hf hs he ha hi
  have hint : (fetchStrikeChain s atm itm1 q).strikeInterval
      = |parseStrike atm.symbol - parseStrike itm1.symbol| := by rw [hb]
  have hatm : (fetchStrikeChain s atm itm1 q).cachedATMStrike = parseStrike atm.symbol := by
    rw [hb]
  refine ⟨?_, ?_, hlen, ?_, ?_, ?_⟩
  · intro hm
    have h0 : parseStrike atm.symbol = 0 := by unfold parseStrike; rw [hm]
    rw [hatm, hint, h0]
    simp
  · intro hm
    have h0 : parseStrike itm1.symbol = 0 := by unfold parseStrike; rw [hm]
    rw [hint, h0]
    simp
  · rw [hl, hatm, hint]
  · rw [hb]
  · rw [hb]

/-- Witness of C10 (as amended): the rebuild of the NIFTY chain from an ATM
symbol that does not match the strike pattern. -/
theorem fetchStrikeChain_unparsable_witness :
    (fetchStrikeChain exBuilt exAtmUnparsable exItm1 exNoQuotes).strikeChain.length
      = 2 * exBuilt.extendLevel + 1 :=
  (fetchStrikeChain_unparsable exBuilt exAtmUnparsable exItm1 exNoQuotes exSymbol
    (by decide) (by decide) (by decide) (by decide) (by decide)).2.2.1

/-- Counterexample to C10 as stated: the NIFTY chain is built (interval 50, ATM
strike 24500), then rebuilt with an ATM symbol the strike pattern does not
match; the build is not aborted: the cached ATM strike becomes 0, the interval
24450, and the chain is replaced by the ladder around 0. -/
theorem unparsable_atm_overwrites_chain :
    strikeMatch exAtmUnparsable.symbol = none ∧
      exBuilt.strikeInterval = 50 ∧ exBuilt.cachedATMStrike = 24500 ∧
      (fetchStrikeChain exBuilt exAtmUnparsable exItm1 exNoQuotes).strikeInterval = 24450 ∧
      (fetchStrikeChain exBuilt exAtmUnparsable exItm1 exNoQuotes).cachedATMStrike = 0 ∧
      exBuilt.strikeChain.map (fun r => r.strike) = [24400, 24450, 24500, 24550, 24600] ∧
      (fetchStrikeChain exBuilt exAtmUnparsable exItm1 exNoQuotes).strikeChain.map
          (fun r => r.strike) = [-48900, -24450, 0, 24450, 48900] ∧
      (fetchStrikeChain exBuilt exAtmUnparsable exItm1 exNoQuotes).strikeChain
        ≠ exBuilt.strikeChain := by
  decide

/-- C11: when a build has started (no build in flight, an active underlying,
an expiry selected) and either of the two resolution responses does not report
success, `fetchStrikeChain` leaves every variable as it was, in particular
`strikeChain`, `strikeInterval`, `cachedATMStrike` and the lot size, except
that the strikes loading flag and the in-flight guard are false. -/
theorem fetchStrikeChain_failure (s : State) (atm itm1 : SymbolResponse) (q : QuoteResponse)
    (symbol : SymbolConfig) (hf : s.isFetchingStrikeChain = false)
    (hs : getActiveSymbol s.settings = some symbol) (he : s.selectedExpiry ≠ [])
    (hfail : atm.success = false ∨ itm1.success = false) :
    fetchStrikeChain s atm itm1 q
        = { s with isFetchingStrikeChain := false, loadingStrikes := false } ∧
      (fetchStrikeChain s atm itm1 q).strikeChain = s.strikeChain ∧
      (fetchStrikeChain s atm itm1 q).strikeInterval = s.strikeInterval ∧
      (fetchStrikeChain s atm itm1 q).cachedATMStrike = s.cachedATMStrike ∧
      (fetchStrikeChain s atm itm1 q).lotSize = s.lotSize ∧
      (fetchStrikeChain s atm itm1 q).loadingStrikes = false ∧
      (fetchStrikeChain s atm itm1 q).isFetchingStrikeChain = false := by
  have he' : s.selectedExpiry.isEmpty = false := by
    cases h : s.selectedExpiry with
    | nil => exact absurd h he
    | cons c cs => rfl
  have hor : (!atm.success || !itm1.success) = true := by
    rcases hfail with h | h <;> simp [h]
  have key : fetchStrikeChain s atm itm1 q
      = { s with isFetchingStrikeChain := false, loadingStrikes := false } := by
    unfold fetchStrikeChain
    simp only [hf, hs, he', hor, Bool.false_eq_true, if_false, if_true]
  rw [key]
  exact ⟨rfl, rfl, rfl, rfl, rfl, rfl, rfl⟩

/-- Witness of C11: a rebuild of the NIFTY chain whose ITM1 resolution fails. -/
theorem fetchStrikeChain_failure_witness :
    (fetchStrikeChain exBuilt exAtm exSymbolError exNoQuotes).strikeChain = exBuilt.strikeChain :=
  (fetchStrikeChain_failure exBuilt exAtm exSymbolError exNoQuotes exSymbol (by decide)
    (by decide) (by decide) (Or.inr rfl)).2.1

/-- C12: a call of `fetchStrikeChain` while a build is in flight, and a call
of `extendStrikes` while an extend is in flight, returns with every variable
unchanged (chain, `extendLevel`, cached values, and nothing recorded for a
later retry); and a call that starts ends with its guard flag false whatever
path it takes. -/
theorem inflight_guards (s : State) (atm itm1 : SymbolResponse) (q : QuoteResponse) :
    (s.isFetchingStrikeChain = true → fetchStrikeChain s atm itm1 q = s) ∧
      (s.isExtendingStrikes = true → extendStrikes s q = s) ∧
      (s.isFetchingStrikeChain = false →
        (fetchStrikeChain s atm itm1 q).isFetchingStrikeChain = false) ∧
      (s.isExtendingStrikes = false → (extendStrikes s q).isExtendingStrikes = false) := by
  refine ⟨?_, ?_, ?_, ?_⟩
  · intro h
    unfold fetchStrikeChain
    rw [if_pos h]
  · intro h
    unfold extendStrikes
    rw [if_pos h]
  · intro h
    unfold fetchStrikeChain
    rw [if_neg (by simp [h])]
    split
    · rfl
    · split
      · rfl
      · split <;> rfl
  · intro h
    unfold extendStrikes
    rw [if_neg (by simp [h])]
    split
    · rfl
    · split <;> rfl

/-- Witness of C12: an extend requested while one is in flight changes nothing. -/
theorem inflight_guards_witness :
    extendStrikes exBuiltExtending exAtmQuote = exBuiltExtending :=
  (inflight_guards exBuiltExtending exAtm exItm1 exAtmQuote).2.1 rfl

/-- C15: for a lot size `L > 0`, `toLots q = sign q * floor(|q| / L)`, hence
`toLots (-q) = -toLots q` and `|toLots q| * L ≤ |q| < (|toLots q| + 1) * L`;
for lot size 0, and for `q = 0`, the result is 0. -/
theorem toLots_spec (s : State) (q : Int) :
    (0 < s.lotSize →
        toLots s q = Int.sign q * (|q| / s.lotSize) ∧
        toLots s q = Int.sign q * Int.floor ((|q| : ℚ) / (s.lotSize : ℚ)) ∧
        toLots s (-q) = -toLots s q ∧
        |toLots s q| * s.lotSize ≤ |q| ∧
        |q| < (|toLots s q| + 1) * s.lotSize) ∧
      (s.lotSize = 0 → toLots s q = 0) ∧
      toLots s 0 = 0 := by
  refine ⟨?_, ?_, ?_⟩
  · intro hL
    have h1 := toLots_pos s q hL
    have hnn : 0 ≤ |q| / s.lotSize := Int.ediv_nonneg (abs_nonneg q) (le_of_lt hL)
    have habs : |toLots s q| = |q| / s.lotSize := by
      rw [h1, abs_mul, abs_of_nonneg hnn]
      by_cases hq : q = 0
      · subst hq; simp
      · rw [Int.abs_sign_of_nonzero hq]  -- |sign q| = 1
        simp
    refine ⟨h1, ?_, ?_, ?_, ?_⟩
    · rw [h1, floor_div_pos _ _ hL]
    · rw [toLots_pos s (-q) hL, h1, Int.sign_neg, abs_neg]
      ring
    · rw [habs]
      exact Int.ediv_mul_le _ (ne_of_gt hL)
    · rw [habs]
      exact Int.lt_ediv_add_one_mul_self _ hL
  · intro h0
    unfold toLots
    rw [if_pos h0]
  · unfold toLots
    split
    · rfl
    · simp

/-- Witness of C15: a short position of 160 with lot size 75 is -2 lots. -/
theorem toLots_spec_witness :
    toLots exLotState (-160) = Int.sign (-160) * (|(-160 : Int)| / exLotState.lotSize) :=
  ((toLots_spec exLotState (-160)).1 (by decide)).1

/-- C13: when no lot size is negative, `renderSLPanel` computes `coveredLots`
as the sum over the stop-loss orders of `floor(quantity / orderLotSize)`;
`currentLots` is `toLots(|currentQty|)`; the magnitude of the reported
uncovered lots is `max(0, currentLots - coveredLots)` and the reported value
carries the sign of the position.  For `currentQty = 150`, lot size 75 and one
pending order of quantity 75 it gives `currentLots = 2`, `coveredLots = 1` and
reports 1; for `currentQty = -150` with the same order it reports -1. -/
theorem renderSLPanel_cover (s : State) (p : Panel) :
    (0 ≤ s.lotSize → (∀ e ∈ p.lotSizeCache, 0 ≤ e.2) →
        (renderSLPanel s p).coveredLots
          = (p.slOrders.map (fun o =>
              Int.floor ((orderQuantity o : ℚ) / (getCachedLotSizeForOrder s p o : ℚ)))).sum) ∧
      (renderSLPanel s p).currentLots = toLots s |readNetQty p| ∧
      (renderSLPanel s p).absRemainingLots
        = max 0 ((renderSLPanel s p).currentLots - (renderSLPanel s p).coveredLots) ∧
      (0 ≤ readNetQty p →
        (renderSLPanel s p).signedRemainingLots = (renderSLPanel s p).absRemainingLots) ∧
      (readNetQty p < 0 →
        (renderSLPanel s p).signedRemainingLots = -(renderSLPanel s p).absRemainingLots) ∧
      ((renderSLPanel exLotState (exPanel 150 [exSLOrder])).currentLots = 2 ∧
        (renderSLPanel exLotState (exPanel 150 [exSLOrder])).coveredLots = 1 ∧
        (renderSLPanel exLotState (exPanel 150 [exSLOrder])).signedRemainingLots = 1 ∧
        (renderSLPanel exLotState (exPanel (-150) [exSLOrder])).currentLots = 2 ∧
        (renderSLPanel exLotState (exPanel (-150) [exSLOrder])).coveredLots = 1 ∧
        (renderSLPanel exLotState (exPanel (-150) [exSLOrder])).signedRemainingLots = -1) := by
  refine ⟨?_, rfl, rfl, ?_, ?_, by decide⟩
  · intro hL hc
    rw [renderSLPanel_coveredLots]
    congr 1
    apply List.map_congr_left
    intro o _
    have hpos := getCachedLotSizeForOrder_pos s p o hL hc
    unfold orderLots
    simp only [hpos, if_true]
    rw [floor_div_int _ _ hpos, Int.fdiv_eq_ediv _ (le_of_lt hpos)]
  · intro h
    unfold renderSLPanel
    simp only [if_neg (not_lt.2 h)]
  · intro h
    unfold renderSLPanel
    simp only [if_pos h]

/-- Witness of C13: the cover of the long position of 150 with one order of 75. -/
theorem renderSLPanel_cover_witness :
    (renderSLPanel exLotState (exPanel 150 [exSLOrder])).coveredLots
      = ((exPanel 150 [exSLOrder]).slOrders.map (fun o =>
          Int.floor ((orderQuantity o : ℚ)
            / (getCachedLotSizeForOrder exLotState (exPanel 150 [exSLOrder]) o : ℚ)))).sum :=
  (renderSLPanel_cover exLotState (exPanel 150 [exSLOrder])).1 (by decide) (by decide)

/-- C14 (as amended): the magnitude `max(0, currentLots - coveredLots)` of the
uncovered lots is never negative; the value `renderSLPanel` reports is that
magnitude for a long or flat position and its negation for a short position,
so it is never negative for long and never positive for short; and with no
stop-loss order and a lot size that is not negative it is `currentLots` for a
long or flat position and `-currentLots` for a short one. -/
theorem renderSLPanel_uncovered_sign (s : State) (p : Panel) :
    0 ≤ (renderSLPanel s p).absRemainingLots ∧
      |(renderSLPanel s p).signedRemainingLots| = (renderSLPanel s p).absRemainingLots ∧
      (0 ≤ readNetQty p → 0 ≤ (renderSLPanel s p).signedRemainingLots) ∧
      (readNetQty p < 0 → (renderSLPanel s p).signedRemainingLots ≤ 0) ∧
      (p.slOrders = [] → 0 ≤ s.lotSize →
        (0 ≤ readNetQty p →
          (renderSLPanel s p).signedRemainingLots = (renderSLPanel s p).currentLots) ∧
        (readNetQty p < 0 →
          (renderSLPanel s p).signedRemainingLots = -(renderSLPanel s p).currentLots)) := by
  have habs : 0 ≤ (renderSLPanel s p).absRemainingLots := le_max_left _ _
  have hpos : 0 ≤ readNetQty p →
      (renderSLPanel s p).signedRemainingLots = (renderSLPanel s p).absRemainingLots := by
    intro h
    unfold renderSLPanel
    simp only [if_neg (not_lt.2 h)]
  have hneg : readNetQty p < 0 →
      (renderSLPanel s p).signedRemainingLots = -(renderSLPanel s p).absRemainingLots := by
    intro h
    unfold renderSLPanel
    simp only [if_pos h]
  refine ⟨habs, ?_, ?_, ?_, ?_⟩
  · rcases lt_or_le (readNetQty p) 0 with h | h
    · rw [hneg h, abs_neg, abs_of_nonneg habs]
    · rw [hpos h, abs_of_nonneg habs]
  · intro h; rw [hpos h]; exact habs
  · intro h; rw [hneg h]; omega
  · intro hno hL
    have hcur : 0 ≤ (renderSLPanel s p).currentLots := by
      show 0 ≤ toLots s |readNetQty p|
      unfold toLots
      split
      · exact le_refl _
      · split
        · exact le_refl _
        · rw [if_pos (abs_nonneg _), one_mul]
          exact Int.fdiv_nonneg (abs_nonneg _) hL
    have hcov : (renderSLPanel s p).coveredLots = 0 := by
      rw [renderSLPanel_coveredLots, hno]; rfl
    have hrem : (renderSLPanel s p).absRemainingLots = (renderSLPanel s p).currentLots := by
      show max 0 ((renderSLPanel s p).currentLots - (renderSLPanel s p).coveredLots) = _
      rw [hcov, sub_zero, max_eq_right hcur]
    constructor
    · intro h; rw [hpos h, hrem]
    · intro h; rw [hneg h, hrem]

/-- Witness of C14 (as amended): a long position of 150 without stop-loss
orders reports its 2 lots as uncovered. -/
theorem renderSLPanel_uncovered_sign_witness :
    (renderSLPanel exLotState (exPanel 150 [])).signedRemainingLots
      = (renderSLPanel exLotState (exPanel 150 [])).currentLots :=
  ((renderSLPanel_uncovered_sign exLotState (exPanel 150 [])).2.2.2.2 rfl (by decide)).1
    (by decide)

/-- Counterexample to C14 as stated: for the short position of 150 with lot
size 75, the reported uncovered lots are -1 with one stop-loss order of 75
(a negative value), and -2 with no stop-loss order while `currentLots` is 2. -/
theorem renderSLPanel_reports_negative :
    (renderSLPanel exLotState (exPanel (-150) [exSLOrder])).signedRemainingLots = -1 ∧
      (renderSLPanel exLotState (exPanel (-150) [exSLOrder])).signedRemainingLots < 0 ∧
      (renderSLPanel exLotState (exPanel (-150) [])).currentLots = 2 ∧
      (renderSLPanel exLotState (exPanel (-150) [])).signedRemainingLots = -2 ∧
      (renderSLPanel exLotState (exPanel (-150) [])).signedRemainingLots
        ≠ (renderSLPanel exLotState (exPanel (-150) [])).currentLots := by
  decide

/-- C16 (as amended): when the API key and a selected symbol are set, the net
position read from the panel is not 0 and the order book request succeeds,
`fetchSLOrdersForPosition` sets `slOrders` to exactly those orders of the order
book, in order-book order, whose status in lower case is one of `open`,
`trigger pending`, `validation pending`, `put order req received`, whose
pricetype is SL or SL-M, whose symbol equals the selected symbol and whose
action is SELL for a long position and BUY for a short one; for a net position
of 0 it sets `slOrders` to the empty list and its result does not depend on
the order book. -/
theorem fetchSLOrdersForPosition_filter (s : State) (p : Panel) (orderbook : OrderbookResponse)
    (symbolApi : Str → Str → SymbolInfoResponse) :
    (∀ orders : List Order, s.settings.apiKey ≠ [] → p.selectedSymbol ≠ [] →
        readNetQty p ≠ 0 → orderbook.success = true → orderbook.orders = some orders →
        (fetchSLOrdersForPosition s p orderbook symbolApi).slOrders
          = orders.filter (fun o =>
              decide (toLowerCase o.order_status ∈ slPendingStatuses ∧
                (o.pricetype = ['S', 'L'] ∨ o.pricetype = ['S', 'L', '-', 'M']) ∧
                o.symbol = p.selectedSymbol ∧
                o.action = (if readNetQty p > 0 then Side.SELL else Side.BUY).toStr))) ∧
      (readNetQty p = 0 →
        (fetchSLOrdersForPosition s p orderbook symbolApi).slOrders = [] ∧
        ∀ (orderbook' : OrderbookResponse) (symbolApi' : Str → Str → SymbolInfoResponse),
          fetchSLOrdersForPosition s p orderbook' symbolApi'
            = fetchSLOrdersForPosition s p orderbook symbolApi) := by
  constructor
  · intro orders hk hsel hq hsucc hord
    have hk' : s.settings.apiKey.isEmpty = false := by
      cases h : s.settings.apiKey with
      | nil => exact absurd h hk
      | cons c cs => rfl
    have hsel' : p.selectedSymbol.isEmpty = false := by
      cases h : p.selectedSymbol with
      | nil => exact absurd h hsel
      | cons c cs => rfl
    have hfil : orders.filter (slOrderFilter p.selectedSymbol
          (if readNetQty p > 0 then Side.SELL else Side.BUY))
        = orders.filter (fun o =>
            decide (toLowerCase o.order_status ∈ slPendingStatuses ∧
              (o.pricetype = ['S', 'L'] ∨ o.pricetype = ['S', 'L', '-', 'M']) ∧
              o.symbol = p.selectedSymbol ∧
              o.action = (if readNetQty p > 0 then Side.SELL else Side.BUY).toStr)) := by
      apply List.filter_congr
      intro o _
      exact slOrderFilter_eq _ _ o
    unfold fetchSLOrdersForPosition
    simp only [hk', hsel', hq, hsucc, hord, Bool.or_self, Bool.false_eq_true, if_false]
    rw [← hfil]
    by_cases hlen : (orders.filter (slOrderFilter p.selectedSymbol
        (if readNetQty p > 0 then Side.SELL else Side.BUY))).length > 0
    · rw [if_pos hlen]
    · rw [if_neg hlen]
  · intro h0
    have key : ∀ (ob : OrderbookResponse) (api : Str → Str → SymbolInfoResponse),
        fetchSLOrdersForPosition s p ob api = { p with slOrders := [] } := by
      intro ob api
      unfold fetchSLOrdersForPosition
      split
      · rfl
      · simp only [h0, if_true]
    constructor
    · rw [key]
    · intro ob' api'
      rw [key, key]

/-- Witness of C16 (as amended): the long position of 150 and the example
order book. -/
theorem fetchSLOrdersForPosition_filter_witness :
    (fetchSLOrdersForPosition exLotState (exPanel 150 []) exOrderbook exSymbolApi).slOrders
      = [exSLOrderWith ['1'] ['p', 'u', 't', ' ', 'o', 'r', 'd', 'e', 'r', ' ', 'r', 'e', 'q',
            ' ', 'r', 'e', 'c', 'e', 'i', 'v', 'e', 'd'],
          exSLOrderWith ['2'] ['O', 'P', 'E', 'N'],
          exSLOrderWith ['3'] ['p', 'u', 't', '-', 'o', 'r', 'd', 'e', 'r', '-', 'r', 'e', 'q',
            'u', 'e', 's', 't', '-', 'r', 'e', 'c', 'e', 'i', 'v', 'e', 'd']].filter
          (fun o =>
            decide (toLowerCase o.order_status ∈ slPendingStatuses ∧
              (o.pricetype = ['S', 'L'] ∨ o.pricetype = ['S', 'L', '-', 'M']) ∧
              o.symbol = (exPanel 150 []).selectedSymbol ∧
              o.action = (if readNetQty (exPanel 150 []) > 0 then Side.SELL
                else Side.BUY).toStr)) :=
  (fetchSLOrdersForPosition_filter exLotState (exPanel 150 []) exOrderbook exSymbolApi).1 _
    (by decide) (by decide) (by decide) rfl rfl

/-- Counterexample to C16 as stated: for a long position and an order book of
three matching stop-loss sell orders with statuses `put order req received`,
`OPEN` and `put-order-request-received`, the code keeps the first two and
drops the third, whereas the pending set as stated keeps only the third. -/
theorem fetchSLOrdersForPosition_status_set_differs :
    (fetchSLOrdersForPosition exLotState (exPanel 150 []) exOrderbook exSymbolApi).slOrders.map
        (fun o => o.orderid) = [['1'], ['2']] ∧
      ((exOrderbook.orders.getD []).filter
          (claimedSLFilter (exPanel 150 []).selectedSymbol Side.SELL)).map
        (fun o => o.orderid) = [['3']] := by
  decide

/-- C17 (evaluation of the code at the failing input): for a short position
of 150 (lot size 75) and the order-entry toggle on BUY, the smart order sent by
`placeResize` carries the action BUY, the toggle's action; the smart order
sent by `resizePosition` for the same position carries SELL. -/
theorem placeResize_sends_toggle_action :
    (exPanel (-150) []).currentNetQty = -150 ∧ (exPanel (-150) []).action = Side.BUY ∧
      (placeResize exLotState (exPanel (-150) [])).map (fun r => r.action)
        = some ['B', 'U', 'Y'] ∧
      (placeResize exLotState { exPanel (-150) [] with action := Side.SELL }).map
          (fun r => r.action) = some ['S', 'E', 'L', 'L'] ∧
      (placeResize exLotState (exPanel 150 [])).map (fun r => r.action) = some ['B', 'U', 'Y'] ∧
      (placeResize exLotState { exPanel 150 [] with action := Side.SELL }).map
          (fun r => r.action) = some ['S', 'E', 'L', 'L'] ∧
      (resizePosition exAtm.symbol ['N', 'F', 'O'] ['M', 'I', 'S'] (-150) 75 (some 0)).map
          (fun r => r.action) = some ['S', 'E', 'L', 'L'] ∧
      (resizePosition exAtm.symbol ['N', 'F', 'O'] ['M', 'I', 'S'] 150 75 (some 0)).map
          (fun r => r.action) = some ['B', 'U', 'Y'] := by
  decide


/-- C18 (as amended): `placeNewSLOrder` sends a place-order request exactly
when an underlying is active, a symbol is selected, the absolute value of the
entered lots is positive (the entered lots are not 0) and the entered trigger
price is positive; every request it sends is an SL order for the selected
symbol with the action handed over by `addSLOrder`, which is SELL for a long
position and BUY for a short one, and with quantity `|lots| * lotSize`, the
lot size counting as 1 while it is 0. -/
theorem placeNewSLOrder_sends (s : State) (p : Panel) (slAction : Side)
    (lotsInput : Option Str) (trgInput priceInput : Option ℚ) :
    ((placeNewSLOrder s p slAction lotsInput trgInput priceInput).isSome = true ↔
        (getActiveSymbol s.settings).isSome = true ∧ p.selectedSymbol ≠ [] ∧
          0 < readLots lotsInput ∧ 0 < priceOrZero trgInput) ∧
      (∀ req : PlaceOrderRequest,
        placeNewSLOrder s p slAction lotsInput trgInput priceInput = some req →
        req.pricetype = ['S', 'L'] ∧ req.action = slAction.toStr ∧
        req.symbol = p.selectedSymbol ∧
        req.quantity = readLots lotsInput * (if s.lotSize = 0 then 1 else s.lotSize) ∧
        req.trigger_price = priceOrZero trgInput ∧ req.price = priceOrZero priceInput) ∧
      (∀ v : Int, ∀ text : Str, parseInt text = some v → readLots (some text) = |v|) ∧
      (∀ (remaining : Option Str) (listPresent : Bool) (form : NewSLForm),
        addSLOrder s p remaining listPresent = some form →
        (0 < readNetQty p → form.slAction = Side.SELL) ∧
        (readNetQty p < 0 → form.slAction = Side.BUY)) := by
  refine ⟨?_, ?_, ?_, ?_⟩
  · unfold placeNewSLOrder
    cases hs : getActiveSymbol s.settings with
    | none => simp
    | some symbol =>
      cases hsel : p.selectedSymbol with
      | nil => simp
      | cons c cs =>
        simp only [List.isEmpty_cons, Bool.false_eq_true, if_false, Option.isSome_some,
          true_and, ne_eq, not_false_eq_true, reduceCtorEq]
        by_cases h1 : readLots lotsInput ≤ 0
        · simp [h1, not_lt.2 h1]
        · by_cases h2 : priceOrZero trgInput ≤ 0
          · simp [h1, h2, not_lt.2 h2]
          · simp [h1, h2, not_le.1 h1, not_le.1 h2]
  · intro req hreq
    unfold placeNewSLOrder at hreq
    cases hs : getActiveSymbol s.settings with
    | none => rw [hs] at hreq; simp at hreq
    | some symbol =>
      rw [hs] at hreq
      simp only [] at hreq
      split at hreq
      · simp at hreq
      · split at hreq
        · simp at hreq
        · split at hreq
          · simp at hreq
          · simp only [Option.some.injEq] at hreq
            subst hreq
            refine ⟨rfl, rfl, rfl, ?_, rfl, rfl⟩
            simp only [intOr]
  · intro v text hv
    unfold readLots
    simp only [hv]
  · intro remaining listPresent form hform
    unfold addSLOrder at hform
    cases hs : getActiveSymbol s.settings with
    | none => rw [hs] at hform; simp at hform
    | some symbol =>
      rw [hs] at hform
      simp only [] at hform
      split at hform
      · simp at hform
      · split at hform
        · simp at hform
        · split at hform
          · simp at hform
          · split at hform
            · simp at hform
            · simp only [Option.some.injEq] at hform
              subst hform
              constructor
              · intro h; simp only [gt_iff_lt, h, if_true]
              · intro h; simp only [gt_iff_lt, not_lt.2 (le_of_lt h), if_false]

/-- Witness of C18 (as amended): 2 lots entered with trigger price 100 on the
long position of 150. -/
theorem placeNewSLOrder_sends_witness :
    (placeNewSLOrder exLotState (exPanel 150 []) Side.SELL (some ['2']) (some 100)
        (some 99)).isSome = true :=
  (placeNewSLOrder_sends exLotState (exPanel 150 []) Side.SELL (some ['2']) (some 100)
    (some 99)).1.2 (by decide)

/-- Counterexample to C18 as stated: with `-2` entered as lots (a value that
is not positive) and trigger price 100, `placeNewSLOrder` sends a request, for
`2 * 75 = 150` units. -/
theorem placeNewSLOrder_negative_lots_sent :
    parseInt ['-', '2'] = some (-2) ∧
      (placeNewSLOrder exLotState (exPanel (-150) []) Side.BUY (some ['-', '2']) (some 100)
          (some 101)).isSome = true ∧
      (placeNewSLOrder exLotState (exPanel (-150) []) Side.BUY (some ['-', '2']) (some 100)
          (some 101)).map (fun r => (r.action, r.pricetype, r.quantity))
        = some (['B', 'U', 'Y'], ['S', 'L'], 150) := by
  decide

/-- C19: when the chain has a rung whose offset equals `selectedOffset`,
`updateSelectedOptionLTP` sets `optionLtp` and `optionPrevClose` to the `ltp`
and `prevClose` of the first such rung, `selectedStrike` and `selectedSymbol`
to its strike and symbol, and the order-entry price to that `ltp` (whatever
the order type), leaving every other field; when no rung has that offset the
panel is unchanged.  `updatePriceDisplay`, when the price input exists, sets
the price to `optionLtp` if the order type is MARKET or the force flag is
passed. -/
theorem updateSelectedOptionLTP_spec (s : State) (p : Panel) (priceEl : Bool) :
    (∀ r : StrikeRung, s.strikeChain.find? (fun x => x.offset = p.selectedOffset) = some r →
        updateSelectedOptionLTP s p priceEl
          = { p with
              optionLtp := r.ltp
              optionPrevClose := r.prevClose
              selectedStrike := r.strike
              selectedSymbol := r.symbol
              price := r.ltp }) ∧
      ((∃ r ∈ s.strikeChain, r.offset = p.selectedOffset) →
        ∃ r ∈ s.strikeChain, r.offset = p.selectedOffset ∧
          (updateSelectedOptionLTP s p priceEl).optionLtp = r.ltp ∧
          (updateSelectedOptionLTP s p priceEl).optionPrevClose = r.prevClose ∧
          (updateSelectedOptionLTP s p priceEl).selectedStrike = r.strike ∧
          (updateSelectedOptionLTP s p priceEl).selectedSymbol = r.symbol ∧
          (updateSelectedOptionLTP s p priceEl).price = r.ltp) ∧
      ((∀ r ∈ s.strikeChain, r.offset ≠ p.selectedOffset) →
        updateSelectedOptionLTP s p priceEl = p) ∧
      (∀ force : Bool, priceEl = true → (p.orderType = OrderType.MARKET ∨ force = true) →
        (updatePriceDisplay p priceEl force).price = p.optionLtp) := by
  have hfound : ∀ r : StrikeRung,
      s.strikeChain.find? (fun x => x.offset = p.selectedOffset) = some r →
      updateSelectedOptionLTP s p priceEl
        = { p with
            optionLtp := r.ltp
            optionPrevClose := r.prevClose
            selectedStrike := r.strike
            selectedSymbol := r.symbol
            price := r.ltp } := by
    intro r hr
    unfold updateSelectedOptionLTP
    rw [hr]
    unfold updatePriceDisplay
    cases priceEl <;> simp
  refine ⟨hfound, ?_, ?_, ?_⟩
  · rintro ⟨r0, hr0, hoff0⟩
    cases hf : s.strikeChain.find? (fun x => x.offset = p.selectedOffset) with
    | none =>
      have := List.find?_eq_none.1 hf r0 hr0
      simp [hoff0] at this
    | some r =>
      have hmem := List.mem_of_find?_eq_some hf
      have hoff : r.offset = p.selectedOffset := by
        have := List.find?_some hf
        simpa using this
      rw [hfound r hf]
      exact ⟨r, hmem, hoff, rfl, rfl, rfl, rfl, rfl⟩
  · intro hno
    have hf : s.strikeChain.find? (fun x => x.offset = p.selectedOffset) = none := by
      rw [List.find?_eq_none]
      intro r hr
      simpa using hno r hr
    unfold updateSelectedOptionLTP
    rw [hf]
  · intro force hel hor
    unfold updatePriceDisplay
    rw [hel]
    rcases hor with h | h
    · simp [h]
    · simp [h]

/-- Witness of C19: the ATM rung of the quoted NIFTY chain is selected. -/
theorem updateSelectedOptionLTP_spec_witness :
    ∃ r ∈ exQuoted.strikeChain, r.offset = Panel.initial.selectedOffset ∧
      (updateSelectedOptionLTP exQuoted Panel.initial true).optionLtp = r.ltp ∧
      (updateSelectedOptionLTP exQuoted Panel.initial true).optionPrevClose = r.prevClose ∧
      (updateSelectedOptionLTP exQuoted Panel.initial true).selectedStrike = r.strike ∧
      (updateSelectedOptionLTP exQuoted Panel.initial true).selectedSymbol = r.symbol ∧
      (updateSelectedOptionLTP exQuoted Panel.initial true).price = r.ltp :=
  (updateSelectedOptionLTP_spec exQuoted Panel.initial true).2.1
    ⟨{ atmRung ['N', 'F', 'O'] exAtm.symbol 24500 25 with ltp := 101, prevClose := 99 },
      by decide, by decide⟩

/-- C20: if the wrapper returned by `debounce(fn, d, key)` is called one or
more times on a bucket with no timer pending, each call not before and less
than `d` after the previous one, then until `d` after the last call `fn` has not
run, and from then on `fn` has run exactly once, at `d` after the last call and
with the arguments of the last call, no timer being left pending: every earlier
call was cancelled.  Five calls within 100 ms with `d = 200` give one run, at
300 ms, with the arguments of the fifth call. -/
theorem debounce_runs_once {α : Type} (delay : Nat) (key : Str) (t : Nat) (a : α)
    (rest : List (Nat × α)) (timers : DebounceTimers α)
    (hruns : (timers key).runs = []) (hpend : (timers key).pending = none)
    (hchain : List.Chain (fun u v => u.1 ≤ v.1 ∧ v.1 < u.1 + delay) (t, a) rest) :
    (∀ T : Nat, T < (((t, a) :: rest).getLast (List.cons_ne_nil _ _)).1 + delay →
        (fireDue T (debounceCalls delay key ((t, a) :: rest) timers) key).runs = []) ∧
      (∀ T : Nat, (((t, a) :: rest).getLast (List.cons_ne_nil _ _)).1 + delay ≤ T →
        (fireDue T (debounceCalls delay key ((t, a) :: rest) timers) key).runs
            = [((((t, a) :: rest).getLast (List.cons_ne_nil _ _)).1 + delay,
                (((t, a) :: rest).getLast (List.cons_ne_nil _ _)).2)] ∧
          (fireDue T (debounceCalls delay key ((t, a) :: rest) timers) key).pending = none) ∧
      (fireDue 300 (debounceCalls 200 exMarginKey exFiveCalls (DebounceTimers.empty Nat))
          exMarginKey).runs = [(300, 5)] := by
  have hp := debounceCalls_pending delay key rest t a timers hruns
    (by intro due x h; rw [hpend] at h; exact Option.noConfusion h) hchain
  refine ⟨?_, ?_, by decide⟩
  · intro T hT
    rw [fireDue_not_due T key _ (by
      intro due x h
      rw [hp.2] at h
      simp only [Option.some.injEq, Prod.mk.injEq] at h
      omega)]
    exact hp.1
  · intro T hT
    rw [fireDue_due T key _ _ _ hp.2 hT, hp.1]
    exact ⟨rfl, rfl⟩

/-- Witness of C20: three calls at 0, 150 and 290 ms with `d = 200` run the
function once, at 490 ms, with the arguments of the third call. -/
theorem debounce_runs_once_witness :
    (fireDue 1000 (debounceCalls 200 exMarginKey [(0, 1), (150, 2), (290, 3)]
        (DebounceTimers.empty Nat)) exMarginKey).runs = [(490, 3)] :=
  ((debounce_runs_once 200 exMarginKey 0 1 [(150, 2), (290, 3)] (DebounceTimers.empty Nat)
    rfl rfl
    (List.Chain.cons ⟨by decide, by decide⟩
      (List.Chain.cons ⟨by decide, by decide⟩ List.Chain.nil))).2.1 1000 (by decide)).1

/-! ## Claims C21 to C30 -/

/-- C21: while the order type is not MARKET (LIMIT, SL or SL-M),
`handleWsMessage` leaves the pending strike slot as it was for every inbound
message (so a strike tick is buffered only in MARKET mode), and
`applyPendingWsUpdates` run after it, directly or as the animation-frame
callback, leaves the whole order ticket unchanged, in particular
`state.price` and `state.optionLtp`. -/
theorem ticks_spare_user_price (s : State) (p : Panel) (l : Live) (data : WsData)
    (h : p.orderType ≠ .MARKET) :
    (handleWsMessage s p l data).pendingWsUpdate.strike = l.pendingWsUpdate.strike ∧
      (applyPendingWsUpdates p (handleWsMessage s p l data)).1 = p ∧
      (applyPendingWsUpdates p (handleWsMessage s p l data)).1.price = p.price ∧
      (applyPendingWsUpdates p (handleWsMessage s p l data)).1.optionLtp = p.optionLtp ∧
      (animationFrame p (handleWsMessage s p l data)).1 = p := by
  have hp := applyPendingWsUpdates_panel p (handleWsMessage s p l data) h
  refine ⟨handleWsMessage_strike_slot s p l data h, hp, by rw [hp], by rw [hp], ?_⟩
  unfold animationFrame
  split
  · exact hp
  · rfl

/-- Witness of C21: the ATM tick at 105 arrives after the order type has been
switched to LIMIT; the ticket keeps its price 101. -/
theorem ticks_spare_user_price_witness :
    exBufferedThenLimit.1.orderType ≠ .MARKET ∧
      (applyPendingWsUpdates exBufferedThenLimit.1
        (handleWsMessage exQuoted exBufferedThenLimit.1 exLive
          (tickMessage exStrikeTick))).1.price = 101 :=
  ⟨by decide,
    (ticks_spare_user_price exQuoted exBufferedThenLimit.1 exLive (tickMessage exStrikeTick)
      (by decide)).2.2.1.trans (by decide)⟩

/-- C22 (as amended): with an active underlying, after any run of market-data
messages whose last tick carries the symbol of the underlying subscription,
`applyPendingWsUpdates` sets `state.underlyingLtp` to the ltp of that last
tick; in MARKET mode the same holds for the strike subscription and
`state.optionLtp`.  After every flush the underlying slot is empty; the
strike slot is empty when the order type is MARKET and is left as it was
otherwise. -/
theorem flush_applies_last_tick (s : State) (p : Panel) (l : Live) (symbol : SymbolConfig)
    (hs : getActiveSymbol s.settings = some symbol) :
    (∀ (sub : Subscription) (ticks : List TickData) (last : TickData),
        l.wsSubscriptions.underlying = some sub → last.symbol = sub.symbol →
        (applyPendingWsUpdates p (handleTicks s p l (ticks ++ [last]))).2.underlyingLtp
          = last.ltp) ∧
      (p.orderType = .MARKET →
        ∀ (sub : Subscription) (ticks : List TickData) (last : TickData),
          l.wsSubscriptions.strike = some sub → last.symbol = sub.symbol →
          (applyPendingWsUpdates p (handleTicks s p l (ticks ++ [last]))).1.optionLtp
            = last.ltp) ∧
      (applyPendingWsUpdates p l).2.pendingWsUpdate.underlying = none ∧
      (p.orderType = .MARKET → (applyPendingWsUpdates p l).2.pendingWsUpdate.strike = none) ∧
      (p.orderType ≠ .MARKET →
        (applyPendingWsUpdates p l).2.pendingWsUpdate.strike = l.pendingWsUpdate.strike) := by
  refine ⟨?_, ?_, applyPendingWsUpdates_underlying_slot p l,
    applyPendingWsUpdates_strike_slot_market p l, applyPendingWsUpdates_strike_slot p l⟩
  · intro sub ticks last hsub hsym
    apply applyPendingWsUpdates_underlyingLtp
    rw [handleTicks_append]
    apply handleWsMessage_underlying_tick s p _ last symbol sub hs _ hsym
    rw [handleTicks_subscriptions, hsub]
  · intro hm sub ticks last hsub hsym
    apply applyPendingWsUpdates_optionLtp _ _ _ hm
    rw [handleTicks_append]
    apply handleWsMessage_strike_tick s p _ last symbol sub hs hm _ hsym
    rw [handleTicks_subscriptions, hsub]

/-- Witness of C22 (as amended): two ATM ticks, at 103 and then 105, before one
flush in MARKET mode leave the option price at 105. -/
theorem flush_applies_last_tick_witness :
    getActiveSymbol exQuoted.settings = some exSymbol ∧
      (applyPendingWsUpdates exSelected
        (handleTicks exQuoted exSelected exLive
          ([{ symbol := exAtm.symbol, ltp := 103 }] ++ [exStrikeTick]))).1.optionLtp = 105 :=
  ⟨by decide,
    (flush_applies_last_tick exQuoted exSelected exLive exSymbol (by decide)).2.1 (by decide)
      { symbol := exAtm.symbol, exchange := ['N', 'F', 'O'] }
      [{ symbol := exAtm.symbol, ltp := 103 }] exStrikeTick (by decide) (by decide)⟩

/-- Counterexample to C22 as stated: the ATM tick at 105 is buffered in MARKET
mode, the order type is switched to LIMIT before the animation frame, and the
flush that follows leaves the strike slot holding 105 instead of emptying
it. -/
theorem flush_leaves_strike_slot :
    exSelected.orderType = .MARKET ∧
      exBufferedThenLimit.1.orderType = .LIMIT ∧
      exBufferedThenLimit.2.pendingWsUpdate.strike = some 105 ∧
      (applyPendingWsUpdates exBufferedThenLimit.1
        exBufferedThenLimit.2).2.pendingWsUpdate.strike = some 105 ∧
      (animationFrame exBufferedThenLimit.1
        exBufferedThenLimit.2).2.pendingWsUpdate.strike ≠ none := by
  decide

/-- C23 (as amended): on an open connection `wsSubscribe(symbol, exchange,
type)` leaves the slot of its target holding a subscription to `symbol`.  When
the slot already held a subscription to the same symbol nothing is sent and
nothing changes (the entry keeps the exchange it had); when it held another
symbol, the unsubscribe for the previous symbol and exchange is sent first,
then the subscribe for the new one, and the slot holds `(symbol, exchange)`;
when it was empty only the subscribe is sent.  The slot of the other target
is never changed. -/
theorem wsSubscribe_one_per_target (l : Live) (symbol exchange type : Str) (sock : Socket)
    (hws : l.ws = some sock) (hopen : sock.readyState = .OPEN) :
    (∃ sub, (wsSubscribe l symbol exchange type).wsSubscriptions.get (targetKey type) = some sub ∧
        sub.symbol = symbol) ∧
      (∀ previous, l.wsSubscriptions.get (targetKey type) = some previous →
        previous.symbol = symbol → wsSubscribe l symbol exchange type = l) ∧
      (∀ previous, l.wsSubscriptions.get (targetKey type) = some previous →
        previous.symbol ≠ symbol →
        (wsSubscribe l symbol exchange type).wsSubscriptions.get (targetKey type)
            = some { symbol := symbol, exchange := exchange } ∧
          (wsSubscribe l symbol exchange type).ws
            = some { sock with
                sent := sock.sent ++ [.unsubscribe previous.symbol previous.exchange,
                  .subscribe symbol exchange] }) ∧
      (l.wsSubscriptions.get (targetKey type) = none →
        (wsSubscribe l symbol exchange type).wsSubscriptions.get (targetKey type)
            = some { symbol := symbol, exchange := exchange } ∧
          (wsSubscribe l symbol exchange type).ws
            = some { sock with sent := sock.sent ++ [.subscribe symbol exchange] }) ∧
      (∀ other, other ≠ targetKey type →
        (wsSubscribe l symbol exchange type).wsSubscriptions.get other
          = l.wsSubscriptions.get other) := by
  have ho := isOpen_of_socket hws hopen
  have hsame : ∀ previous, l.wsSubscriptions.get (targetKey type) = some previous →
      previous.symbol = symbol → wsSubscribe l symbol exchange type = l := by
    intro previous hp hsym
    unfold wsSubscribe
    simp [ho, hp, hsym]
  have hdiff : ∀ previous, l.wsSubscriptions.get (targetKey type) = some previous →
      previous.symbol ≠ symbol →
      wsSubscribe l symbol exchange type =
        { l with
          ws := some { sock with
            sent := sock.sent ++ [.unsubscribe previous.symbol previous.exchange,
              .subscribe symbol exchange] }
          wsSubscriptions := (l.wsSubscriptions.set (targetKey type) none).set (targetKey type)
            (some { symbol := symbol, exchange := exchange }) } := by
    intro previous hp hsym
    unfold wsSubscribe wsUnsubscribe
    simp [ho, hp, hsym, wsSend, hws]
  have hnone : l.wsSubscriptions.get (targetKey type) = none →
      wsSubscribe l symbol exchange type =
        { l with
          ws := some { sock with sent := sock.sent ++ [.subscribe symbol exchange] }
          wsSubscriptions := l.wsSubscriptions.set (targetKey type)
            (some { symbol := symbol, exchange := exchange }) } := by
    intro hp
    unfold wsSubscribe
    simp [ho, hp, wsSend, hws]
  refine ⟨?_, hsame, ?_, ?_, ?_⟩
  · cases hp : l.wsSubscriptions.get (targetKey type) with
    | none =>
      rw [hnone hp]
      exact ⟨{ symbol := symbol, exchange := exchange }, by simp [WsSubscriptions.get_set], rfl⟩
    | some previous =>
      by_cases hsym : previous.symbol = symbol
      · rw [hsame previous hp hsym]
        exact ⟨previous, hp, hsym⟩
      · rw [hdiff previous hp hsym]
        exact ⟨{ symbol := symbol, exchange := exchange }, by simp [WsSubscriptions.get_set], rfl⟩
  · intro previous hp hsym
    rw [hdiff previous hp hsym]
    exact ⟨by simp [WsSubscriptions.get_set], rfl⟩
  · intro hp
    rw [hnone hp]
    exact ⟨by simp [WsSubscriptions.get_set], rfl⟩
  · intro other hne
    cases hp : l.wsSubscriptions.get (targetKey type) with
    | none =>
      rw [hnone hp]
      simp [WsSubscriptions.get_set, hne]
    | some previous =>
      by_cases hsym : previous.symbol = symbol
      · rw [hsame previous hp hsym]
      · rw [hdiff previous hp hsym]
        simp [WsSubscriptions.get_set, hne]

/-- Witness of C23 (as amended): on the open connection of `exLive` the strike
target moves from the ATM call to another symbol; the unsubscribe goes out
before the subscribe and the underlying slot stays. -/
theorem wsSubscribe_one_per_target_witness :
    (wsSubscribe exLive (exSymbolText ['2', '4', '5', '5', '0', 'C', 'E']) ['N', 'F', 'O']
        ['s', 't', 'r', 'i', 'k', 'e']).ws
      = some { readyState := .OPEN,
               sent := exSubscribedLog ++ [.unsubscribe exAtm.symbol ['N', 'F', 'O'],
                 .subscribe (exSymbolText ['2', '4', '5', '5', '0', 'C', 'E']) ['N', 'F', 'O']] } :=
  ((wsSubscribe_one_per_target exLive (exSymbolText ['2', '4', '5', '5', '0', 'C', 'E'])
      ['N', 'F', 'O'] ['s', 't', 'r', 'i', 'k', 'e']
      { readyState := .OPEN, sent := exSubscribedLog } (by decide) (by decide)).2.2.1
    { symbol := exAtm.symbol, exchange := ['N', 'F', 'O'] } (by decide) (by decide)).2

/-- Counterexample to C23 as stated: the underlying target of `exLive` is
subscribed to NIFTY on NSE_INDEX; `wsSubscribe('NIFTY', 'BSE_INDEX',
'underlying')` on the open connection sends nothing and the slot still holds
`(NIFTY, NSE_INDEX)`, not `(NIFTY, BSE_INDEX)`. -/
theorem wsSubscribe_keeps_old_exchange :
    exLive.isOpen = true ∧
      wsSubscribe exLive exSymbol.symbol ['B', 'S', 'E', '_', 'I', 'N', 'D', 'E', 'X']
          ['u', 'n', 'd', 'e', 'r', 'l', 'y', 'i', 'n', 'g'] = exLive ∧
      (wsSubscribe exLive exSymbol.symbol ['B', 'S', 'E', '_', 'I', 'N', 'D', 'E', 'X']
          ['u', 'n', 'd', 'e', 'r', 'l', 'y', 'i', 'n', 'g']).wsSubscriptions.underlying
        = some { symbol := exSymbol.symbol, exchange := exSymbol.exchange } ∧
      (wsSubscribe exLive exSymbol.symbol ['B', 'S', 'E', '_', 'I', 'N', 'D', 'E', 'X']
          ['u', 'n', 'd', 'e', 'r', 'l', 'y', 'i', 'n', 'g']).wsSubscriptions.underlying
        ≠ some { symbol := exSymbol.symbol,
                 exchange := ['B', 'S', 'E', '_', 'I', 'N', 'D', 'E', 'X'] } := by
  decide

/-- C24 (evaluation of the code at the failing input): live data is on, the
underlying and the ATM call are subscribed on the first socket; the
connection is lost, the reconnect timer fires, the new socket opens and
authenticates.  `wsSubscriptions` still holds both entries, so the next
`updateWsSubscriptions()` sends nothing: the only message on the new socket
is the authentication.  After `wsDisconnect()`, which resets
`wsSubscriptions`, the same call on a new socket sends both subscribes. -/
theorem reconnect_sends_no_subscribe :
    exLive.liveDataEnabled = true ∧
      exLive.ws = some { readyState := .OPEN, sent := exSubscribedLog } ∧
      exReconnected.ws = some { readyState := .OPEN, sent := [.authenticate ['k']] } ∧
      exReconnected.wsSubscriptions = exLive.wsSubscriptions ∧
      (updateWsSubscriptions exQuoted exSelected exReconnected).ws
        = some { readyState := .OPEN, sent := [.authenticate ['k']] } ∧
      (updateWsSubscriptions exQuoted exSelected exToggledOffOn).ws
        = some { readyState := .OPEN, sent := exSubscribedLog } := by
  decide

/-- C25: for a non-empty string `U` of upper-case letters, an expiry `E` of
two digits, three upper-case letters and two digits, a non-empty digit string
`S` and `T` one of `CE`, `PE`, `parseOptionSymbol(U + E + S + T)` returns
underlying `U`, expiry `E`, strike `S`, option type `T` and `isOption` true;
hence the synthetic symbol `U + E + k + t` of a strike `k >= 0` parses back to
`U`, `E`, the decimal text of `k` (whose value is `k`) and `t`. -/
theorem parseOptionSymbol_roundtrip (U E S T : Str)
    (hU : U ≠ []) (hUu : ∀ c ∈ U, c.isUpper = true) (hE : isExpiryTag E = true)
    (hS : S ≠ []) (hSd : ∀ c ∈ S, c.isDigit = true)
    (hT : T = ['C', 'E'] ∨ T = ['P', 'E']) :
    parseOptionSymbol (U ++ E ++ S ++ T)
        = some { underlying := U, expiry := E, strike := S, optionType := T, isOption := true } ∧
      ∀ (k : Int) (t : OptionType), 0 ≤ k →
        parseOptionSymbol (buildSymbol U E k t)
            = some { underlying := U, expiry := E, strike := intToStr k, optionType := t.toStr,
                     isOption := true } ∧
          (parseDigits (intToStr k) : Int) = k := by
  refine ⟨parseOptionSymbol_compose U E S T hU hUu hE hS hSd hT, ?_⟩
  intro k t hk
  have hks := intToStr_nonneg k hk
  constructor
  · unfold buildSymbol
    rw [hks]
    exact parseOptionSymbol_compose U E (natToStr k.toNat) t.toStr hU hUu hE
      (natToStr_ne_nil _) (natToStr_isDigit _) (toStr_cases t)
  · rw [hks, parseDigits_natToStr]
    exact Int.toNat_of_nonneg hk

/-- Witness of C25: `NIFTY26DEC2424500CE` gives NIFTY, 26DEC24, 24500, CE. -/
theorem parseOptionSymbol_roundtrip_witness :
    parseOptionSymbol exNiftyDec
      = some { underlying := ['N', 'I', 'F', 'T', 'Y'],
               expiry := ['2', '6', 'D', 'E', 'C', '2', '4'],
               strike := ['2', '4', '5', '0', '0'], optionType := ['C', 'E'],
               isOption := true } :=
  (parseOptionSymbol_roundtrip ['N', 'I', 'F', 'T', 'Y'] ['2', '6', 'D', 'E', 'C', '2', '4']
    ['2', '4', '5', '0', '0'] ['C', 'E'] (by decide) (by decide) (by decide) (by decide)
    (by decide) (Or.inl rfl)).1

/-- C26: in a cache reached from the empty cache by calls of
`getLotSizeForOrder` and `fetchLotSizesForOrders`, an entry `key -> v` stays
`key -> v` after any further calls of the two functions;
`getLotSizeForOrder` on an order with that key returns `v`, leaves the cache
as it is and issues no lookup; `fetchLotSizesForOrders` queues no lookup for
that key.  The key of an option order is `underlying:expiry`, the same for
two orders with the same underlying and expiry whatever their strikes and
option types, and the key of any other order is `symbol:exchange`; both
functions compute the same key for an order. -/
theorem lotSizeCache_entry_stays (before : List CacheCall) (key : Str) (v : Int)
    (h : cacheGet (cacheAfter before []) key = some v) :
    (∀ after : List CacheCall,
        cacheGet (cacheAfter after (cacheAfter before [])) key = some v) ∧
      (∀ (order : Order) (symbolApi : Str → Str → SymbolInfoResponse),
        lotSizeKeyForOrder order = key →
        getLotSizeForOrder (cacheAfter before []) order symbolApi
          = (v, cacheAfter before [], [])) ∧
      (∀ (orders : List Order),
        ∀ e ∈ collectUniqueKeys (cacheAfter before []) orders [], e.1 ≠ key) ∧
      (∀ (o1 o2 : Order) (U E S1 S2 T1 T2 : Str), U ≠ [] → (∀ c ∈ U, c.isUpper = true) →
        isExpiryTag E = true → S1 ≠ [] → (∀ c ∈ S1, c.isDigit = true) → S2 ≠ [] →
        (∀ c ∈ S2, c.isDigit = true) → (T1 = ['C', 'E'] ∨ T1 = ['P', 'E']) →
        (T2 = ['C', 'E'] ∨ T2 = ['P', 'E']) → o1.symbol = U ++ E ++ S1 ++ T1 →
        o2.symbol = U ++ E ++ S2 ++ T2 →
        lotSizeKeyForOrder o1 = U ++ [':'] ++ E ∧ lotSizeKeyForOrder o2 = U ++ [':'] ++ E) ∧
      (∀ (order : Order) (parsed : ParsedSymbol), parseOptionSymbol order.symbol = some parsed →
        parsed.isOption = false →
        lotSizeKeyForOrder order = order.symbol ++ [':'] ++ order.exchange) ∧
      (∀ (order : Order) (parsed : ParsedSymbol), parseOptionSymbol order.symbol = some parsed →
        orderCacheKey parsed order = lotSizeKeyForOrder order) := by
  have hc : CacheOk (cacheAfter before []) := cacheAfter_ok before [] cacheOk_nil
  refine ⟨?_, ?_, ?_, ?_, ?_, ?_⟩
  · intro after
    exact cacheAfter_get after key v _ hc h
  · intro order symbolApi hk
    exact getLotSizeForOrder_hit _ order symbolApi v hc (by rw [hk]; exact h)
  · intro orders
    exact collectUniqueKeys_fresh _ orders key v hc h
  · intro o1 o2 U E S1 S2 T1 T2 hU hUu hE hS1 hS1d hS2 hS2d hT1 hT2 ho1 ho2
    exact ⟨lotSizeKeyForOrder_option o1 U E S1 T1 hU hUu hE hS1 hS1d hT1 ho1,
      lotSizeKeyForOrder_option o2 U E S2 T2 hU hUu hE hS2 hS2d hT2 ho2⟩
  · intro order parsed hp hopt
    unfold lotSizeKeyForOrder
    rw [hp]
    simp [hopt]
  · intro order parsed hp
    unfold lotSizeKeyForOrder orderCacheKey
    rw [hp]

/-- Witness of C26: the lot size 75 cached for `NIFTY:28NOV24` by a lookup of
the ATM call is still 75 after a lookup of the 24450 put against a server
that answers 50. -/
theorem lotSizeCache_entry_stays_witness :
    cacheGet (cacheAfter [.getLotSizeForOrder exSLOrder exSymbolApi] [])
        (['N', 'I', 'F', 'T', 'Y'] ++ [':'] ++ exExpiry) = some 75 ∧
      cacheGet
        (cacheAfter
          [.getLotSizeForOrder (exOrderFor (exSymbolText ['2', '4', '4', '5', '0', 'P', 'E']))
            exSymbolApi50]
          (cacheAfter [.getLotSizeForOrder exSLOrder exSymbolApi] []))
        (['N', 'I', 'F', 'T', 'Y'] ++ [':'] ++ exExpiry) = some 75 :=
  ⟨by decide,
    (lotSizeCache_entry_stays [.getLotSizeForOrder exSLOrder exSymbolApi]
      (['N', 'I', 'F', 'T', 'Y'] ++ [':'] ++ exExpiry) 75 (by decide)).1
      [.getLotSizeForOrder (exOrderFor (exSymbolText ['2', '4', '4', '5', '0', 'P', 'E']))
        exSymbolApi50]⟩

/-- C27: let a chain be built by `fetchStrikeChain` for one option type at
level `n` with a resolved interval `d > 0`, and let the resolution for the
other option type give the same ATM strike and the same interval.  Then the
CE/PE toggle (`switchOptionType` after the option type is flipped) and a direct
`fetchStrikeChain` for the other option type give the same sequence of
(offset, strike) pairs, rung for rung, and the same symbol on every rung that
is not the ATM rung. -/
theorem switch_matches_direct_build (s : State) (atm itm1 atm2 itm2 : SymbolResponse)
    (q q1 q2 : QuoteResponse) (symbol : SymbolConfig) (hf : s.isFetchingStrikeChain = false)
    (hs : getActiveSymbol s.settings = some symbol) (he : s.selectedExpiry ≠ [])
    (ha : atm.success = true) (hi : itm1.success = true)
    (hd : 0 < |parseStrike atm.symbol - parseStrike itm1.symbol|)
    (ha2 : atm2.success = true) (hi2 : itm2.success = true)
    (hk2 : parseStrike atm2.symbol = parseStrike atm.symbol)
    (hd2 : |parseStrike atm2.symbol - parseStrike itm2.symbol|
      = |parseStrike atm.symbol - parseStrike itm1.symbol|) :
    (onOptionTypeToggle (fetchStrikeChain s atm itm1 q) atm2 itm2 q1).strikeChain.map
          StrikeRung.offsetStrike
        = (fetchStrikeChain
            { fetchStrikeChain s atm itm1 q with
              optionType := (fetchStrikeChain s atm itm1 q).optionType.toggle }
            atm2 itm2 q2).strikeChain.map StrikeRung.offsetStrike ∧
      (onOptionTypeToggle (fetchStrikeChain s atm itm1 q) atm2 itm2 q1).strikeChain.length
        = 2 * s.extendLevel + 1 ∧
      ∀ (i : Nat) (r r2 : StrikeRung),
        (onOptionTypeToggle (fetchStrikeChain s atm itm1 q) atm2 itm2 q1).strikeChain[i]?
          = some r →
        (fetchStrikeChain
            { fetchStrikeChain s atm itm1 q with
              optionType := (fetchStrikeChain s atm itm1 q).optionType.toggle }
            atm2 itm2 q2).strikeChain[i]? = some r2 →
        r.offset = r2.offset ∧ r.strike = r2.strike ∧
          (r.offset ≠ atmOffset → r.symbol = r2.symbol) := by
  have h := switch_direct_aux s atm itm1 atm2 itm2 q q1 q2 symbol hf hs he ha hi hd ha2 hi2
    hk2 hd2
  have hview : ∀ l : List StrikeRung,
      l.map StrikeRung.offsetStrike
        = (l.map StrikeRung.ladderView).map (fun v => (v.1, v.2.1)) := by
    intro l
    rw [List.map_map]
    rfl
  refine ⟨by rw [hview, h, ← hview], ?_, ?_⟩
  · have hlen := congrArg List.length h
    rw [List.length_map, List.length_map] at hlen
    rw [hlen]
    have hb := fetchStrikeChain_built s atm itm1 q symbol hf hs he ha hi
    have hoff := fetchStrikeChain_offsets
      { fetchStrikeChain s atm itm1 q with
        optionType := (fetchStrikeChain s atm itm1 q).optionType.toggle }
      atm2 itm2 q2 symbol (by rw [hb]) (by rw [hb]; exact hs) (by rw [hb]; exact he) ha2 hi2
    have hl := congrArg List.length hoff
    rw [List.length_map, canonicalOffsets_length] at hl
    rw [hl, hb]
  · intro i r r2 hr hr2
    have hi := congrArg (fun l => l[i]?) h
    simp only [List.getElem?_map, hr, hr2, Option.map_some'] at hi
    have hv : r.ladderView = r2.ladderView := Option.some.inj hi
    unfold StrikeRung.ladderView at hv
    have h1 : r.offset = r2.offset := congrArg Prod.fst hv
    have h2 : r.strike = r2.strike := congrArg (fun v => v.2.1) hv
    have h3 := congrArg (fun v => v.2.2) hv
    refine ⟨h1, h2, ?_⟩
    intro hne
    have hne2 : r2.offset ≠ atmOffset := by rw [← h1]; exact hne
    simp only [hne, hne2, if_false] at h3
    exact Option.some.inj h3

/-- Witness of C27: the NIFTY call chain of level 2 around 24500 with interval
50, toggled to puts, against the put chain built from the put resolutions
24500 (ATM) and 24550 (ITM1). -/
theorem switch_matches_direct_build_witness :
    (onOptionTypeToggle (fetchStrikeChain (exState .CE) exAtm exItm1 exNoQuotes) exAtmPut
        exItm1Put exNoQuotes).strikeChain.map StrikeRung.offsetStrike
      = (fetchStrikeChain
          { fetchStrikeChain (exState .CE) exAtm exItm1 exNoQuotes with
            optionType := (fetchStrikeChain (exState .CE) exAtm exItm1 exNoQuotes).optionType.toggle }
          exAtmPut exItm1Put exAtmQuote).strikeChain.map StrikeRung.offsetStrike :=
  (switch_matches_direct_build (exState .CE) exAtm exItm1 exAtmPut exItm1Put exNoQuotes
    exNoQuotes exAtmQuote exSymbol (by decide) (by decide) (by decide) (by decide) (by decide)
    (by decide) (by decide) (by decide) (by decide) (by decide)).1

/-- C28 (evaluation of the code at the failing input): a stop-loss sell order
for the selected ATM call whose status is `trigger_pending`.  The `open`
filter of `renderOrders` replaces the underscore by a space and shows the
order as open; the pending test of `fetchSLOrdersForPosition` only
lower-cases the status and rejects it, so the order is not counted as a
pending stop-loss order although price type, symbol and side match.  The
same order with the status `trigger pending` passes both tests. -/
theorem underscore_status_open_not_pending :
    renderOrdersFilter openFilter exUnderscoreOrder = true ∧
      slOrderFilter exAtm.symbol .SELL exUnderscoreOrder = false ∧
      [['S', 'L'], ['S', 'L', '-', 'M']].contains exUnderscoreOrder.pricetype = true ∧
      exUnderscoreOrder.symbol = exAtm.symbol ∧
      exUnderscoreOrder.action = Side.SELL.toStr ∧
      (fetchSLOrdersForPosition exLotState (exPanel 75 [])
        { success := true, orders := some [exUnderscoreOrder] } exSymbolApi).slOrders = [] ∧
      renderOrdersFilter openFilter exSLOrder = true ∧
      slOrderFilter exAtm.symbol .SELL exSLOrder = true := by
  decide

/-- C29: let rung `i` of the chain be the first rung carrying its symbol (the
rung `find` returns for it), and let a successful multiquotes response carry a
row for that symbol with a data object `d`, no later row for the symbol
carrying data.  Then `_fetchStrikeLTPs` leaves the rung with `ltp = d.ltp || 0`
and `prevClose = d.prev_close || 0` and otherwise unchanged: a missing or zero
`ltp` sets the rung's ltp to 0 whatever it was before, and likewise for
`prev_close`.  A row without a data object leaves the whole chain unchanged,
and a response in which every row for the symbol lacks the data object leaves
the rung unchanged. -/
theorem fetchStrikeLTPs_zero_overwrites (s : State) (q : QuoteResponse)
    (pre post : List QuoteRow) (row : QuoteRow) (d : QuoteData) (i : Nat) (r : StrikeRung)
    (hq : q.success = true) (hrows : q.results = some (pre ++ row :: post))
    (hr : s.strikeChain[i]? = some r) (hsym : row.symbol = r.symbol)
    (hfirst : ∀ j, j < i → (s.strikeChain.map (fun x => x.symbol))[j]? ≠ some r.symbol)
    (hd : row.data = some d)
    (hpost : ∀ row2 ∈ post, row2.symbol ≠ r.symbol ∨ row2.data = none) :
    (_fetchStrikeLTPs s q).strikeChain[i]?
        = some { r with ltp := priceOrZero d.ltp, prevClose := priceOrZero d.prev_close } ∧
      ((d.ltp = none ∨ d.ltp = some 0) →
        ((_fetchStrikeLTPs s q).strikeChain[i]?).map (fun x => x.ltp) = some 0) ∧
      ((d.prev_close = none ∨ d.prev_close = some 0) →
        ((_fetchStrikeLTPs s q).strikeChain[i]?).map (fun x => x.prevClose) = some 0) ∧
      (∀ (chain : List StrikeRung) (row0 : QuoteRow), row0.data = none →
        applyQuoteRow chain row0 = chain) ∧
      (∀ q2 : QuoteResponse,
        (∀ rows, q2.results = some rows → ∀ row2 ∈ rows, row2.symbol = r.symbol →
          row2.data = none) →
        (_fetchStrikeLTPs s q2).strikeChain[i]? = some r) := by
  have h := fetchStrikeLTPs_row_applied s q pre post row d i r hq hrows hr hsym hfirst hd hpost
  refine ⟨h, ?_, ?_, applyQuoteRow_no_data, ?_⟩
  · intro hz
    rw [h]
    rcases hz with hz | hz <;> simp [hz, priceOrZero]
  · intro hz
    rw [h]
    rcases hz with hz | hz <;> simp [hz, priceOrZero]
  · intro q2 h2
    exact fetchStrikeLTPs_rows_without_data s q2 i r hr h2

/-- Witness of C29: the ATM rung of the quoted NIFTY chain holds ltp 101 and
previous close 99; a row for its symbol without `ltp` and with `prev_close` 0
leaves it at 0 and 0. -/
theorem fetchStrikeLTPs_zero_overwrites_witness :
    exQuoted.strikeChain[2]? = some exAtmRungQuoted ∧
      exAtmRungQuoted.ltp = 101 ∧
      (_fetchStrikeLTPs exQuoted exZeroQuote).strikeChain[2]?
        = some { exAtmRungQuoted with ltp := 0, prevClose := 0 } :=
  ⟨by decide, by decide,
    (fetchStrikeLTPs_zero_overwrites exQuoted exZeroQuote [] []
      { symbol := exAtm.symbol, data := some { ltp := none, prev_close := some 0 } }
      { ltp := none, prev_close := some 0 } 2 exAtmRungQuoted (by decide) (by decide)
      (by decide) (by decide) (by decide) (by decide) (by decide)).1.trans (by decide)⟩

/-- C30: once `initializeQuantityInput` has run with `lotSize > 0` (the lots
input being there), after every sequence of decrement clicks, increment clicks
and manual entries (`input` and `change` events, which go through
`setQuantityFromDisplay`), `state.lots` is `k * lotSize` for a whole number
`k >= 1`, so it is never below one lot, and `getApiQuantity()` returns that
same positive multiple of the lot size. -/
theorem lots_stay_positive_multiple (s : State) (q0 : Quantity) (el : LotsInput)
    (events : List QtyEvent) (hl : 0 < s.lotSize) (hel : q0.lotsInput = some el) :
    (∃ k : Int, 1 ≤ k ∧
        (qtyRun s (initializeQuantityInput s q0) events).lots = k * s.lotSize ∧
        getApiQuantity (qtyRun s (initializeQuantityInput s q0) events) = k * s.lotSize) ∧
      (initializeQuantityInput s q0).lots = s.lotSize ∧
      s.lotSize ≤ (qtyRun s (initializeQuantityInput s q0) events).lots ∧
      0 < getApiQuantity (qtyRun s (initializeQuantityInput s q0) events) := by
  have h0 := initializeQuantityInput_ok s q0 el hl hel
  have h := qtyRun_ok s events hl _ h0
  have hq := getApiQuantity_eq s _ hl h
  have hle := lotsOk_le s _ hl h
  refine ⟨?_, ?_, hle, by rw [hq]; omega⟩
  · obtain ⟨k, hk, he⟩ := h
    exact ⟨k, hk, he, by rw [hq, he]⟩
  · unfold initializeQuantityInput
    rw [hel]
    simp [hl]

/-- Witness of C30: lot size 75; two increments, a decrement, a manual entry of
4 lots and five decrements leave one lot, 75 units. -/
theorem lots_stay_positive_multiple_witness :
    (qtyRun exLotState (initializeQuantityInput exLotState exQuantity)
        [.inc, .inc, .dec, .click, .input (some 4), .dec, .dec, .dec, .dec, .dec]).lots = 75 ∧
      75 ≤ (qtyRun exLotState (initializeQuantityInput exLotState exQuantity)
        [.inc, .inc, .dec, .click, .input (some 4), .dec, .dec, .dec, .dec, .dec]).lots :=
  ⟨by decide,
    (lots_stay_positive_multiple exLotState exQuantity { oaLoading := false, readOnly := true }
      [.inc, .inc, .dec, .click, .input (some 4), .dec, .dec, .dec, .dec, .dec] (by decide)
      rfl).2.2.1⟩

end OpenAlgo
